import Mathlib

/-!
Scheduler event router of Pydio Cells: embedding and verified properties

Shallow embedding of `scheduler/tasks/subscriber.go` together with the helpers of
`common/proto/tree/node.go` and `common/proto/jobs/ds-selector.go` it calls.

Conventions of the embedding
* a Go `map[string]T` is an association list with unique keys (`StrMap T`), a possibly
  nil map or pointer is an `Option`; where a map is written through a reference
  (`Node.WithoutReservedMetas`) the map objects live in a heap and a map value is an
  address;
* a run-time panic is a value of `Fault`; code that can panic returns `Except Fault _`;
* a channel send or a `go task.EnqueueRunnables(...)` is recorded in the result of the
  handler, in program order;
* constants and functions of packages whose sources are not available are fields of
  `Env`, so that every theorem holds for all their values.
-/

namespace Cells

/-! ## Go run-time -/

/-- A Go map with string keys. -/
abbrev StrMap (β : Type) := AList (fun _ : String => β)

/-- Run-time panics of the embedded code. -/
inductive Fault where
  | nilPointerDereference
deriving DecidableEq, Repr

/-! ## Messages (generated protobuf types, fields read by the embedded code) -/

/-- Values of `tree.NodeType`. -/
inductive NodeType where
  | UNKNOWN | LEAF | COLLECTION
deriving DecidableEq, Repr

/-- Values of `tree.NodeChangeEvent_EventType`. -/
inductive NodeChangeEvent_EventType where
  | CREATE | READ | UPDATE_PATH | UPDATE_CONTENT | UPDATE_META | DELETE | UPDATE_USER_META
deriving DecidableEq, Repr

/-- Message `tree.Node`; `MetaStore` is `none` for a nil map. -/
structure Node where
  Uuid : String
  Path : String
  Type_ : NodeType
  Size : Int
  MTime : Int
  Mode : Int
  Etag : String
  MetaStore : Option (StrMap String)
deriving DecidableEq

/-- Message `tree.NodeChangeEvent`; `Source` and `Target` are pointers. -/
structure NodeChangeEvent where
  Type_ : NodeChangeEvent_EventType
  Source : Option Node
  Target : Option Node
  Silent : Bool
  Optimistic : Bool
deriving DecidableEq

/-- Values of `idm.ChangeEventType`. -/
inductive ChangeEventType where
  | CREATE | READ | UPDATE | DELETE | BIND | LOGOUT | LOGIN
deriving DecidableEq, Repr

/-- Message `idm.User`. -/
structure IdmUser where
  Uuid : String
  Login : String
  GroupPath : String
  IsGroup : Bool
deriving DecidableEq

/-- Message `idm.Role`. -/
structure IdmRole where
  Uuid : String
  Label : String
deriving DecidableEq

/-- Message `idm.Workspace`. -/
structure IdmWorkspace where
  UUID : String
  Label : String
  Slug : String
deriving DecidableEq

/-- Message `idm.ACL`. -/
structure IdmACL where
  ID : String
  NodeID : String
  RoleID : String
  WorkspaceID : String
deriving DecidableEq

/-- Message `idm.ChangeEvent`; the four payloads are pointers. -/
structure IdmChangeEvent where
  Type_ : ChangeEventType
  User : Option IdmUser
  Role : Option IdmRole
  Workspace : Option IdmWorkspace
  Acl : Option IdmACL
deriving DecidableEq

/-- Message `jobs.JobTriggerEvent`; `Schedule` is the Iso8601 string of the schedule pointer
and `RunParameters` a possibly nil map. -/
structure JobTriggerEvent where
  JobID : String
  Schedule : Option String
  RunNow : Bool
  RunParameters : Option (StrMap String)
deriving DecidableEq

/-- The dynamically typed `event interface{}` handed to `NewTaskFromEvent` and
`createMessageFromEvent`. -/
inductive TriggerEvent where
  | nodeChange (e : NodeChangeEvent)
  | trigger (e : JobTriggerEvent)
  | idmChange (e : IdmChangeEvent)
deriving DecidableEq

/-- Message `object.DataSource`. -/
structure DataSource where
  Name : String
  Disabled : Bool
  ObjectsServiceName : String
  PeerAddress : String
  VersioningPolicyName : String
  StorageConfiguration : StrMap String
deriving DecidableEq

/-- Values of `service.OperationType`. -/
inductive OperationType where
  | OR | AND
deriving DecidableEq, Repr

/-- Message `object.DataSourceSingleQuery`. -/
structure DataSourceSingleQuery where
  Name : String
  ObjectServiceName : String
  StorageConfigurationName : String
  StorageConfigurationValue : String
  PeerAddress : String
  EncryptionKey : String
  VersioningPolicyName : String
  IsDisabled : Bool
  Not : Bool
deriving DecidableEq

/-- What `ptypes.UnmarshalAny` can make of an element of `Query.SubQueries`: a
`DataSourceSingleQuery`, a nested `service.Query` (its sub-queries and operation), or
neither. -/
inductive AnyQuery where
  | dataSourceSingleQuery (msg : DataSourceSingleQuery)
  | query (SubQueries : List AnyQuery) (Operation : OperationType)
  | other (TypeUrl : String)

/-- Message `service.Query`. -/
structure ServiceQuery where
  SubQueries : List AnyQuery
  Operation : OperationType

/-- Message `jobs.DataSourceSelector`; `Query` is a pointer. -/
structure DataSourceSelector where
  Label : String
  Description : String
  All : Bool
  Collect : Bool
  Query : Option ServiceQuery

/-- Message `jobs.NodesSelector` (the source of its `Filter` method is not available). -/
structure NodesSelector where
  Label : String
  All : Bool
  Pathes : List String
  Collect : Bool
deriving DecidableEq

/-- Message `jobs.IdmSelector` (the source of its `Filter` method is not available). -/
structure IdmSelector where
  Label : String
  All : Bool
  Collect : Bool
deriving DecidableEq

/-- Message `jobs.ContextMetaFilter` (the source of its `Filter` method is not available). -/
structure ContextMetaFilter where
  Label : String
  Type_ : Nat
deriving DecidableEq

/-- Message `jobs.JobParameter`. -/
structure JobParameter where
  Name : String
  Description : String
  Value : String
  Mandatory : Bool
deriving DecidableEq

/-- Message `jobs.Job`; the four filters are pointers, `MaxConcurrency` is an `int32`. -/
structure Job where
  ID : String
  Label : String
  Owner : String
  Inactive : Bool
  EventNames : List String
  MaxConcurrency : Int
  NodeEventFilter : Option NodesSelector
  IdmFilter : Option IdmSelector
  ContextMetaFilter : Option ContextMetaFilter
  DataSourceFilter : Option DataSourceSelector
  Parameters : List JobParameter

/-- Message `jobs.JobChangeEvent`; `JobUpdated` is a pointer. -/
structure JobChangeEvent where
  JobRemoved : String
  JobUpdated : Option Job

/-- Message `jobs.ActionMessage`; `Event` is the marshalled triggering event. -/
structure ActionMessage where
  Event : Option TriggerEvent
  Nodes : List Node
  Users : List IdmUser
  Roles : List IdmRole
  Workspaces : List IdmWorkspace
  Acls : List IdmACL
  DataSources : List DataSource

/-- The zero value `jobs.ActionMessage{}`. -/
def ActionMessage.empty : ActionMessage :=
  { Event := none, Nodes := [], Users := [], Roles := [], Workspaces := [], Acls := [],
    DataSources := [] }

/-! ## Contexts -/

/-- What the embedded code reads from and writes to a `context.Context`: the go-micro
metadata (`none` when the context carries none), the value stored under
`common.PydioContextUserKey`, the service name, and the value stored under
`ContextJobParametersKey`. -/
structure Context where
  metadata : Option (StrMap String)
  userValue : Option String
  serviceName : String
  jobParameters : Option (StrMap String)
deriving DecidableEq

/-- Struct `cache.EventWithContext`. -/
structure EventWithContext where
  NodeChangeEvent : NodeChangeEvent
  Ctx : Context
deriving DecidableEq

/-! ## Code whose source is not available -/

/-- Constants and functions the embedded code imports from packages whose sources are not
available (`common`, `servicecontext`, `context2`, `permissions`, `config`, `jsonx`, the
generated `jobs` client and the selectors of package `jobs` other than the data-source
selector), and the Go library functions it calls. Each function field is the pure result
of the Go function of the same name. -/
structure Env where
  /-- Constant `common.NodeFlagEtagTemporary`. -/
  NodeFlagEtagTemporary : String
  /-- Constant `common.MetaNamespaceDatasourceInternal`. -/
  MetaNamespaceDatasourceInternal : String
  /-- Constant `common.MetaNamespaceDatasourceName`. -/
  MetaNamespaceDatasourceName : String
  /-- Constant `common.PydioContextUserKey`. -/
  PydioContextUserKey : String
  /-- Constant `common.PydioSystemUsername`. -/
  PydioSystemUsername : String
  /-- Constant `common.ServiceGrpcNamespace_`. -/
  ServiceGrpcNamespace_ : String
  /-- Constant `common.ServiceTasks`. -/
  ServiceTasks : String
  /-- Constant `servicecontext.ContextMetaJobUuid`. -/
  ContextMetaJobUuid : String
  /-- Constant `DefaultMaximumWorkers` of package `tasks`. -/
  DefaultMaximumWorkers : Int
  /-- Library function `strings.ToLower`. -/
  ToLower : String → String
  /-- Runtime `growslice`: the capacity of the array allocated when one element is appended
  to a full slice of the given capacity. -/
  growslice : Nat → Nat
  /-- Function `context2.ContextMetadata`: the metadata map and its presence flag. -/
  ContextMetadata : Context → Option (StrMap String)
  /-- Function `permissions.FindUserNameInContext`, first result. -/
  FindUserNameInContext : Context → String
  /-- Function `jobs.ParseNodeChangeEventName`: the event type when the flag is true. -/
  ParseNodeChangeEventName : String → Option NodeChangeEvent_EventType
  /-- Function `jobs.MatchesIdmChangeEvent`. -/
  MatchesIdmChangeEvent : String → IdmChangeEvent → Bool
  /-- Function `jobs.EvaluateFieldStr`. -/
  EvaluateFieldStr : Context → ActionMessage → String → String
  /-- Method `jobs.NodesSelector.Filter`, third result. -/
  NodesSelector_Filter : NodesSelector → Context → ActionMessage → Bool
  /-- Method `jobs.IdmSelector.Filter`, third result. -/
  IdmSelector_Filter : IdmSelector → Context → ActionMessage → Bool
  /-- Method `jobs.ContextMetaFilter.Filter`, second result. -/
  ContextMetaFilter_Filter : ContextMetaFilter → Context → ActionMessage → Bool
  /-- Method `object.DataSourceSingleQuery.Matches`. -/
  DataSourceSingleQuery_Matches : DataSourceSingleQuery → DataSource → Bool
  /-- Methods `jobs.ActionMessage.WithNode`, `WithUser`, `WithRole`, `WithWorkspace`,
  `WithAcl`. -/
  WithNode : ActionMessage → Node → ActionMessage
  WithUser : ActionMessage → IdmUser → ActionMessage
  WithRole : ActionMessage → IdmRole → ActionMessage
  WithWorkspace : ActionMessage → IdmWorkspace → ActionMessage
  WithAcl : ActionMessage → IdmACL → ActionMessage
  /-- Function `config.GetSourceInfoByName`: `none` when it returns an error. -/
  GetSourceInfoByName : String → Option DataSource
  /-- Decoding of a JSON document into a Go string by `json.Unmarshal`: `none` when the
  destination is left untouched. -/
  jsonUnmarshalString : String → Option String
  /-- Client call `JobServiceClient.GetJob`: an error, or a response whose `Job` pointer
  may be nil. -/
  GetJob : Context → String → Except String (Option Job)

/-- Modelled from the spec: function `service.ReduceQueryBooleans`, whose source is not
available. AND requires every sub-query to be true (true on the empty list), OR requires
at least one. -/
def ReduceQueryBooleans (results : List Bool) (operation : OperationType) : Bool :=
  match operation with
  | .AND => results.all id
  | .OR => results.any id

/-- Modelled from the spec: struct `Task` built by `NewTaskFromEvent`, whose source is not
available: one execution instance of a job definition against one triggering event, with
the context it was built with. -/
structure Task where
  Job : Job
  Context : Context
  Event : TriggerEvent

/-- Modelled from the spec: function `NewTaskFromEvent`. -/
def NewTaskFromEvent (ctx : Context) (job : Job) (event : TriggerEvent) : Task :=
  { Job := job, Context := ctx, Event := event }

/-- Modelled from the spec: struct `Dispatcher`, whose source is not available: a pool of
`maxWorkers` workers built by `NewDispatcher`, started by `Run` and stopped by `Stop`. -/
structure Dispatcher where
  maxWorkers : Int
  tags : StrMap String
  running : Bool
  stopped : Bool
deriving DecidableEq

/-- Modelled from the spec: function `NewDispatcher`, a pool with the given number of
workers that is neither started nor stopped. -/
def NewDispatcher (maxWorkers : Int) (tags : StrMap String) : Dispatcher :=
  { maxWorkers := maxWorkers, tags := tags, running := false, stopped := false }

/-- Modelled from the spec: method `Dispatcher.Run`, which starts the workers. -/
def Dispatcher.Run (d : Dispatcher) : Dispatcher :=
  { d with running := true }

/-- Modelled from the spec: method `Dispatcher.Stop`, which signals all workers to exit. -/
def Dispatcher.Stop (d : Dispatcher) : Dispatcher :=
  { d with stopped := true }

/-! ## `common/proto/tree/node.go` -/

/-- Method `Node.HasMetaKey` on a possibly nil receiver: reading `node.MetaStore` of a nil
receiver panics. -/
def Node.HasMetaKey (node : Option Node) (keyName : String) : Except Fault Bool :=
  match node with
  | none => .error .nilPointerDereference
  | some n =>
    match n.MetaStore with
    | none => .ok false
    | some m => .ok (m.lookup keyName).isSome

/-- Method `Node.getMetaString`. -/
def Node.getMetaString (node : Node) (namespace_ : String) : String :=
  match node.MetaStore with
  | none => ""
  | some m =>
    match m.lookup namespace_ with
    | some meta => meta
    | none => ""

/-- Method `Node.GetStringMeta`: `GetMeta` into a string that starts empty. -/
def Node.GetStringMeta (E : Env) (node : Node) (namespace_ : String) : String :=
  let metaString := node.getMetaString namespace_
  if metaString = "" then ""
  else
    match E.jsonUnmarshalString metaString with
    | some value => value
    | none => ""

/-- A Go `int64` computation: the value of the mathematical result after wrap-around. -/
def wrapInt64 (x : Int) : Int :=
  (x + 9223372036854775808) % 18446744073709551616 - 9223372036854775808

/-- Library function `time.Unix(sec, nsec)`: an instant, as the number of nanoseconds
since January 1, 1970 UTC. -/
def time_Unix (sec nsec : Int) : Int :=
  sec * 1000000000 + nsec

/-- Method `Node.GetModTime`; `node.MTime*int64(time.Second)` is an `int64` product. -/
def Node.GetModTime (node : Node) : Int :=
  time_Unix 0 (wrapInt64 (node.MTime * 1000000000))

/-- Library function `strings.HasPrefix`. -/
def strings_HasPrefix (s p : String) : Bool :=
  p.data.isPrefixOf s.data

/-- A `tree.Node` struct in memory. Its `MetaStore` is a Go map value: nil, or the address
of a map object of the heap, which is the list of the map objects allocated so far. -/
structure NodeStruct where
  Uuid : String
  Path : String
  Type_ : NodeType
  Size : Int
  MTime : Int
  Mode : Int
  Etag : String
  MetaStore : Option Nat
deriving DecidableEq

/-- The node a struct holds once its `MetaStore` is read in the heap. -/
def NodeStruct.toNode (heap : List (StrMap String)) (n : NodeStruct) : Node :=
  { Uuid := n.Uuid, Path := n.Path, Type_ := n.Type_, Size := n.Size, MTime := n.MTime,
    Mode := n.Mode, Etag := n.Etag, MetaStore := n.MetaStore.bind (fun a => heap[a]?) }

/-- Library function `proto.Clone` on a non-nil node: a new struct with the same scalar
fields. A `MetaStore` without entries, nil or not, is cloned as the nil map; any other one
as a new map object that holds the same entries. -/
def proto_Clone (heap : List (StrMap String)) (n : NodeStruct) :
    List (StrMap String) × NodeStruct :=
  match n.MetaStore.bind (fun a => heap[a]?) with
  | none => (heap, { n with MetaStore := none })
  | some m =>
    if m.entries.isEmpty then (heap, { n with MetaStore := none })
    else (heap ++ [m], { n with MetaStore := some heap.length })

/-- Built-in `delete(m, k)` on a map value; it does nothing on the nil map. -/
def builtin_delete (heap : List (StrMap String)) (m : Option Nat) (k : String) :
    List (StrMap String) :=
  match m with
  | none => heap
  | some a => heap.modify (fun o => o.erase k) a

/-- Method `Node.WithoutReservedMetas`: the heap afterwards and the struct returned. The
clone of a nil receiver is nil and reading its `MetaStore` panics. The loop ranges over
the keys of `newNode.MetaStore` and deletes the current key only, so it meets every key
the map has when the loop starts. -/
def Node.WithoutReservedMetas (heap : List (StrMap String)) (node : Option NodeStruct) :
    Except Fault (List (StrMap String) × NodeStruct) :=
  match node with
  | none => .error .nilPointerDereference
  | some n =>
    let cloned := proto_Clone heap n
    let newNode := cloned.2
    let keys : List String :=
      match newNode.MetaStore.bind (fun a => cloned.1[a]?) with
      | none => []
      | some m => m.keys
    .ok (keys.foldl
          (fun h k =>
            if strings_HasPrefix k "pydio:" then builtin_delete h newNode.MetaStore k else h)
          cloned.1,
        newNode)

/-! ## `common/proto/jobs/ds-selector.go` -/

mutual
/-- One iteration of the loop of `DataSourceSelector.evaluate` over `query.SubQueries`:
the boolean appended to `bb`, if any. -/
def DataSourceSelector.evaluateAny (E : Env) (ctx : Context) (input : ActionMessage)
    (dsObject : DataSource) : AnyQuery → Option Bool
  | .dataSourceSingleQuery msg =>
    let msg1 : DataSourceSingleQuery :=
      { msg with
        Name := E.EvaluateFieldStr ctx input msg.Name
        ObjectServiceName := E.EvaluateFieldStr ctx input msg.ObjectServiceName
        StorageConfigurationName := E.EvaluateFieldStr ctx input msg.StorageConfigurationName
        StorageConfigurationValue := E.EvaluateFieldStr ctx input msg.StorageConfigurationValue
        PeerAddress := E.EvaluateFieldStr ctx input msg.PeerAddress
        EncryptionKey := E.EvaluateFieldStr ctx input msg.EncryptionKey
        VersioningPolicyName := E.EvaluateFieldStr ctx input msg.VersioningPolicyName }
    some (E.DataSourceSingleQuery_Matches msg1 dsObject)
  | .query subQueries operation =>
    some (ReduceQueryBooleans
      (DataSourceSelector.evaluateSubQueries E ctx input dsObject subQueries) operation)
  | .other _ => none
/-- The slice `bb` built by the loop of `DataSourceSelector.evaluate`. -/
def DataSourceSelector.evaluateSubQueries (E : Env) (ctx : Context) (input : ActionMessage)
    (dsObject : DataSource) : List AnyQuery → List Bool
  | [] => []
  | q :: qs =>
    match DataSourceSelector.evaluateAny E ctx input dsObject q with
    | some b => b :: DataSourceSelector.evaluateSubQueries E ctx input dsObject qs
    | none => DataSourceSelector.evaluateSubQueries E ctx input dsObject qs
end

/-- Method `DataSourceSelector.evaluate`; reading `query.SubQueries` of a nil query
panics. -/
def DataSourceSelector.evaluate (E : Env) (ctx : Context) (query : Option ServiceQuery)
    (input : ActionMessage) (dsObject : DataSource) : Except Fault Bool :=
  match query with
  | none => .error .nilPointerDereference
  | some q =>
    .ok (ReduceQueryBooleans
      (DataSourceSelector.evaluateSubQueries E ctx input dsObject q.SubQueries) q.Operation)

/-- The local slices of `DataSourceSelector.Filter` while it loops. `capPassed` is the
capacity of the array behind `passed`; `excludedShared` tells that `excluded` was last
assigned `append(passed, ds)` without reallocation, so that its last element lives in the
slot of that array right after the elements of `passed`. -/
structure FilterSlices where
  passed : List DataSource
  capPassed : Nat
  excluded : List DataSource
  excludedShared : Bool

/-- Statement `passed = append(passed, ds)`: written in place when the capacity allows,
which overwrites the last element of an `excluded` slice sharing the array. -/
def FilterSlices.appendPassed (E : Env) (st : FilterSlices) (ds : DataSource) : FilterSlices :=
  if st.passed.length < st.capPassed then
    { passed := st.passed ++ [ds]
      capPassed := st.capPassed
      excluded := if st.excludedShared then st.excluded.dropLast ++ [ds] else st.excluded
      excludedShared := false }
  else
    { passed := st.passed ++ [ds]
      capPassed := E.growslice st.capPassed
      excluded := st.excluded
      excludedShared := false }

/-- Statement `excluded = append(passed, ds)` as written in the source. -/
def FilterSlices.appendExcluded (st : FilterSlices) (ds : DataSource) : FilterSlices :=
  { passed := st.passed
    capPassed := st.capPassed
    excluded := st.passed ++ [ds]
    excludedShared := decide (st.passed.length < st.capPassed) }

/-- The loop of `DataSourceSelector.Filter` over `input.DataSources`. -/
def DataSourceSelector.filterLoop (E : Env) (m : DataSourceSelector) (ctx : Context)
    (input : ActionMessage) : List DataSource → FilterSlices → Except Fault FilterSlices
  | [], st => .ok st
  | ds :: rest, st =>
    if m.All then
      DataSourceSelector.filterLoop E m ctx input rest (st.appendPassed E ds)
    else
      match DataSourceSelector.evaluate E ctx m.Query input ds with
      | .error f => .error f
      | .ok true => DataSourceSelector.filterLoop E m ctx input rest (st.appendPassed E ds)
      | .ok false => DataSourceSelector.filterLoop E m ctx input rest (st.appendExcluded ds)

/-- Method `DataSourceSelector.Filter`: the primary message, the excluded message (a
pointer) and the pass flag. -/
def DataSourceSelector.Filter (E : Env) (m : DataSourceSelector) (ctx : Context)
    (input : ActionMessage) : Except Fault (ActionMessage × Option ActionMessage × Bool) :=
  match DataSourceSelector.filterLoop E m ctx input input.DataSources
      { passed := [], capPassed := 0, excluded := [], excludedShared := false } with
  | .error f => .error f
  | .ok st =>
    let input1 : ActionMessage := { input with DataSources := st.passed }
    let x : Option ActionMessage :=
      if st.excluded.length > 0 then some { input1 with DataSources := st.excluded } else none
    .ok (input1, x, decide (st.passed.length > 0))

/-! ## `scheduler/tasks/subscriber.go` -/

/-- Struct `Subscriber`. A `*Dispatcher` is an address in `heap`, the list of all
dispatchers allocated so far; `Dispatchers` maps a job identifier to such an address. -/
structure Subscriber where
  JobsDefinitions : StrMap Job
  Dispatchers : StrMap Nat
  heap : List Dispatcher
  RootContext : Context

/-- The dispatcher stored at an address. -/
def Subscriber.dispatcherAt (s : Subscriber) (addr : Nat) : Option Dispatcher :=
  s.heap[addr]?

/-- Method `Subscriber.GetDispatcherForJob`: the subscriber afterwards and the address
returned. -/
def Subscriber.GetDispatcherForJob (E : Env) (s : Subscriber) (job : Job) : Subscriber × Nat :=
  match s.Dispatchers.lookup job.ID with
  | some d => (s, d)
  | none =>
    let maxWorkers : Int :=
      if job.MaxConcurrency > 0 then job.MaxConcurrency else E.DefaultMaximumWorkers
    let tags : StrMap String :=
      ((∅ : StrMap String).insert "service" (E.ServiceGrpcNamespace_ ++ E.ServiceTasks)).insert
        "jobID" job.ID
    let dispatcher := s.heap.length
    ({ s with
        heap := s.heap ++ [(NewDispatcher maxWorkers tags).Run]
        Dispatchers := s.Dispatchers.insert job.ID dispatcher },
      dispatcher)

/-- Call `dispatcher.Stop()` on the dispatcher at an address. -/
def Subscriber.stopDispatcher (s : Subscriber) (addr : Nat) : Subscriber :=
  { s with heap := s.heap.modify Dispatcher.Stop addr }

/-- Method `Subscriber.jobsChangeEvent`: the subscriber afterwards and the returned
error. -/
def Subscriber.jobsChangeEvent (E : Env) (s : Subscriber) (msg : JobChangeEvent) :
    Subscriber × Option String :=
  let s1 : Subscriber :=
    if msg.JobRemoved ≠ "" then
      let sa : Subscriber :=
        if (s.JobsDefinitions.lookup msg.JobRemoved).isSome then
          { s with JobsDefinitions := s.JobsDefinitions.erase msg.JobRemoved }
        else s
      match sa.Dispatchers.lookup msg.JobRemoved with
      | some dispatcher =>
        let sb := sa.stopDispatcher dispatcher
        { sb with Dispatchers := sb.Dispatchers.erase msg.JobRemoved }
      | none => sa
    else s
  let s2 : Subscriber :=
    match msg.JobUpdated with
    | some jobUpdated =>
      let sa : Subscriber :=
        { s1 with JobsDefinitions := s1.JobsDefinitions.insert jobUpdated.ID jobUpdated }
      match sa.Dispatchers.lookup jobUpdated.ID with
      | some dispatcher =>
        let sb := sa.stopDispatcher dispatcher
        let sc : Subscriber := { sb with Dispatchers := sb.Dispatchers.erase jobUpdated.ID }
        if !jobUpdated.Inactive then (sc.GetDispatcherForJob E jobUpdated).1 else sc
      | none => sa
    | none => s1
  (s2, none)

/-- The first block of `Subscriber.jobsChangeEvent`, `if msg.JobRemoved != ""`. -/
def Subscriber.jobsChangeEvent.remove (s : Subscriber) (jobRemoved : String) : Subscriber :=
  if jobRemoved ≠ "" then
    let sa : Subscriber :=
      if (s.JobsDefinitions.lookup jobRemoved).isSome then
        { s with JobsDefinitions := s.JobsDefinitions.erase jobRemoved }
      else s
    match sa.Dispatchers.lookup jobRemoved with
    | some dispatcher =>
      let sb := sa.stopDispatcher dispatcher
      { sb with Dispatchers := sb.Dispatchers.erase jobRemoved }
    | none => sa
  else s

/-- The second block of `Subscriber.jobsChangeEvent`, `if msg.JobUpdated != nil`. -/
def Subscriber.jobsChangeEvent.update (E : Env) (s1 : Subscriber) (jobUpdated : Option Job) :
    Subscriber :=
  match jobUpdated with
  | some jobUpdated =>
    let sa : Subscriber :=
      { s1 with JobsDefinitions := s1.JobsDefinitions.insert jobUpdated.ID jobUpdated }
    match sa.Dispatchers.lookup jobUpdated.ID with
    | some dispatcher =>
      let sb := sa.stopDispatcher dispatcher
      let sc : Subscriber := { sb with Dispatchers := sb.Dispatchers.erase jobUpdated.ID }
      if !jobUpdated.Inactive then (sc.GetDispatcherForJob E jobUpdated).1 else sc
    | none => sa
  | none => s1

/-- Message `jobs.ListJobsResponse`; `Job` is a pointer. -/
structure ListJobsResponse where
  Job : Option Job

/-- Result of the load loop of `Subscriber.Init`: the subscriber when the loop ends, and
the panic that ended it, if any. -/
structure InitResult where
  subscriber : Subscriber
  fault : Option Fault

/-- The load loop of `Subscriber.Init` over the responses `streamer.Recv()` returns
before its first error (a response may be a nil pointer); reading `resp.Job.Inactive` of
a nil `Job` panics. -/
def Subscriber.Init.loop (E : Env) : Subscriber → List (Option ListJobsResponse) → InitResult
  | s, [] => { subscriber := s, fault := none }
  | s, none :: rest => Subscriber.Init.loop E s rest
  | s, some resp :: rest =>
    match resp.Job with
    | none => { subscriber := s, fault := some .nilPointerDereference }
    | some job =>
      if job.Inactive then Subscriber.Init.loop E s rest
      else
        let s1 : Subscriber := { s with JobsDefinitions := s.JobsDefinitions.insert job.ID job }
        Subscriber.Init.loop E (s1.GetDispatcherForJob E job).1 rest

/-- Method `Subscriber.prepareTaskContext`; the variadic `eventParameters` is a list of
maps. -/
def Subscriber.prepareTaskContext (E : Env) (s : Subscriber) (ctx : Context) (job : Job)
    (addSystemUser : Bool) (eventParameters : List (StrMap String)) : Context :=
  let ctx1 : Context :=
    if addSystemUser then
      if E.FindUserNameInContext ctx = "" then
        { ctx with
          metadata := some (AList.singleton E.PydioContextUserKey E.PydioSystemUsername)
          userValue := some E.PydioSystemUsername }
      else ctx
    else ctx
  let ctx2 : Context := { ctx1 with serviceName := s.RootContext.serviceName }
  if job.Parameters.length > 0 then
    let params : StrMap String :=
      job.Parameters.foldl
        (fun m p => m.insert p.Name (E.EvaluateFieldStr ctx2 ActionMessage.empty p.Value)) ∅
    let params1 : StrMap String :=
      match eventParameters with
      | first :: _ =>
        first.entries.foldl
          (fun m kv =>
            if (m.lookup kv.1).isSome then
              m.insert kv.1 (E.EvaluateFieldStr ctx2 ActionMessage.empty kv.2)
            else m)
          params
      | [] => params
    { ctx2 with jobParameters := some params1 }
  else ctx2

/-- Result of `Subscriber.timerEvent`: the returned error and the tasks handed to
`EnqueueRunnables`. -/
structure TimerEventResult where
  err : Option String
  created : List Task

/-- Method `Subscriber.timerEvent`. -/
def Subscriber.timerEvent (E : Env) (s : Subscriber) (ctx : Context) (event : JobTriggerEvent) :
    TimerEventResult :=
  let jobId := event.JobID
  let resolved : Option Job :=
    match s.JobsDefinitions.lookup jobId with
    | some j => some j
    | none =>
      match E.GetJob ctx jobId with
      | .error _ => none
      | .ok none => none
      | .ok (some j) => some j
  match resolved with
  | none => { err := none, created := [] }
  | some j =>
    if j.Inactive then { err := none, created := [] }
    else
      let ctx1 : Context :=
        match event.RunNow, event.RunParameters with
        | true, some runParameters => s.prepareTaskContext E ctx j true [runParameters]
        | _, _ => s.prepareTaskContext E ctx j true []
      let task := NewTaskFromEvent ctx1 j (.trigger event)
      { err := none, created := [task] }

/-- Result of `Subscriber.nodeEvent`: the returned error and the values sent on
`s.batcher.Events`. -/
structure NodeEventResult where
  err : Option String
  pushed : List EventWithContext
deriving DecidableEq

/-- Method `Subscriber.nodeEvent`. -/
def Subscriber.nodeEvent (E : Env) (ctx : Context) (event : NodeChangeEvent) :
    Except Fault NodeEventResult :=
  if event.Optimistic then .ok { err := none, pushed := [] }
  else
    let targetIgnored : Except Fault Bool :=
      match event.Target with
      | none => .ok false
      | some target =>
        if target.Etag = E.NodeFlagEtagTemporary then .ok true
        else Node.HasMetaKey (some target) E.MetaNamespaceDatasourceInternal
    match targetIgnored with
    | .error f => .error f
    | .ok true => .ok { err := none, pushed := [] }
    | .ok false =>
      let sourceIgnored : Except Fault Bool :=
        if event.Type_ = NodeChangeEvent_EventType.DELETE then
          Node.HasMetaKey event.Source E.MetaNamespaceDatasourceInternal
        else .ok false
      match sourceIgnored with
      | .error f => .error f
      | .ok true => .ok { err := none, pushed := [] }
      | .ok false =>
        .ok { err := none, pushed := [{ NodeChangeEvent := event, Ctx := ctx }] }

/-- Method `Subscriber.contextJobSameUuid`. -/
def Subscriber.contextJobSameUuid (E : Env) (ctx : Context) (jobId : String) : Bool :=
  match E.ContextMetadata ctx with
  | some mm =>
    if mm.lookup (E.ToLower E.ContextMetaJobUuid) = some jobId then true
    else if mm.lookup E.ContextMetaJobUuid = some jobId then true
    else false
  | none => false

/-- Function `createMessageFromEvent`. -/
def createMessageFromEvent (E : Env) (event : TriggerEvent) : ActionMessage :=
  match event with
  | .nodeChange nodeChange =>
    let initialInput : ActionMessage := { ActionMessage.empty with Event := some event }
    match nodeChange.Target, nodeChange.Source with
    | some target, _ => E.WithNode initialInput target
    | none, some source => E.WithNode initialInput source
    | none, none => initialInput
  | .trigger _ => { ActionMessage.empty with Event := some event }
  | .idmChange idmEvent =>
    let m0 : ActionMessage := { ActionMessage.empty with Event := some event }
    let m1 := match idmEvent.User with | some u => E.WithUser m0 u | none => m0
    let m2 := match idmEvent.Role with | some r => E.WithRole m1 r | none => m1
    let m3 := match idmEvent.Workspace with | some w => E.WithWorkspace m2 w | none => m2
    match idmEvent.Acl with | some a => E.WithAcl m3 a | none => m3

/-- The reference node of `jobLevelFilterPass` and `jobLevelDataSourceFilterPass`. -/
def refNode (event : NodeChangeEvent) : Option Node :=
  match event.Target with
  | some target => some target
  | none => event.Source

/-- Method `Subscriber.jobLevelFilterPass`. -/
def Subscriber.jobLevelFilterPass (E : Env) (ctx : Context) (event : NodeChangeEvent)
    (filter : NodesSelector) : Bool :=
  match refNode event with
  | none => true
  | some n => E.NodesSelector_Filter filter ctx { ActionMessage.empty with Nodes := [n] }

/-- Method `Subscriber.jobLevelIdmFilterPass`. -/
def Subscriber.jobLevelIdmFilterPass (E : Env) (ctx : Context) (input : ActionMessage)
    (filter : IdmSelector) : Bool :=
  E.IdmSelector_Filter filter ctx input

/-- Method `Subscriber.jobLevelContextFilterPass`. -/
def Subscriber.jobLevelContextFilterPass (E : Env) (ctx : Context)
    (filter : ContextMetaFilter) : Bool :=
  E.ContextMetaFilter_Filter filter ctx ActionMessage.empty

/-- Method `Subscriber.jobLevelDataSourceFilterPass`; `service.Retry` around
`config.GetSourceInfoByName` fails exactly when the lookup fails. -/
def Subscriber.jobLevelDataSourceFilterPass (E : Env) (ctx : Context)
    (event : NodeChangeEvent) (filter : DataSourceSelector) : Except Fault Bool :=
  match refNode event with
  | none => .ok true
  | some n =>
    let dsName := Node.GetStringMeta E n E.MetaNamespaceDatasourceName
    if dsName ≠ "" then
      match E.GetSourceInfoByName dsName with
      | none => .ok false
      | some ds =>
        match DataSourceSelector.Filter E filter ctx
            { ActionMessage.empty with DataSources := [ds] } with
        | .error f => .error f
        | .ok (_, _, pass) => .ok pass
    else .ok true

/-- The inner loop of `processNodeEvent` over `jobData.EventNames`: the final value of
`eventMatch`. -/
def Subscriber.processNodeEvent.eventMatch (E : Env) (event : NodeChangeEvent)
    (sameJobUuid : Bool) : List String → String
  | [] => ""
  | eName :: rest =>
    match E.ParseNodeChangeEventName eName with
    | some eType =>
      if event.Type_ = eType then
        if sameJobUuid then Subscriber.processNodeEvent.eventMatch E event sameJobUuid rest
        else eName
      else Subscriber.processNodeEvent.eventMatch E event sameJobUuid rest
    | none => Subscriber.processNodeEvent.eventMatch E event sameJobUuid rest

/-- The body of the loop of `processNodeEvent` for one entry of `JobsDefinitions`: the
task created by this iteration, if any, or the panic that ends it. -/
def Subscriber.processNodeEvent.body (E : Env) (s : Subscriber) (ctx : Context)
    (event : NodeChangeEvent) (jobId : String) (jobData : Job) : Except Fault (Option Task) :=
  if jobData.Inactive then .ok none
  else
    let sameJobUuid := Subscriber.contextJobSameUuid E ctx jobId
    let tCtx := s.prepareTaskContext E ctx jobData false []
    let eventMatch :=
      Subscriber.processNodeEvent.eventMatch E event sameJobUuid jobData.EventNames
    if eventMatch = "" then .ok none
    else if (match jobData.ContextMetaFilter with
        | some f => !Subscriber.jobLevelContextFilterPass E tCtx f
        | none => false) then .ok none
    else if (match jobData.NodeEventFilter with
        | some f => !Subscriber.jobLevelFilterPass E tCtx event f
        | none => false) then .ok none
    else if (match jobData.IdmFilter with
        | some f =>
          !Subscriber.jobLevelIdmFilterPass E tCtx
            (createMessageFromEvent E (.nodeChange event)) f
        | none => false) then .ok none
    else
      match jobData.DataSourceFilter with
      | some f =>
        match Subscriber.jobLevelDataSourceFilterPass E ctx event f with
        | .error e => .error e
        | .ok false => .ok none
        | .ok true => .ok (some (NewTaskFromEvent tCtx jobData (.nodeChange event)))
      | none => .ok (some (NewTaskFromEvent tCtx jobData (.nodeChange event)))

/-- Result of `Subscriber.processNodeEvent`: the tasks handed to `EnqueueRunnables`, each
with the key of `JobsDefinitions` whose iteration created it, and the panic that ended the
loop, if any. -/
structure ProcessNodeEventResult where
  created : List (String × Task)
  fault : Option Fault

/-- The loop of `processNodeEvent` over the entries of `JobsDefinitions`; a panic ends it
and keeps the tasks created before. -/
def Subscriber.processNodeEvent.loop (E : Env) (s : Subscriber) (ctx : Context)
    (event : NodeChangeEvent) : List (Sigma (fun _ : String => Job)) → ProcessNodeEventResult
  | [] => { created := [], fault := none }
  | entry :: rest =>
    match Subscriber.processNodeEvent.body E s ctx event entry.1 entry.2 with
    | .error f => { created := [], fault := some f }
    | .ok none => Subscriber.processNodeEvent.loop E s ctx event rest
    | .ok (some task) =>
      let r := Subscriber.processNodeEvent.loop E s ctx event rest
      { created := (entry.1, task) :: r.created, fault := r.fault }

/-- Method `Subscriber.processNodeEvent`. -/
def Subscriber.processNodeEvent (E : Env) (s : Subscriber) (ctx : Context)
    (event : NodeChangeEvent) : ProcessNodeEventResult :=
  Subscriber.processNodeEvent.loop E s ctx event s.JobsDefinitions.entries

/-- The inner loop of `idmEvent` over `jobData.EventNames`: the tasks it creates. -/
def Subscriber.idmEvent.names (E : Env) (event : IdmChangeEvent) (sameJob : Bool)
    (tCtx : Context) (jobData : Job) : List String → List Task
  | [] => []
  | eName :: rest =>
    if E.MatchesIdmChangeEvent eName event then
      if sameJob then Subscriber.idmEvent.names E event sameJob tCtx jobData rest
      else
        NewTaskFromEvent tCtx jobData (.idmChange event) ::
          Subscriber.idmEvent.names E event sameJob tCtx jobData rest
    else Subscriber.idmEvent.names E event sameJob tCtx jobData rest

/-- The body of the loop of `idmEvent` for one entry of `JobsDefinitions`: the tasks
created by this iteration. -/
def Subscriber.idmEvent.body (E : Env) (s : Subscriber) (ctx : Context)
    (event : IdmChangeEvent) (jobId : String) (jobData : Job) : List Task :=
  if jobData.Inactive then []
  else
    let sameJob := Subscriber.contextJobSameUuid E ctx jobId
    let tCtx := s.prepareTaskContext E ctx jobData true []
    if (match jobData.ContextMetaFilter with
        | some f => !Subscriber.jobLevelContextFilterPass E tCtx f
        | none => false) then []
    else if (match jobData.IdmFilter with
        | some f =>
          !Subscriber.jobLevelIdmFilterPass E tCtx
            (createMessageFromEvent E (.idmChange event)) f
        | none => false) then []
    else Subscriber.idmEvent.names E event sameJob tCtx jobData jobData.EventNames

/-- Result of `Subscriber.idmEvent`: the returned error and the tasks handed to
`EnqueueRunnables`, each with the key of `JobsDefinitions` whose iteration created it. -/
structure IdmEventResult where
  err : Option String
  created : List (String × Task)

/-- Method `Subscriber.idmEvent`. -/
def Subscriber.idmEvent (E : Env) (s : Subscriber) (ctx : Context) (event : IdmChangeEvent) :
    IdmEventResult :=
  { err := none
    created :=
      s.JobsDefinitions.entries.flatMap
        (fun entry => (Subscriber.idmEvent.body E s ctx event entry.1 entry.2).map
          (fun task => (entry.1, task))) }

/-! ## Actions, tree queries and the index: code whose source is not available -/

/-- Message `tree.Query`, fields read or written by `ParseDurationDate` and its
neighbours; `MinDate` and `MaxDate` are Unix seconds. -/
structure TreeQuery where
  Paths : List String
  PathPrefix : List String
  MinSize : Int
  MaxSize : Int
  MinDate : Int
  MaxDate : Int
  DurationDate : String
  Type_ : NodeType
  FileName : String
  Content : String
  FreeString : String
  Extension : String
  PathDepth : Int
  UUIDs : List String
  Not : Bool
deriving DecidableEq

/-- Message `idm.SearchACLResponse`; `ACL` is a pointer. -/
structure SearchACLResponse where
  ACL : Option IdmACL
deriving DecidableEq

/-- What `checkACLs` reads of a value of the interface `index.LostAndFound`, whose
declaration is not available: the results of its methods `GetUUIDs`, `IsDuplicate` and
`String`. -/
structure LostAndFound where
  UUIDs : List String
  IsDuplicate : Bool
  Label : String
deriving DecidableEq

/-- Functions that the actions of package `scheduler/actions`, `tree.Query` and the index
server call in packages whose sources are not available (`std`, `jobs`, `tools`, the
ACL client), the method `ThumbnailExtractor.resize`, which reads and writes objects, and
Go library functions. Each function field is the pure result of the Go function of the
same name. -/
structure ActionsEnv where
  /-- Library function `strings.TrimSpace`. -/
  TrimSpace : String → String
  /-- Function `std.ParseCellsDuration`: a `time.Duration` in nanoseconds, or an error. -/
  ParseCellsDuration : String → Except String Int
  /-- Library function `path.Dir`. -/
  path_Dir : String → String
  /-- Method `ScopedRouterConsumer.GetHandler`: the context it returns, or its error. -/
  GetHandler : Context → Except String Context
  /-- Method `jobs.ActionMessage.WithIgnore`. -/
  WithIgnore : ActionMessage → ActionMessage
  /-- Method `jobs.ActionMessage.WithError`, applied to the message of the error. -/
  WithError : ActionMessage → String → ActionMessage
  /-- Statement `output.AppendOutput(&jobs.ActionOutput{Success: true})`. -/
  AppendOutputSuccess : ActionMessage → ActionMessage
  /-- Method `ThumbnailExtractor.resize`: the message of the error it returns, if any. -/
  resize : Context → Node → StrMap Int → Option String
  /-- Client call `aclClient.SearchACL` for a query on the given node identifiers: its
  error, or the responses its stream delivers before the first receive error. -/
  SearchACL : List String → Except String (List SearchACLResponse)

/-! ## `common/proto/tree/node.go`: `Query.ParseDurationDate` -/

/-- Method `Time.Add` on instants counted in nanoseconds since the Unix epoch. -/
def Time.Add (t d : Int) : Int := t + d

/-- Method `Time.Unix`: the number of whole seconds since the Unix epoch. -/
def Time.Unix (t : Int) : Int := Int.fdiv t 1000000000

/-- Method `Query.ParseDurationDate`: the query afterwards and the message of the
returned error. `ref` is the variadic argument, `now` the value of `time.Now()`; `-d` is
an `int64` negation. -/
def TreeQuery.ParseDurationDate (A : ActionsEnv) (m : TreeQuery) (ref : List Int) (now : Int) :
    TreeQuery × Option String :=
  if m.DurationDate = "" then (m, none)
  else
    let firstChar := m.DurationDate.take 1
    if firstChar ≠ "<" ∧ firstChar ≠ ">" then
      (m, some "DurationDate must start with < or > character")
    else
      let ds := A.TrimSpace (m.DurationDate.drop 1)
      match A.ParseCellsDuration ds with
      | .error e => (m, some e)
      | .ok d =>
        let now1 : Int :=
          match ref with
          | r :: _ => r
          | [] => now
        if firstChar = "<" then
          ({ m with MinDate := Time.Unix (Time.Add now1 (wrapInt64 (-d))) }, none)
        else
          ({ m with MaxDate := Time.Unix (Time.Add now1 (wrapInt64 (-d))) }, none)

/-! ## Go package `path` -/

/-- The loop of `path.Ext`, on the bytes of the path from the last to the first: the
extension found, collecting in `acc` the bytes already passed. -/
def path_Ext.scan : List Char → List Char → List Char
  | [], _ => []
  | c :: rest, acc =>
    if c = '/' then []
    else if c = '.' then '.' :: acc
    else path_Ext.scan rest (c :: acc)

/-- Library function `path.Ext`: the suffix beginning at the final dot of the final
element of the path, empty if there is no dot. -/
def path_Ext (path : String) : String :=
  String.mk (path_Ext.scan path.data.reverse [])

/-- Library function `path.Split`: the path up to and including its final slash, and what
follows it. -/
def path_Split (path : String) : String × String :=
  let file := path.data.reverse.takeWhile (fun c => c ≠ '/')
  let dir := path.data.reverse.dropWhile (fun c => c ≠ '/')
  (String.mk dir.reverse, String.mk file.reverse)

/-- Library function `path.Base`: the last element of the path, after removal of the
trailing slashes. -/
def path_Base (path : String) : String :=
  if path = "" then "."
  else
    let stripped := path.data.reverse.dropWhile (fun c => c = '/')
    let last := stripped.takeWhile (fun c => c ≠ '/')
    if last = [] then "/" else String.mk last.reverse

/-- Library function `strings.TrimSuffix`. -/
def strings_TrimSuffix (s suffix : String) : String :=
  if suffix.data.isSuffixOf s.data then
    String.mk (s.data.take (s.data.length - suffix.data.length))
  else s

/-! ## `scheduler/actions/archive/compress.go` -/

/-- Struct `CompressAction`. -/
structure CompressAction where
  Format : String
  TargetName : String
  filter : Option NodesSelector

/-- Where `CompressAction.Run` stands after its checks: it has returned a message and an
error, or it goes on to write the archive `computeTargetName(ctx, handler, dir, base,
format)`. -/
inductive CompressRun where
  | returned (output : ActionMessage) (err : Option String)
  | archive (dir base format : String)

/-- The values of `dir` and `base` in `CompressAction.Run` before the format is resolved,
for the input nodes `first :: others`. -/
def CompressAction.Run.target (E : Env) (A : ActionsEnv) (c : CompressAction) (ctx : Context)
    (input : ActionMessage) (first : Node) (others : List Node) : String × String :=
  let dir0 := A.path_Dir first.Path
  let base0 := if (first :: others).length = 1 then path_Base first.Path else "Archive"
  if c.TargetName ≠ "" then path_Split (E.EvaluateFieldStr ctx input c.TargetName)
  else (dir0, base0)

/-- Method `CompressAction.Run`, up to the call of `computeTargetName`. -/
def CompressAction.Run (E : Env) (A : ActionsEnv) (c : CompressAction) (ctx : Context)
    (input : ActionMessage) : CompressRun :=
  match input.Nodes with
  | [] => .returned (A.WithIgnore input) none
  | first :: others =>
    match A.GetHandler ctx with
    | .error e => .returned (A.WithError input e) (some e)
    | .ok ctx1 =>
      let dir := (CompressAction.Run.target E A c ctx1 input first others).1
      let base := (CompressAction.Run.target E A c ctx1 input first others).2
      let format0 := E.EvaluateFieldStr ctx1 input c.Format
      let detected : Except String String :=
        if format0 = "detect" then
          if E.ToLower (path_Ext base) = ".zip" then .ok "zip"
          else if E.ToLower (path_Ext base) = ".tar" then .ok "tar"
          else if E.ToLower (path_Ext base) = ".tar.gz" then .ok "tar.gz"
          else .error ("could not detect archive format from file name " ++ base)
        else .ok format0
      match detected with
      | .error e => .returned (A.WithError input e) (some e)
      | .ok format =>
        if format ≠ "zip" ∧ format ≠ "tar" ∧ format ≠ "tar.gz" then
          .returned (A.WithError input "unsupported archive format")
            (some "unsupported archive format")
        else .archive dir (strings_TrimSuffix base ("." ++ format)) format

/-! ## `scheduler/actions/images/thumbnails.go` -/

/-- Struct `ThumbnailExtractor`. -/
structure ThumbnailExtractor where
  thumbSizes : StrMap Int

/-- Result of `ThumbnailExtractor.Run`: the message and the error returned, and the nodes
`t.resize` was called on. -/
structure ThumbnailRun where
  output : ActionMessage
  err : Option String
  resized : List Node

/-- Method `ThumbnailExtractor.Run`. -/
def ThumbnailExtractor.Run (E : Env) (A : ActionsEnv) (t : ThumbnailExtractor) (ctx : Context)
    (input : ActionMessage) : ThumbnailRun :=
  match input.Nodes with
  | [] => { output := A.WithIgnore input, err := none, resized := [] }
  | node :: _ =>
    if node.Size = -1 ∨ node.Etag = E.NodeFlagEtagTemporary then
      { output := A.WithIgnore input, err := none, resized := [] }
    else
      match A.resize ctx node t.thumbSizes with
      | some err => { output := A.WithError input err, err := some err, resized := [node] }
      | none => { output := A.AppendOutputSuccess input, err := none, resized := [node] }

/-! ## `data/source/index/grpc/handler-lostfound.go` -/

/-- Result of `TreeServer.checkACLs`: the entries appended to `marked`, each with the
list passed to its `MarkForDeletion`, the entries appended to `conflicts`, the message of
the returned error, and the panic that ended the call, if any. -/
structure CheckACLsResult where
  marked : List (LostAndFound × List String)
  conflicts : List LostAndFound
  e : Option String
  fault : Option Fault

/-- The receive loop of `checkACLs`: the keys of `founds`; reading `resp.ACL.NodeID` of a
nil `ACL` panics. -/
def TreeServer.checkACLs.founds : List SearchACLResponse → Except Fault (List String)
  | [] => .ok []
  | resp :: rest =>
    match resp.ACL with
    | none => .error .nilPointerDereference
    | some acl =>
      match TreeServer.checkACLs.founds rest with
      | .error f => .error f
      | .ok ids => .ok (acl.NodeID :: ids)

/-- The slice `removable` that `checkACLs` computes for one entry. -/
def TreeServer.checkACLs.removable (founds : List String) (l : LostAndFound) : List String :=
  let removable := l.UUIDs.filter (fun id => decide (id ∉ founds))
  if l.IsDuplicate ∧ removable.length > 1 then removable.tail else removable

/-- The last loop of `checkACLs` over the entries. -/
def TreeServer.checkACLs.loop (founds : List String) :
    List LostAndFound → List (LostAndFound × List String) × List LostAndFound
  | [] => ([], [])
  | l :: rest =>
    let r := TreeServer.checkACLs.loop founds rest
    if (TreeServer.checkACLs.removable founds l).length > 0 then
      ((l, TreeServer.checkACLs.removable founds l) :: r.1, r.2)
    else (r.1, l :: r.2)

/-- Method `TreeServer.checkACLs`. -/
def TreeServer.checkACLs (A : ActionsEnv) (ll : List LostAndFound) : CheckACLsResult :=
  let uuids := ll.flatMap (fun l => l.UUIDs)
  match A.SearchACL uuids with
  | .error er => { marked := [], conflicts := [], e := some er, fault := none }
  | .ok responses =>
    match TreeServer.checkACLs.founds responses with
    | .error f => { marked := [], conflicts := [], e := none, fault := some f }
    | .ok founds =>
      let r := TreeServer.checkACLs.loop founds ll
      { marked := r.1, conflicts := r.2, e := none, fault := none }

/-! ## The subscriber as a transition system -/

/-- A subscriber together with the tasks handed to `EnqueueRunnables`, whose runnables
may reach the main queue. -/
structure Engine where
  subscriber : Subscriber
  tasks : List Task

/-- Body of the loop of `ListenToMainQueue` for a runnable of the given task. -/
def Subscriber.ListenToMainQueue.deliver (E : Env) (s : Subscriber) (task : Task) : Subscriber :=
  (s.GetDispatcherForJob E task.Job).1

/-- One step of the subscriber: a load by `Init`, a handler called with an event, or the
delivery of a runnable of a task created before to the main queue. Deliveries are
restricted to those `allowed` in the current state. -/
inductive Engine.Step (E : Env) (allowed : Subscriber → Task → Prop) : Engine → Engine → Prop
  | load (σ : Engine) (responses : List (Option ListJobsResponse)) :
    Engine.Step E allowed σ
      { subscriber := (Subscriber.Init.loop E σ.subscriber responses).subscriber
        tasks := σ.tasks }
  | jobsChange (σ : Engine) (msg : JobChangeEvent) :
    Engine.Step E allowed σ
      { subscriber := (σ.subscriber.jobsChangeEvent E msg).1, tasks := σ.tasks }
  | timer (σ : Engine) (ctx : Context) (event : JobTriggerEvent) :
    Engine.Step E allowed σ
      { subscriber := σ.subscriber
        tasks := σ.tasks ++ (σ.subscriber.timerEvent E ctx event).created }
  | node (σ : Engine) (ctx : Context) (event : NodeChangeEvent) :
    Engine.Step E allowed σ
      { subscriber := σ.subscriber
        tasks := σ.tasks ++
          (σ.subscriber.processNodeEvent E ctx event).created.map Prod.snd }
  | idm (σ : Engine) (ctx : Context) (event : IdmChangeEvent) :
    Engine.Step E allowed σ
      { subscriber := σ.subscriber
        tasks := σ.tasks ++ (σ.subscriber.idmEvent E ctx event).created.map Prod.snd }
  | deliver (σ : Engine) (task : Task) (hmem : task ∈ σ.tasks)
      (hallowed : allowed σ.subscriber task) :
    Engine.Step E allowed σ
      { subscriber := Subscriber.ListenToMainQueue.deliver E σ.subscriber task
        tasks := σ.tasks }

/-- The subscriber built by `NewSubscriber`: empty maps, no task. -/
def Engine.initial (rootContext : Context) : Engine :=
  { subscriber := { JobsDefinitions := ∅, Dispatchers := ∅, heap := [],
                    RootContext := rootContext }
    tasks := [] }

/-- The states reachable from the empty subscriber. -/
inductive Engine.Reachable (E : Env) (allowed : Subscriber → Task → Prop)
    (rootContext : Context) : Engine → Prop
  | initial : Engine.Reachable E allowed rootContext (Engine.initial rootContext)
  | step (σ τ : Engine) (hσ : Engine.Reachable E allowed rootContext σ)
      (hstep : Engine.Step E allowed σ τ) : Engine.Reachable E allowed rootContext τ

/-! ## Concrete inputs -/

/-- An environment with the values package `common` gives its constants, a slice growth
that doubles, and simple stand-ins for the external functions: event names of the form
`NODE_CHANGE:n` and `IDM_CHANGE:USER:n`, selectors that pass exactly when their `All`
flag is set, single queries that match on the data-source name, a configuration that
knows the data source `pydiods1`, and a job service that knows no job. -/
def exampleEnv : Env where
  NodeFlagEtagTemporary := "temporary"
  MetaNamespaceDatasourceInternal := "pydio:meta-data-source-internal"
  MetaNamespaceDatasourceName := "pydio:meta-data-source-name"
  PydioContextUserKey := "X-Pydio-User"
  PydioSystemUsername := "pydio.system.user"
  ServiceGrpcNamespace_ := "pydio.grpc."
  ServiceTasks := "tasks"
  ContextMetaJobUuid := "X-Pydio-Job-Uuid"
  DefaultMaximumWorkers := 20
  ToLower := fun s => String.mk (s.data.map Char.toLower)
  growslice := fun c => if c = 0 then 1 else 2 * c
  ContextMetadata := fun ctx => ctx.metadata
  FindUserNameInContext := fun ctx => ctx.userValue.getD ""
  ParseNodeChangeEventName := fun eName =>
    if eName = "NODE_CHANGE:0" then some .CREATE
    else if eName = "NODE_CHANGE:3" then some .UPDATE_CONTENT
    else if eName = "NODE_CHANGE:5" then some .DELETE
    else none
  MatchesIdmChangeEvent := fun eName event =>
    (eName == "IDM_CHANGE:USER:0" && event.User.isSome && event.Type_ == .CREATE) ||
    (eName == "IDM_CHANGE:USER:3" && event.User.isSome && event.Type_ == .DELETE)
  EvaluateFieldStr := fun _ _ value => value
  NodesSelector_Filter := fun m _ _ => m.All
  IdmSelector_Filter := fun m _ _ => m.All
  ContextMetaFilter_Filter := fun m _ _ => m.Type_ == 0
  DataSourceSingleQuery_Matches := fun q ds => q.Name == ds.Name
  WithNode := fun m n => { m with Nodes := [n] }
  WithUser := fun m u => { m with Users := [u] }
  WithRole := fun m r => { m with Roles := [r] }
  WithWorkspace := fun m w => { m with Workspaces := [w] }
  WithAcl := fun m a => { m with Acls := [a] }
  GetSourceInfoByName := fun name =>
    if name = "pydiods1" then
      some { Name := "pydiods1", Disabled := false, ObjectsServiceName := "local1",
             PeerAddress := "", VersioningPolicyName := "", StorageConfiguration := ∅ }
    else none
  jsonUnmarshalString := fun doc =>
    if doc.length ≥ 2 ∧ doc.front = '"' ∧ doc.back = '"' then
      some ((doc.drop 1).dropRight 1)
    else none
  GetJob := fun _ _ => .error "not found"

/-- A context without metadata. -/
def exampleCtx : Context :=
  { metadata := none, userValue := none, serviceName := "", jobParameters := none }

/-- A context whose metadata carries the given job identifier under
`servicecontext.ContextMetaJobUuid`. -/
def exampleCtxOfJob (jobId : String) : Context :=
  { metadata := some (AList.singleton "X-Pydio-Job-Uuid" jobId), userValue := none,
    serviceName := "", jobParameters := none }

/-- A plain file node. -/
def exampleNode : Node :=
  { Uuid := "n1", Path := "pydiods1/file.txt", Type_ := .LEAF, Size := 12, MTime := 0,
    Mode := 0, Etag := "abc", MetaStore := none }

/-- An event of the given type on the given nodes, not optimistic. -/
def exampleNodeEvent (t : NodeChangeEvent_EventType) (source target : Option Node) :
    NodeChangeEvent :=
  { Type_ := t, Source := source, Target := target, Silent := false, Optimistic := false }

/-- An active job without filters nor parameters, subscribed to the given event names. -/
def exampleJob (id : String) (eventNames : List String) : Job :=
  { ID := id, Label := id, Owner := "admin", Inactive := false, EventNames := eventNames,
    MaxConcurrency := 0, NodeEventFilter := none, IdmFilter := none,
    ContextMetaFilter := none, DataSourceFilter := none, Parameters := [] }

/-- A subscriber without dispatchers whose registry holds the given jobs under their
identifiers; the first job of the list is the first entry of the map. -/
def exampleSubscriber (jobs : List Job) : Subscriber :=
  { JobsDefinitions := jobs.foldr (fun j m => m.insert j.ID j) ∅
    Dispatchers := ∅
    heap := []
    RootContext := exampleCtx }

/-- The creation of a user. -/
def exampleIdmEvent : IdmChangeEvent :=
  { Type_ := .CREATE
    User := some { Uuid := "u1", Login := "alice", GroupPath := "/", IsGroup := false }
    Role := none, Workspace := none, Acl := none }

/-- A file node of the data source `pydiods1`, whose name it carries JSON-encoded in its
metadata. -/
def exampleNodeOfDataSource : Node :=
  { exampleNode with
    MetaStore := some (AList.singleton "pydio:meta-data-source-name" "\"pydiods1\"") }

/-- A job subscribed to CREATE events whose data-source filter has neither the `All` flag
nor a query. -/
def exampleJobWithEmptyDataSourceFilter (id : String) : Job :=
  { exampleJob id ["NODE_CHANGE:0"] with
    DataSourceFilter :=
      some { Label := "", Description := "", All := false, Collect := false, Query := none } }

/-- The subscriber of `exampleSubscriber` after `GetDispatcherForJob` for its jobs, in
order. -/
def exampleSubscriberWithDispatchers (jobs : List Job) : Subscriber :=
  jobs.foldl (fun s j => (s.GetDispatcherForJob exampleEnv j).1) (exampleSubscriber jobs)

/-- The Dispatcher `GetDispatcherForJob` builds in `exampleEnv` for a job without
`MaxConcurrency`. -/
def exampleDispatcher (jobId : String) : Dispatcher :=
  (NewDispatcher 20
    (((∅ : StrMap String).insert "service" "pydio.grpc.tasks").insert "jobID" jobId)).Run

/-- A file node whose metadata names a data source that the configuration of
`exampleEnv` does not know. -/
def exampleNodeOfUnknownDataSource : Node :=
  { exampleNode with
    MetaStore := some (AList.singleton "pydio:meta-data-source-name" "\"unknownds\"") }

/-- A data source with the given name. -/
def exampleDataSource (name : String) : DataSource :=
  { Name := name, Disabled := false, ObjectsServiceName := "", PeerAddress := "",
    VersioningPolicyName := "", StorageConfiguration := ∅ }

/-- A selector without `All` flag whose query has one sub-query, on the name of the data
source. -/
def exampleSelectorByName (name : String) : DataSourceSelector :=
  { Label := "", Description := "", All := false, Collect := false
    Query := some
      { SubQueries := [.dataSourceSingleQuery
          { Name := name, ObjectServiceName := "", StorageConfigurationName := "",
            StorageConfigurationValue := "", PeerAddress := "", EncryptionKey := "",
            VersioningPolicyName := "", IsDisabled := false, Not := false }]
        Operation := .OR } }

/-- A selector that has neither the `All` flag nor a query. -/
def exampleSelectorWithoutQuery : DataSourceSelector :=
  { Label := "", Description := "", All := false, Collect := false, Query := none }

/-- An input message holding the data sources of the given names. -/
def exampleInputOfDataSources (names : List String) : ActionMessage :=
  { ActionMessage.empty with DataSources := names.map exampleDataSource }

/-- Stand-ins for the code of the actions that is not available: a duration syntax that
knows `24h`, `10s` and the minimal duration, a `TrimSpace` that trims blanks, a router handler that is always
available, message methods that leave the message as it is, a resize that succeeds, and
an ACL search that reports one ACL for each queried identifier starting with `acl-`. -/
def exampleActionsEnv : ActionsEnv where
  TrimSpace := fun ds =>
    String.mk (((ds.data.dropWhile (fun c => c = ' ')).reverse.dropWhile
      (fun c => c = ' ')).reverse)
  ParseCellsDuration := fun ds =>
    if ds = "24h" then .ok 86400000000000
    else if ds = "10s" then .ok 10000000000
    else if ds = "-2562047h47m16.854775808s" then .ok (-9223372036854775808)
    else .error "time: invalid duration"
  path_Dir := fun p => (path_Split p).1
  GetHandler := fun ctx => .ok ctx
  WithIgnore := fun m => m
  WithError := fun m _ => m
  AppendOutputSuccess := fun m => m
  resize := fun _ _ _ => none
  SearchACL := fun ids =>
    .ok ((ids.filter (fun id => "acl-".data.isPrefixOf id.data)).map
      (fun id => { ACL := some { ID := "1", NodeID := id, RoleID := "", WorkspaceID := "" } }))

/-- A query with the given `DurationDate` and no other criterion. -/
def exampleQuery (durationDate : String) : TreeQuery :=
  { Paths := [], PathPrefix := [], MinSize := 0, MaxSize := 0, MinDate := 0, MaxDate := 0,
    DurationDate := durationDate, Type_ := .UNKNOWN, FileName := "", Content := "",
    FreeString := "", Extension := "", PathDepth := 0, UUIDs := [], Not := false }

/-- An input message holding the given nodes. -/
def exampleInputOfNodes (nodes : List Node) : ActionMessage :=
  { ActionMessage.empty with Nodes := nodes }

/-- A compress action with the given format and target parameters. -/
def exampleCompress (format target : String) : CompressAction :=
  { Format := format, TargetName := target, filter := none }

/-- A job with the declared parameters `path`, of value `/tmp`, and `depth`, of value
`1`. -/
def exampleJobWithParameters (id : String) : Job :=
  { exampleJob id [] with
    Parameters :=
      [{ Name := "path", Description := "", Value := "/tmp", Mandatory := false },
       { Name := "depth", Description := "", Value := "1", Mandatory := false }] }

/-- A lost-and-found entry with the given UUIDs. -/
def exampleLostAndFound (uuids : List String) (isDuplicate : Bool) : LostAndFound :=
  { UUIDs := uuids, IsDuplicate := isDuplicate, Label := "entry" }

/-- The engine after the registration of the job `job1`, subscribed to the creation of
nodes. -/
def exampleEngineAfterUpdate : Engine :=
  { subscriber :=
      ((Engine.initial exampleCtx).subscriber.jobsChangeEvent exampleEnv
        { JobRemoved := "", JobUpdated := some (exampleJob "job1" ["NODE_CHANGE:0"]) }).1
    tasks := (Engine.initial exampleCtx).tasks }

/-- The engine after the registration of `job1` and the creation of a node, for which
`processNodeEvent` has created a task of `job1`. -/
def exampleEngineAfterEvent : Engine :=
  { subscriber := exampleEngineAfterUpdate.subscriber
    tasks := exampleEngineAfterUpdate.tasks ++
      (exampleEngineAfterUpdate.subscriber.processNodeEvent exampleEnv exampleCtx
        (exampleNodeEvent .CREATE none (some exampleNode))).created.map Prod.snd }

/-- The engine after the registration of `job1`, the creation of a node and the removal
of `job1`. -/
def exampleEngineAfterRemoval : Engine :=
  { subscriber :=
      (exampleEngineAfterEvent.subscriber.jobsChangeEvent exampleEnv
        { JobRemoved := "job1", JobUpdated := none }).1
    tasks := exampleEngineAfterEvent.tasks }

/-- The task `processNodeEvent` creates for `job1` on the creation of a node. -/
def exampleTask : Task :=
  NewTaskFromEvent exampleCtx (exampleJob "job1" ["NODE_CHANGE:0"])
    (.nodeChange (exampleNodeEvent .CREATE none (some exampleNode)))

/-- The engine after the given engine has delivered a runnable of `exampleTask` to the
main queue. -/
def exampleEngineAfterDelivery (σ : Engine) : Engine :=
  { subscriber := Subscriber.ListenToMainQueue.deliver exampleEnv σ.subscriber exampleTask
    tasks := σ.tasks }

/-- A node struct like `exampleNode` with the given map value as `MetaStore`. -/
def exampleNodeStruct (metaStore : Option Nat) : NodeStruct :=
  { Uuid := "n1", Path := "pydiods1/file.txt", Type_ := .LEAF, Size := 12, MTime := 0,
    Mode := 0, Etag := "abc", MetaStore := metaStore }

/-- A heap of two map objects: at address 0 a map with the entry `name` and the reserved
entry `pydio:x`, at address 1 a map with the reserved entry `pydio:x` only. -/
def exampleMetaHeap : List (StrMap String) :=
  [(AList.singleton "name" "a").insert "pydio:x" "1", AList.singleton "pydio:x" "1"]

/-! ## Properties stated by the specification -/

/-- The drop condition of `nodeEvent` as the specification words it: the Target has the
temporary Etag or carries the datasource-internal meta key, or the event is a DELETE whose
Source carries the datasource-internal meta key. -/
def nodeEventDropped (E : Env) (event : NodeChangeEvent) : Bool :=
  (match event.Target with
    | some t =>
      t.Etag == E.NodeFlagEtagTemporary ||
        (match t.MetaStore with
          | some m => (m.lookup E.MetaNamespaceDatasourceInternal).isSome
          | none => false)
    | none => false) ||
  (event.Type_ == .DELETE &&
    (match event.Source with
      | some n =>
        (match n.MetaStore with
          | some m => (m.lookup E.MetaNamespaceDatasourceInternal).isSome
          | none => false)
      | none => false))

/-- The metadata of the context carries the job identifier under the job-uuid key,
`servicecontext.ContextMetaJobUuid` or its lower-cased form. -/
def contextCarriesJob (E : Env) (ctx : Context) (jobId : String) : Prop :=
  ∃ mm, E.ContextMetadata ctx = some mm ∧
    (mm.lookup E.ContextMetaJobUuid = some jobId ∨
      mm.lookup (E.ToLower E.ContextMetaJobUuid) = some jobId)

/-- The entry of the `MetaStore` of a node under a key; a nil map has no entry. -/
def Node.metaLookup (node : Node) (key : String) : Option String :=
  match node.MetaStore with
  | none => none
  | some m => m.lookup key

/-- The worker count of the Dispatcher registered for a job identifier, if any: the set
of Dispatcher identifiers with their worker counts. -/
def Subscriber.workersOf (s : Subscriber) (jobId : String) : Option Int :=
  (s.Dispatchers.lookup jobId).bind (fun addr => (s.dispatcherAt addr).map (·.maxWorkers))

/-- Every pointer stored in `Dispatchers` refers to an allocated Dispatcher. This holds
of every Go state; in the embedding it says that the stored addresses are addresses of
`heap`. -/
def Subscriber.WellFormed (s : Subscriber) : Prop :=
  ∀ jobId addr, s.Dispatchers.lookup jobId = some addr → addr < s.heap.length

/-- A data source is selected by a selector: the `All` flag is set, or the query of the
selector evaluates to true on the data source (a selector without query has no query
that evaluates to true). -/
def DataSourceSelector.selected (E : Env) (m : DataSourceSelector) (ctx : Context)
    (input : ActionMessage) (ds : DataSource) : Bool :=
  m.All ||
    (match m.Query with
      | some q =>
        ReduceQueryBooleans
          (DataSourceSelector.evaluateSubQueries E ctx input ds q.SubQueries) q.Operation
      | none => false)

/-- The jobs received by the load loop that are not inactive, in the order received. -/
def receivedActiveJobs (responses : List (Option ListJobsResponse)) : List Job :=
  (responses.filterMap (fun resp => resp.bind (·.Job))).filter (fun job => !job.Inactive)

/-- The context in which `prepareTaskContext` evaluates the parameters: the given context
after the system user and the service name have been added. -/
def Subscriber.prepareTaskContext.base (E : Env) (s : Subscriber) (ctx : Context)
    (addSystemUser : Bool) : Context :=
  let ctx1 : Context :=
    if addSystemUser then
      if E.FindUserNameInContext ctx = "" then
        { ctx with
          metadata := some (AList.singleton E.PydioContextUserKey E.PydioSystemUsername)
          userValue := some E.PydioSystemUsername }
      else ctx
    else ctx
  { ctx1 with serviceName := s.RootContext.serviceName }

/-- Every job identifier that has a Dispatcher has a definition. -/
def Subscriber.DispatchersHaveDefinitions (s : Subscriber) : Prop :=
  ∀ jobId, (s.Dispatchers.lookup jobId).isSome = true →
    (s.JobsDefinitions.lookup jobId).isSome = true

/-- Every UUID of the entry is the node identifier of one of the ACLs. -/
def LostAndFound.allHaveACL (acls : List IdmACL) (l : LostAndFound) : Bool :=
  l.UUIDs.all (fun id => acls.any (fun a => a.NodeID == id))

/-- The deliveries to the main queue of runnables whose job has a definition at the time
of the delivery. -/
def Subscriber.deliversDefinedJob (s : Subscriber) (task : Task) : Prop :=
  (s.JobsDefinitions.lookup task.Job.ID).isSome = true

/-! ## Theorems -/

/-! ### `nodeEvent` -/

/-- C1. For every node-change event whose Optimistic flag is set, `nodeEvent` returns nil
and pushes nothing into the events batcher, whatever the environment, the context and the
other fields of the event; hence processing what was pushed creates no Task, whatever the
registry. -/
theorem nodeEvent_optimistic_pushes_nothing (E : Env) (ctx : Context)
    (event : NodeChangeEvent) (h : event.Optimistic = true) :
    Subscriber.nodeEvent E ctx event = .ok { err := none, pushed := [] } ∧
    ∀ (s : Subscriber) (r : NodeEventResult), Subscriber.nodeEvent E ctx event = .ok r →
      r.pushed.flatMap
        (fun e => (s.processNodeEvent E e.Ctx e.NodeChangeEvent).created) = [] := by
  have h1 : Subscriber.nodeEvent E ctx event = .ok { err := none, pushed := [] } := by
    simp [Subscriber.nodeEvent, h]
  refine ⟨h1, ?_⟩
  intro s r hr
  rw [h1] at hr
  cases hr
  rfl

/-- C1, at a concrete input: an optimistic DELETE event without nodes. -/
theorem nodeEvent_optimistic_pushes_nothing_witness :
    ({ exampleNodeEvent .DELETE none none with Optimistic := true } :
        NodeChangeEvent).Optimistic = true ∧
    Subscriber.nodeEvent exampleEnv exampleCtx
        { exampleNodeEvent .DELETE none none with Optimistic := true } =
      .ok { err := none, pushed := [] } :=
  ⟨rfl, (nodeEvent_optimistic_pushes_nothing exampleEnv exampleCtx
    { exampleNodeEvent .DELETE none none with Optimistic := true } rfl).1⟩


/-- The result of `nodeEvent` on every event that is not a DELETE without Source: nil
is returned, nothing is pushed when the event is optimistic or dropped, and exactly the
event with its context is pushed otherwise. -/
theorem nodeEvent_of_source_present (E : Env) (ctx : Context) (event : NodeChangeEvent)
    (hsrc : ¬ (event.Type_ = .DELETE ∧ event.Source = none)) :
    Subscriber.nodeEvent E ctx event =
      .ok { err := none
            pushed := if event.Optimistic || nodeEventDropped E event then []
                      else [{ NodeChangeEvent := event, Ctx := ctx }] } := by
  obtain ⟨ty, src, tgt, sil, opt⟩ := event
  cases opt
  · cases tgt with
    | none =>
      by_cases hty : ty = .DELETE
      · subst hty
        cases src with
        | none => exact absurd ⟨rfl, rfl⟩ hsrc
        | some n =>
          cases hm : n.MetaStore with
          | none => simp [Subscriber.nodeEvent, nodeEventDropped, Node.HasMetaKey, hm]
          | some m =>
            cases hl : (m.lookup E.MetaNamespaceDatasourceInternal).isSome <;>
              simp [Subscriber.nodeEvent, nodeEventDropped, Node.HasMetaKey, hm, hl]
      · simp [Subscriber.nodeEvent, nodeEventDropped, hty]
    | some t =>
      by_cases he : t.Etag = E.NodeFlagEtagTemporary
      · simp [Subscriber.nodeEvent, nodeEventDropped, he]
      · have hkey : ∀ b : Bool,
            (match t.MetaStore with
              | some m => (m.lookup E.MetaNamespaceDatasourceInternal).isSome
              | none => false) = b →
            Node.HasMetaKey (some t) E.MetaNamespaceDatasourceInternal = .ok b := by
          intro b hb
          cases hm : t.MetaStore with
          | none => simp [Node.HasMetaKey, hm] at hb ⊢; exact hb
          | some m => simp [Node.HasMetaKey, hm] at hb ⊢; exact hb
        cases hb : (match t.MetaStore with
              | some m => (m.lookup E.MetaNamespaceDatasourceInternal).isSome
              | none => false)
        · have hk := hkey false hb
          by_cases hty : ty = .DELETE
          · subst hty
            cases src with
            | none => exact absurd ⟨rfl, rfl⟩ hsrc
            | some n =>
              cases hm : n.MetaStore with
              | none =>
                simp [Subscriber.nodeEvent, nodeEventDropped, Node.HasMetaKey, hm, he, hb] at hk ⊢
                simp [hk]
              | some m =>
                cases hl : (m.lookup E.MetaNamespaceDatasourceInternal).isSome <;>
                  simp [Subscriber.nodeEvent, nodeEventDropped, Node.HasMetaKey, hm, hl, he,
                    hb] at hk ⊢ <;> simp [hk]
          · simp [Subscriber.nodeEvent, nodeEventDropped, hty, he, hb, hk]
        · have hk := hkey true hb
          simp [Subscriber.nodeEvent, nodeEventDropped, he, hb, hk]
  · simp [Subscriber.nodeEvent]

/-- C4. A DELETE event without Source whose Target is absent is neither optimistic nor
dropped by the conditions of the specification, yet `nodeEvent` pushes nothing and does
not return: `event.Source.HasMetaKey` dereferences the nil Source. -/
theorem nodeEvent_delete_without_source_faults (E : Env) (ctx : Context) :
    (exampleNodeEvent .DELETE none none).Optimistic = false ∧
    nodeEventDropped E (exampleNodeEvent .DELETE none none) = false ∧
    Subscriber.nodeEvent E ctx (exampleNodeEvent .DELETE none none) =
      .error .nilPointerDereference := by
  refine ⟨rfl, rfl, ?_⟩
  simp [Subscriber.nodeEvent, exampleNodeEvent, Node.HasMetaKey]

/-! ### Loop suppression -/

/-- A context whose metadata carries the job identifier under the job-uuid key, in either
spelling, makes `contextJobSameUuid` true. -/
theorem contextJobSameUuid_of_carried (E : Env) (ctx : Context) (J : String)
    (mm : StrMap String) (hmm : E.ContextMetadata ctx = some mm)
    (hJ : mm.lookup E.ContextMetaJobUuid = some J ∨
      mm.lookup (E.ToLower E.ContextMetaJobUuid) = some J) :
    Subscriber.contextJobSameUuid E ctx J = true := by
  unfold Subscriber.contextJobSameUuid
  rw [hmm]
  rcases hJ with h | h
  · by_cases h2 : mm.lookup (E.ToLower E.ContextMetaJobUuid) = some J
    · simp [h2]
    · simp [h2, h]
  · simp [h]

/-- With `sameJobUuid` set the inner loop of `processNodeEvent` never sets `eventMatch`. -/
theorem eventMatch_sameJobUuid (E : Env) (event : NodeChangeEvent) (names : List String) :
    Subscriber.processNodeEvent.eventMatch E event true names = "" := by
  induction names with
  | nil => rfl
  | cons eName rest ih =>
    unfold Subscriber.processNodeEvent.eventMatch
    cases E.ParseNodeChangeEventName eName with
    | none => simpa using ih
    | some eType =>
      by_cases h : event.Type_ = eType
      · simpa [h] using ih
      · simpa [h] using ih

/-- With `sameJob` set the inner loop of `idmEvent` creates no task. -/
theorem idmEvent_names_sameJob (E : Env) (event : IdmChangeEvent) (tCtx : Context)
    (jobData : Job) (names : List String) :
    Subscriber.idmEvent.names E event true tCtx jobData names = [] := by
  induction names with
  | nil => rfl
  | cons eName rest ih =>
    unfold Subscriber.idmEvent.names
    cases E.MatchesIdmChangeEvent eName event <;> simpa using ih

/-- Every task recorded by the loop of `processNodeEvent` was created by the body of the
loop at an entry of the list. -/
theorem processNodeEvent_loop_created (E : Env) (s : Subscriber) (ctx : Context)
    (event : NodeChangeEvent) (entries : List (Sigma (fun _ : String => Job)))
    (J : String) (t : Task)
    (h : (J, t) ∈ (Subscriber.processNodeEvent.loop E s ctx event entries).created) :
    ∃ jobData, (⟨J, jobData⟩ : Sigma (fun _ : String => Job)) ∈ entries ∧
      Subscriber.processNodeEvent.body E s ctx event J jobData = .ok (some t) := by
  induction entries with
  | nil => simp [Subscriber.processNodeEvent.loop] at h
  | cons entry rest ih =>
    obtain ⟨k, jd⟩ := entry
    unfold Subscriber.processNodeEvent.loop at h
    cases hb : Subscriber.processNodeEvent.body E s ctx event k jd with
    | error f => simp [hb] at h
    | ok o =>
      cases o with
      | none =>
        simp only [hb] at h
        obtain ⟨jobData, hmem, hbody⟩ := ih h
        exact ⟨jobData, List.mem_cons_of_mem _ hmem, hbody⟩
      | some task =>
        simp only [hb, List.mem_cons] at h
        rcases h with h | h
        · obtain ⟨h1, h2⟩ := Prod.mk.inj h
          subst h1
          subst h2
          exact ⟨jd, List.mem_cons_self _ _, hb⟩
        · obtain ⟨jobData, hmem, hbody⟩ := ih h
          exact ⟨jobData, List.mem_cons_of_mem _ hmem, hbody⟩

/-- The body of the loop of `processNodeEvent` creates no task for a job whose identifier
the context carries. -/
theorem processNodeEvent_body_sameJobUuid (E : Env) (s : Subscriber) (ctx : Context)
    (event : NodeChangeEvent) (jobId : String) (jobData : Job)
    (h : Subscriber.contextJobSameUuid E ctx jobId = true) :
    Subscriber.processNodeEvent.body E s ctx event jobId jobData = .ok none := by
  unfold Subscriber.processNodeEvent.body
  by_cases hi : jobData.Inactive = true
  · simp [hi]
  · simp [hi, h, eventMatch_sameJobUuid]

/-- The body of the loop of `idmEvent` creates no task for a job whose identifier the
context carries. -/
theorem idmEvent_body_sameJob (E : Env) (s : Subscriber) (ctx : Context)
    (event : IdmChangeEvent) (jobId : String) (jobData : Job)
    (h : Subscriber.contextJobSameUuid E ctx jobId = true) :
    Subscriber.idmEvent.body E s ctx event jobId jobData = [] := by
  unfold Subscriber.idmEvent.body
  simp only [h, idmEvent_names_sameJob]
  split_ifs <;> rfl

/-- Every task recorded by `idmEvent` was created by the body of its loop at an entry of
the registry. -/
theorem idmEvent_created (E : Env) (s : Subscriber) (ctx : Context) (event : IdmChangeEvent)
    (J : String) (t : Task) :
    (J, t) ∈ (s.idmEvent E ctx event).created ↔
      ∃ jobData, s.JobsDefinitions.lookup J = some jobData ∧
        t ∈ Subscriber.idmEvent.body E s ctx event J jobData := by
  simp only [Subscriber.idmEvent, List.mem_flatMap, List.mem_map, Prod.mk.injEq]
  constructor
  · rintro ⟨⟨k, jd⟩, hmem, t1, ht1, hk, ht⟩
    simp only at hk ht1
    subst hk
    subst ht
    exact ⟨jd, AList.mem_lookup_iff.mpr hmem, ht1⟩
  · rintro ⟨jobData, hl, ht⟩
    exact ⟨⟨J, jobData⟩, AList.mem_lookup_iff.mp hl, t, ht, rfl, rfl⟩

/-- C2. Loop suppression: when the metadata of the context of an event carries the
identifier J under the job-uuid key (`servicecontext.ContextMetaJobUuid` or its lower-cased
form), neither `processNodeEvent` nor `idmEvent` creates a Task at the registry entry J,
whatever the registry, the event and the job registered under J. -/
theorem loop_suppression (E : Env) (s : Subscriber) (ctx : Context) (J : String)
    (mm : StrMap String) (hmm : E.ContextMetadata ctx = some mm)
    (hJ : mm.lookup E.ContextMetaJobUuid = some J ∨
      mm.lookup (E.ToLower E.ContextMetaJobUuid) = some J) :
    (∀ (event : NodeChangeEvent) (t : Task),
      (J, t) ∉ (s.processNodeEvent E ctx event).created) ∧
    (∀ (event : IdmChangeEvent) (t : Task),
      (J, t) ∉ (s.idmEvent E ctx event).created) := by
  have hsame := contextJobSameUuid_of_carried E ctx J mm hmm hJ
  constructor
  · intro event t hmem
    obtain ⟨jobData, _, hbody⟩ :=
      processNodeEvent_loop_created E s ctx event _ J t hmem
    rw [processNodeEvent_body_sameJobUuid E s ctx event J jobData hsame] at hbody
    cases hbody
  · intro event t hmem
    obtain ⟨jobData, _, ht⟩ := (idmEvent_created E s ctx event J t).mp hmem
    rw [idmEvent_body_sameJob E s ctx event J jobData hsame] at ht
    cases ht

/-- C2, at a concrete input: a CREATE event whose context carries the identifier of a job
subscribed to CREATE events creates no Task for it, while the same event in a context
without metadata creates one. -/
theorem loop_suppression_witness :
    exampleEnv.ContextMetadata (exampleCtxOfJob "job1") =
      some (AList.singleton "X-Pydio-Job-Uuid" "job1") ∧
    (∀ t : Task, ("job1", t) ∉
      ((exampleSubscriber [exampleJob "job1" ["NODE_CHANGE:0"]]).processNodeEvent exampleEnv
        (exampleCtxOfJob "job1") (exampleNodeEvent .CREATE none (some exampleNode))).created) ∧
    ((exampleSubscriber [exampleJob "job1" ["NODE_CHANGE:0"]]).processNodeEvent exampleEnv
        exampleCtx (exampleNodeEvent .CREATE none (some exampleNode))).created.map Prod.fst =
      ["job1"] :=
  ⟨rfl,
   fun t =>
    (loop_suppression exampleEnv (exampleSubscriber [exampleJob "job1" ["NODE_CHANGE:0"]])
      (exampleCtxOfJob "job1") "job1" (AList.singleton "X-Pydio-Job-Uuid" "job1") rfl
      (Or.inl (by decide))).1 (exampleNodeEvent .CREATE none (some exampleNode)) t,
   by decide⟩

/-- What `contextJobSameUuid` computes: whether the metadata of the context carries the
job identifier under the job-uuid key. -/
theorem contextJobSameUuid_iff (E : Env) (ctx : Context) (jobId : String) :
    Subscriber.contextJobSameUuid E ctx jobId = true ↔ contextCarriesJob E ctx jobId := by
  constructor
  · intro h
    unfold Subscriber.contextJobSameUuid at h
    cases hmm : E.ContextMetadata ctx with
    | none => simp [hmm] at h
    | some mm =>
      simp only [hmm] at h
      by_cases h1 : mm.lookup (E.ToLower E.ContextMetaJobUuid) = some jobId
      · exact ⟨mm, hmm, Or.inr h1⟩
      · by_cases h2 : mm.lookup E.ContextMetaJobUuid = some jobId
        · exact ⟨mm, hmm, Or.inl h2⟩
        · simp [h1, h2] at h
  · rintro ⟨mm, hmm, hJ⟩
    exact contextJobSameUuid_of_carried E ctx jobId mm hmm hJ

/-! ### At most one dispatch per event per job -/

/-- The registry keys of the tasks created by the loop of `processNodeEvent` form a
sublist of the keys it iterates over. -/
theorem processNodeEvent_loop_keys_sublist (E : Env) (s : Subscriber) (ctx : Context)
    (event : NodeChangeEvent) (entries : List (Sigma (fun _ : String => Job))) :
    List.Sublist ((Subscriber.processNodeEvent.loop E s ctx event entries).created.map Prod.fst)
      entries.keys := by
  induction entries with
  | nil => simp [Subscriber.processNodeEvent.loop]
  | cons entry rest ih =>
    unfold Subscriber.processNodeEvent.loop
    cases hb : Subscriber.processNodeEvent.body E s ctx event entry.1 entry.2 with
    | error f => simp
    | ok o =>
      cases o with
      | none => simpa [List.keys] using List.Sublist.cons entry.1 ih
      | some task => simpa [List.keys] using List.Sublist.cons₂ entry.1 ih

/-- For every registry and node-change event, `processNodeEvent` creates at most one Task
per registry entry: the keys of the created tasks are pairwise distinct, even when several
names of `EventNames` parse to the type of the event. -/
theorem processNodeEvent_at_most_once (E : Env) (s : Subscriber) (ctx : Context)
    (event : NodeChangeEvent) :
    ((s.processNodeEvent E ctx event).created.map Prod.fst).Nodup :=
  List.Nodup.sublist (processNodeEvent_loop_keys_sublist E s ctx event _)
    s.JobsDefinitions.nodupKeys

/-- Without `sameJob` the inner loop of `idmEvent` creates one task per name of the list
that matches the event. -/
theorem idmEvent_names_eq (E : Env) (event : IdmChangeEvent) (tCtx : Context) (jobData : Job)
    (names : List String) :
    Subscriber.idmEvent.names E event false tCtx jobData names =
      (names.filter (fun eName => E.MatchesIdmChangeEvent eName event)).map
        (fun _ => NewTaskFromEvent tCtx jobData (.idmChange event)) := by
  induction names with
  | nil => rfl
  | cons eName rest ih =>
    unfold Subscriber.idmEvent.names
    cases h : E.MatchesIdmChangeEvent eName event <;> simp [List.filter, h, ih]

/-- C3. `idmEvent` creates two Tasks for one job and one identity event when two of the
names of `EventNames` match the event: its inner loop has no `break`, whereas
`processNodeEvent` stops at the first matching name. -/
theorem idmEvent_dispatches_twice :
    ((exampleSubscriber [exampleJob "job1" ["IDM_CHANGE:USER:0", "IDM_CHANGE:USER:0"]]).idmEvent
        exampleEnv exampleCtx exampleIdmEvent).created.map Prod.fst = ["job1", "job1"] ∧
    ((exampleSubscriber [exampleJob "job1" ["NODE_CHANGE:0", "NODE_CHANGE:0"]]).processNodeEvent
        exampleEnv exampleCtx
        (exampleNodeEvent .CREATE none (some exampleNode))).created.map Prod.fst = ["job1"] := by
  constructor <;> decide

/-! ### Matching of identity events -/

/-- The body of the loop of `idmEvent` creates a task exactly when the job is active, the
context does not carry its identifier, its configured context-metadata and identity
filters pass and one of its event names matches the event. -/
theorem idmEvent_body_task_iff (E : Env) (s : Subscriber) (ctx : Context)
    (event : IdmChangeEvent) (jobId : String) (jobData : Job) :
    (∃ t, t ∈ Subscriber.idmEvent.body E s ctx event jobId jobData) ↔
      (jobData.Inactive = false ∧
       (∃ eName ∈ jobData.EventNames, E.MatchesIdmChangeEvent eName event = true) ∧
       ¬ contextCarriesJob E ctx jobId ∧
       (∀ f, jobData.ContextMetaFilter = some f →
          Subscriber.jobLevelContextFilterPass E
            (s.prepareTaskContext E ctx jobData true []) f = true) ∧
       (∀ f, jobData.IdmFilter = some f →
          Subscriber.jobLevelIdmFilterPass E (s.prepareTaskContext E ctx jobData true [])
            (createMessageFromEvent E (.idmChange event)) f = true)) := by
  rw [← contextJobSameUuid_iff]
  unfold Subscriber.idmEvent.body
  cases hi : jobData.Inactive
  · cases hsame : Subscriber.contextJobSameUuid E ctx jobId
    · cases hc : jobData.ContextMetaFilter with
      | none =>
        cases hf : jobData.IdmFilter with
        | none => simp [idmEvent_names_eq]
        | some g =>
          cases hg : Subscriber.jobLevelIdmFilterPass E
              (s.prepareTaskContext E ctx jobData true [])
              (createMessageFromEvent E (.idmChange event)) g <;>
            simp [idmEvent_names_eq, hg]
      | some f =>
        cases hp : Subscriber.jobLevelContextFilterPass E
            (s.prepareTaskContext E ctx jobData true []) f
        · simp [hp]
        · cases hf : jobData.IdmFilter with
          | none => simp [idmEvent_names_eq, hp]
          | some g =>
            cases hg : Subscriber.jobLevelIdmFilterPass E
                (s.prepareTaskContext E ctx jobData true [])
                (createMessageFromEvent E (.idmChange event)) g <;>
              simp [idmEvent_names_eq, hp, hg]
    · simp only [idmEvent_names_sameJob]
      constructor
      · rintro ⟨t, ht⟩
        split_ifs at ht <;> simp at ht
      · rintro ⟨_, _, h, _⟩
        exact (h trivial).elim
  · simp

/-- C6. For every identity-change event and every job of the registry, `idmEvent` creates
a Task at the entry of the job if and only if the job is active, one of its EventNames
matches the event (`jobs.MatchesIdmChangeEvent`), the context does not carry the
identifier of the job, and its configured context-metadata and identity filters pass;
`idmEvent` always returns nil. -/
theorem idmEvent_task_iff (E : Env) (s : Subscriber) (ctx : Context) (event : IdmChangeEvent)
    (jobId : String) (jobData : Job) (hreg : s.JobsDefinitions.lookup jobId = some jobData) :
    ((∃ t, (jobId, t) ∈ (s.idmEvent E ctx event).created) ↔
      (jobData.Inactive = false ∧
       (∃ eName ∈ jobData.EventNames, E.MatchesIdmChangeEvent eName event = true) ∧
       ¬ contextCarriesJob E ctx jobId ∧
       (∀ f, jobData.ContextMetaFilter = some f →
          Subscriber.jobLevelContextFilterPass E
            (s.prepareTaskContext E ctx jobData true []) f = true) ∧
       (∀ f, jobData.IdmFilter = some f →
          Subscriber.jobLevelIdmFilterPass E (s.prepareTaskContext E ctx jobData true [])
            (createMessageFromEvent E (.idmChange event)) f = true))) ∧
    (s.idmEvent E ctx event).err = none := by
  refine ⟨?_, rfl⟩
  rw [← idmEvent_body_task_iff]
  constructor
  · rintro ⟨t, ht⟩
    obtain ⟨jd, hl, hb⟩ := (idmEvent_created E s ctx event jobId t).mp ht
    rw [hreg] at hl
    cases hl
    exact ⟨t, hb⟩
  · rintro ⟨t, ht⟩
    exact ⟨t, (idmEvent_created E s ctx event jobId t).mpr ⟨jobData, hreg, ht⟩⟩

/-- C6, at a concrete input: a job subscribed to user creations gets a Task for the
creation of a user. -/
theorem idmEvent_task_iff_witness :
    (exampleSubscriber [exampleJob "job1" ["IDM_CHANGE:USER:0"]]).JobsDefinitions.lookup "job1" =
      some (exampleJob "job1" ["IDM_CHANGE:USER:0"]) ∧
    (∃ t, ("job1", t) ∈
      ((exampleSubscriber [exampleJob "job1" ["IDM_CHANGE:USER:0"]]).idmEvent exampleEnv
        exampleCtx exampleIdmEvent).created) :=
  ⟨rfl,
   ((idmEvent_task_iff exampleEnv (exampleSubscriber [exampleJob "job1" ["IDM_CHANGE:USER:0"]])
      exampleCtx exampleIdmEvent "job1" (exampleJob "job1" ["IDM_CHANGE:USER:0"]) rfl).1).mpr
    ⟨rfl, ⟨"IDM_CHANGE:USER:0", (by simp [exampleJob]), (by decide)⟩,
     (by rintro ⟨mm, hmm, _⟩; cases hmm),
     (by intro f hf; cases hf),
     (by intro f hf; cases hf)⟩⟩

/-! ### Matching of node-change events -/

/-- Without `sameJobUuid`, and when the empty name is no event name, the inner loop of
`processNodeEvent` sets `eventMatch` exactly when one of the names parses to the type of
the event. -/
theorem eventMatch_ne_empty_iff (E : Env) (event : NodeChangeEvent) (names : List String)
    (hparse : E.ParseNodeChangeEventName "" = none) :
    Subscriber.processNodeEvent.eventMatch E event false names ≠ "" ↔
      ∃ eName ∈ names, E.ParseNodeChangeEventName eName = some event.Type_ := by
  induction names with
  | nil => simp [Subscriber.processNodeEvent.eventMatch]
  | cons eName rest ih =>
    unfold Subscriber.processNodeEvent.eventMatch
    cases hp : E.ParseNodeChangeEventName eName with
    | none => simp [ih, hp]
    | some eType =>
      by_cases h : event.Type_ = eType
      · have hne : eName ≠ "" := by
          intro h0
          rw [h0, hparse] at hp
          cases hp
        simp [h, hne, hp]
      · have h2 : ¬ eType = event.Type_ := fun h3 => h h3.symm
        simp [h, ih, hp, h2]

/-- The body of the loop of `processNodeEvent` creates a task exactly when the job is
active, the context does not carry its identifier, one of its event names parses to the
type of the event and its configured filters pass; the task is then built from the
prepared context, the job and the event. -/
theorem processNodeEvent_body_task_iff (E : Env) (s : Subscriber) (ctx : Context)
    (event : NodeChangeEvent) (jobId : String) (jobData : Job)
    (hparse : E.ParseNodeChangeEventName "" = none) (t : Task) :
    Subscriber.processNodeEvent.body E s ctx event jobId jobData = .ok (some t) ↔
      (jobData.Inactive = false ∧
       ¬ contextCarriesJob E ctx jobId ∧
       (∃ eName ∈ jobData.EventNames, E.ParseNodeChangeEventName eName = some event.Type_) ∧
       (∀ f, jobData.ContextMetaFilter = some f →
          Subscriber.jobLevelContextFilterPass E
            (s.prepareTaskContext E ctx jobData false []) f = true) ∧
       (∀ f, jobData.NodeEventFilter = some f →
          Subscriber.jobLevelFilterPass E
            (s.prepareTaskContext E ctx jobData false []) event f = true) ∧
       (∀ f, jobData.IdmFilter = some f →
          Subscriber.jobLevelIdmFilterPass E (s.prepareTaskContext E ctx jobData false [])
            (createMessageFromEvent E (.nodeChange event)) f = true) ∧
       (∀ f, jobData.DataSourceFilter = some f →
          Subscriber.jobLevelDataSourceFilterPass E ctx event f = .ok true) ∧
       t = NewTaskFromEvent (s.prepareTaskContext E ctx jobData false []) jobData
            (.nodeChange event)) := by
  rw [← contextJobSameUuid_iff]
  unfold Subscriber.processNodeEvent.body
  cases hi : jobData.Inactive
  swap
  · simp
  cases hsame : Subscriber.contextJobSameUuid E ctx jobId
  swap
  · simp [eventMatch_sameJobUuid]
  have hm := eventMatch_ne_empty_iff E event jobData.EventNames hparse
  by_cases hem : Subscriber.processNodeEvent.eventMatch E event false jobData.EventNames = ""
  · have hno : ¬ ∃ eName ∈ jobData.EventNames,
        E.ParseNodeChangeEventName eName = some event.Type_ := fun h => (hm.mpr h) hem
    simp [hem, hno]
  · have hyes := hm.mp hem
    simp only [hem, if_false, Bool.false_eq_true, if_false]
    cases hc : jobData.ContextMetaFilter <;> cases hn : jobData.NodeEventFilter <;>
      cases hf : jobData.IdmFilter <;> cases hd : jobData.DataSourceFilter <;>
      simp only [] <;> (repeat' split) <;> simp_all <;> exact eq_comm

/-- Once the context-metadata, node or identity filter of a job fails, the body of the
loop of `processNodeEvent` creates no task and does not evaluate the data-source
filter: it ends normally whatever that filter would do. -/
theorem processNodeEvent_body_short_circuit (E : Env) (s : Subscriber) (ctx : Context)
    (event : NodeChangeEvent) (jobId : String) (jobData : Job)
    (h : (∃ f, jobData.ContextMetaFilter = some f ∧
            Subscriber.jobLevelContextFilterPass E
              (s.prepareTaskContext E ctx jobData false []) f = false) ∨
         (∃ f, jobData.NodeEventFilter = some f ∧
            Subscriber.jobLevelFilterPass E
              (s.prepareTaskContext E ctx jobData false []) event f = false) ∨
         (∃ f, jobData.IdmFilter = some f ∧
            Subscriber.jobLevelIdmFilterPass E (s.prepareTaskContext E ctx jobData false [])
              (createMessageFromEvent E (.nodeChange event)) f = false)) :
    Subscriber.processNodeEvent.body E s ctx event jobId jobData = .ok none := by
  unfold Subscriber.processNodeEvent.body
  rcases h with ⟨f, hf, hp⟩ | ⟨f, hf, hp⟩ | ⟨f, hf, hp⟩ <;>
    simp only [hf, hp] <;> (repeat' split) <;> simp_all

/-- When the loop of `processNodeEvent` ends without panic, it records every task the
body creates at an entry of the list. -/
theorem processNodeEvent_loop_complete (E : Env) (s : Subscriber) (ctx : Context)
    (event : NodeChangeEvent) (entries : List (Sigma (fun _ : String => Job)))
    (hfault : (Subscriber.processNodeEvent.loop E s ctx event entries).fault = none)
    (J : String) (jobData : Job) (t : Task)
    (hmem : (⟨J, jobData⟩ : Sigma (fun _ : String => Job)) ∈ entries)
    (hbody : Subscriber.processNodeEvent.body E s ctx event J jobData = .ok (some t)) :
    (J, t) ∈ (Subscriber.processNodeEvent.loop E s ctx event entries).created := by
  induction entries with
  | nil => cases hmem
  | cons entry rest ih =>
    obtain ⟨k, jd⟩ := entry
    unfold Subscriber.processNodeEvent.loop at hfault ⊢
    cases hb : Subscriber.processNodeEvent.body E s ctx event k jd with
    | error f => simp [hb] at hfault
    | ok o =>
      rcases List.mem_cons.mp hmem with heq | hrest
      · cases heq
        rw [hbody] at hb
        cases hb
        simp [hbody]
      · cases o with
        | none =>
          simp only [hb] at hfault ⊢
          exact ih hfault hrest
        | some task =>
          simp only [hb] at hfault ⊢
          exact List.mem_cons_of_mem _ (ih hfault hrest)

/-- On every run of `processNodeEvent` that ends without panic, and when the empty name
is no event name, a Task is created at the registry entry of a job if and only if the job
is not inactive, the context does not carry its identifier, one of its EventNames parses
to the type of the event, and each of its configured filters passes. -/
theorem processNodeEvent_task_iff_of_no_fault (E : Env) (s : Subscriber) (ctx : Context)
    (event : NodeChangeEvent) (jobId : String) (jobData : Job)
    (hparse : E.ParseNodeChangeEventName "" = none)
    (hfault : (s.processNodeEvent E ctx event).fault = none)
    (hreg : s.JobsDefinitions.lookup jobId = some jobData) :
    (∃ t, (jobId, t) ∈ (s.processNodeEvent E ctx event).created) ↔
      (jobData.Inactive = false ∧
       ¬ contextCarriesJob E ctx jobId ∧
       (∃ eName ∈ jobData.EventNames, E.ParseNodeChangeEventName eName = some event.Type_) ∧
       (∀ f, jobData.ContextMetaFilter = some f →
          Subscriber.jobLevelContextFilterPass E
            (s.prepareTaskContext E ctx jobData false []) f = true) ∧
       (∀ f, jobData.NodeEventFilter = some f →
          Subscriber.jobLevelFilterPass E
            (s.prepareTaskContext E ctx jobData false []) event f = true) ∧
       (∀ f, jobData.IdmFilter = some f →
          Subscriber.jobLevelIdmFilterPass E (s.prepareTaskContext E ctx jobData false [])
            (createMessageFromEvent E (.nodeChange event)) f = true) ∧
       (∀ f, jobData.DataSourceFilter = some f →
          Subscriber.jobLevelDataSourceFilterPass E ctx event f = .ok true)) := by
  constructor
  · rintro ⟨t, ht⟩
    obtain ⟨jd, hmem, hbody⟩ := processNodeEvent_loop_created E s ctx event _ jobId t ht
    have hl := AList.mem_lookup_iff.mpr hmem
    rw [hreg] at hl
    cases hl
    obtain ⟨h1, h2, h3, h4, h5, h6, h7, _⟩ :=
      (processNodeEvent_body_task_iff E s ctx event jobId jobData hparse t).mp hbody
    exact ⟨h1, h2, h3, h4, h5, h6, h7⟩
  · rintro ⟨h1, h2, h3, h4, h5, h6, h7⟩
    refine ⟨NewTaskFromEvent (s.prepareTaskContext E ctx jobData false []) jobData
      (.nodeChange event), ?_⟩
    exact processNodeEvent_loop_complete E s ctx event _ hfault jobId jobData _
      (AList.mem_lookup_iff.mp hreg)
      ((processNodeEvent_body_task_iff E s ctx event jobId jobData hparse _).mpr
        ⟨h1, h2, h3, h4, h5, h6, h7, rfl⟩)

/-- For every environment, a data-source filter that has neither the `All` flag nor a
query makes `jobLevelDataSourceFilterPass` panic as soon as the reference node of the
event names a data source that the configuration knows. -/
theorem jobLevelDataSourceFilterPass_nil_query_faults (E : Env) (ctx : Context)
    (event : NodeChangeEvent) (filter : DataSourceSelector) (n : Node) (ds : DataSource)
    (hn : refNode event = some n)
    (hname : Node.GetStringMeta E n E.MetaNamespaceDatasourceName ≠ "")
    (hds : E.GetSourceInfoByName (Node.GetStringMeta E n E.MetaNamespaceDatasourceName) =
      some ds)
    (hall : filter.All = false) (hq : filter.Query = none) :
    Subscriber.jobLevelDataSourceFilterPass E ctx event filter =
      .error .nilPointerDereference := by
  unfold Subscriber.jobLevelDataSourceFilterPass
  simp only [hn, hname, ne_eq, not_false_eq_true, if_true, hds]
  simp [DataSourceSelector.Filter, DataSourceSelector.filterLoop, DataSourceSelector.evaluate,
    hall, hq]

/-- C5. A registry holds `jobB`, an active job without filters subscribed to CREATE
events, and `jobA`, whose data-source filter has neither the `All` flag nor a query. On a
CREATE event for a node of a known data source, in a context without metadata, every
condition holds for `jobB` and the body of the loop creates its Task; yet when the
iteration reaches `jobA` first, `DataSourceSelector.evaluate` dereferences the nil query,
the panic ends the loop, and `processNodeEvent` creates no Task for `jobB`. -/
theorem processNodeEvent_aborted_by_selector_panic :
    (exampleSubscriber [exampleJobWithEmptyDataSourceFilter "jobA",
        exampleJob "jobB" ["NODE_CHANGE:0"]]).JobsDefinitions.keys = ["jobA", "jobB"] ∧
    (∃ t, Subscriber.processNodeEvent.body exampleEnv
        (exampleSubscriber [exampleJobWithEmptyDataSourceFilter "jobA",
          exampleJob "jobB" ["NODE_CHANGE:0"]])
        exampleCtx (exampleNodeEvent .CREATE none (some exampleNodeOfDataSource))
        "jobB" (exampleJob "jobB" ["NODE_CHANGE:0"]) = .ok (some t)) ∧
    ((exampleSubscriber [exampleJobWithEmptyDataSourceFilter "jobA",
        exampleJob "jobB" ["NODE_CHANGE:0"]]).processNodeEvent exampleEnv exampleCtx
      (exampleNodeEvent .CREATE none (some exampleNodeOfDataSource))).created.length = 0 ∧
    ((exampleSubscriber [exampleJobWithEmptyDataSourceFilter "jobA",
        exampleJob "jobB" ["NODE_CHANGE:0"]]).processNodeEvent exampleEnv exampleCtx
      (exampleNodeEvent .CREATE none (some exampleNodeOfDataSource))).fault =
      some .nilPointerDereference := by
  refine ⟨by decide, ⟨_, rfl⟩, by decide, by decide⟩

/-! ### Timer events -/

/-- C7. For every timer trigger event `timerEvent` returns nil. When the job named by
`event.JobID` is resolved (found in `JobsDefinitions`, or otherwise returned non-nil and
without error by `GetJob`) it creates exactly one Task, for that job and that event, if
the job is not inactive, and none if it is inactive; it creates no Task when the job
cannot be resolved. -/
theorem timerEvent_creates_one_task_iff_resolved_active (E : Env) (s : Subscriber)
    (ctx : Context) (event : JobTriggerEvent) :
    (s.timerEvent E ctx event).err = none ∧
    (∀ j, (s.JobsDefinitions.lookup event.JobID = some j ∨
            (s.JobsDefinitions.lookup event.JobID = none ∧
              E.GetJob ctx event.JobID = .ok (some j))) →
        (j.Inactive = false →
          ∃ t, (s.timerEvent E ctx event).created = [t] ∧ t.Job = j ∧
            t.Event = .trigger event) ∧
        (j.Inactive = true → (s.timerEvent E ctx event).created = [])) ∧
    ((s.JobsDefinitions.lookup event.JobID = none ∧
        ∀ j, E.GetJob ctx event.JobID ≠ .ok (some j)) →
      (s.timerEvent E ctx event).created = []) := by
  refine ⟨?_, ?_, ?_⟩
  · dsimp only [Subscriber.timerEvent]
    repeat' split
    all_goals rfl
  · intro j hj
    have hres : (match s.JobsDefinitions.lookup event.JobID with
        | some j => some j
        | none =>
          match E.GetJob ctx event.JobID with
          | .error _ => none
          | .ok none => none
          | .ok (some j) => some j) = some j := by
      rcases hj with h | ⟨h1, h2⟩
      · simp [h]
      · simp [h1, h2]
    constructor
    · intro hact
      unfold Subscriber.timerEvent
      simp only [hres, hact]
      exact ⟨_, rfl, rfl, rfl⟩
    · intro hin
      unfold Subscriber.timerEvent
      simp only [hres, hin]
      rfl
  · rintro ⟨h1, h2⟩
    unfold Subscriber.timerEvent
    simp only [h1]
    cases hg : E.GetJob ctx event.JobID with
    | error e => rfl
    | ok o =>
      cases o with
      | none => rfl
      | some j => exact absurd hg (h2 j)

/-- C7, at a concrete input: a timer event for an active registered job creates one
Task. -/
theorem timerEvent_creates_one_task_iff_resolved_active_witness :
    (exampleSubscriber [exampleJob "job1" []]).JobsDefinitions.lookup "job1" =
      some (exampleJob "job1" []) ∧
    ∃ t, ((exampleSubscriber [exampleJob "job1" []]).timerEvent exampleEnv exampleCtx
        { JobID := "job1", Schedule := none, RunNow := true, RunParameters := none }).created =
      [t] ∧ t.Job = exampleJob "job1" [] :=
  ⟨rfl,
   by
    obtain ⟨t, h1, h2, _⟩ :=
      ((timerEvent_creates_one_task_iff_resolved_active exampleEnv
        (exampleSubscriber [exampleJob "job1" []]) exampleCtx
        { JobID := "job1", Schedule := none, RunNow := true, RunParameters := none }).2.1
        (exampleJob "job1" []) (Or.inl rfl)).1 rfl
    exact ⟨t, h1, h2⟩⟩

/-! ### Registry changes -/

/-- The dispatcher at the stopped address is stopped by `stopDispatcher`, the others are
untouched. -/
theorem dispatcherAt_stopDispatcher (s : Subscriber) (addr a : Nat) :
    (s.stopDispatcher addr).dispatcherAt a =
      if addr = a then (s.dispatcherAt a).map Dispatcher.Stop else s.dispatcherAt a := by
  unfold Subscriber.stopDispatcher Subscriber.dispatcherAt
  simp only [List.getElem?_modify]
  split_ifs <;> cases s.heap[a]? <;> rfl

/-- C8, as stated, fails for the empty identifier: a change event whose `JobRemoved` is
empty removes nothing, so the job registered under the empty identifier by a previous
update is still registered. -/
theorem jobsChangeEvent_remove_empty_identifier :
    ¬ ∀ (s : Subscriber) (id : String),
      (s.jobsChangeEvent exampleEnv { JobRemoved := id, JobUpdated := none }).1.JobsDefinitions.lookup
        id = none := by
  intro h
  have h1 := h ((exampleSubscriber []).jobsChangeEvent exampleEnv
    { JobRemoved := "", JobUpdated := some (exampleJob "" ["NODE_CHANGE:0"]) }).1 ""
  have h2 : ((((exampleSubscriber []).jobsChangeEvent exampleEnv
      { JobRemoved := "", JobUpdated := some (exampleJob "" ["NODE_CHANGE:0"]) }).1.jobsChangeEvent
      exampleEnv { JobRemoved := "", JobUpdated := none }).1.JobsDefinitions.lookup "").isSome =
      true := by decide
  rw [h1] at h2
  cases h2

/-- C8, amended. For every registry state and every non-empty identifier id, after
`jobsChangeEvent` with `JobRemoved` = id and no `JobUpdated`, the call has returned nil,
neither `JobsDefinitions` nor `Dispatchers` has an entry for id, the Dispatcher that was
registered for id (if any) has been stopped, and every entry of both maps under a
different identifier is unchanged. -/
theorem jobsChangeEvent_remove (E : Env) (s : Subscriber) (id : String) (hid : id ≠ "") :
    (s.jobsChangeEvent E { JobRemoved := id, JobUpdated := none }).2 = none ∧
    (s.jobsChangeEvent E { JobRemoved := id, JobUpdated := none }).1.JobsDefinitions.lookup id =
      none ∧
    (s.jobsChangeEvent E { JobRemoved := id, JobUpdated := none }).1.Dispatchers.lookup id =
      none ∧
    (∀ d disp, s.Dispatchers.lookup id = some d → s.dispatcherAt d = some disp →
      (s.jobsChangeEvent E { JobRemoved := id, JobUpdated := none }).1.dispatcherAt d =
        some disp.Stop) ∧
    (∀ k, k ≠ id →
      (s.jobsChangeEvent E { JobRemoved := id, JobUpdated := none }).1.JobsDefinitions.lookup k =
        s.JobsDefinitions.lookup k ∧
      (s.jobsChangeEvent E { JobRemoved := id, JobUpdated := none }).1.Dispatchers.lookup k =
        s.Dispatchers.lookup k) := by
  have hjobs : ∀ k,
      (if (s.JobsDefinitions.lookup id).isSome then
          { s with JobsDefinitions := s.JobsDefinitions.erase id }
        else s).JobsDefinitions.lookup k =
      if k = id then none else s.JobsDefinitions.lookup k := by
    intro k
    by_cases hk : k = id
    · subst hk
      cases hl : s.JobsDefinitions.lookup k with
      | none => simp [hl]
      | some j => simp [hl, AList.lookup_erase]
    · cases hl : s.JobsDefinitions.lookup id with
      | none => simp [hl, hk]
      | some j => simp [hl, hk, AList.lookup_erase_ne hk]
  have hdisp :
      (if (s.JobsDefinitions.lookup id).isSome then
          { s with JobsDefinitions := s.JobsDefinitions.erase id }
        else s).Dispatchers = s.Dispatchers := by
    split_ifs <;> rfl
  have hheap :
      (if (s.JobsDefinitions.lookup id).isSome then
          { s with JobsDefinitions := s.JobsDefinitions.erase id }
        else s).heap = s.heap := by
    split_ifs <;> rfl
  unfold Subscriber.jobsChangeEvent
  simp only [ne_eq, hid, not_false_eq_true, if_true, hdisp]
  cases hd : s.Dispatchers.lookup id with
  | none =>
    refine ⟨trivial, ?_, ?_, ?_, ?_⟩
    · simpa using hjobs id
    · simpa [hdisp] using hd
    · intro d disp h
      cases h
    · intro k hk
      refine ⟨?_, ?_⟩
      · simpa [hk] using hjobs k
      · simp [hdisp]
  | some dispatcher =>
    refine ⟨trivial, ?_, ?_, ?_, ?_⟩
    · simpa [Subscriber.stopDispatcher] using hjobs id
    · simp [Subscriber.stopDispatcher, hdisp, AList.lookup_erase]
    · intro d disp h hat
      cases h
      have := dispatcherAt_stopDispatcher
        (if (s.JobsDefinitions.lookup id).isSome then
          { s with JobsDefinitions := s.JobsDefinitions.erase id }
        else s) dispatcher dispatcher
      simp only [if_true] at this
      have hat2 : (if (s.JobsDefinitions.lookup id).isSome then
          { s with JobsDefinitions := s.JobsDefinitions.erase id }
        else s).dispatcherAt dispatcher = some disp := by
        unfold Subscriber.dispatcherAt at hat ⊢
        rw [hheap]
        exact hat
      rw [hat2] at this
      simpa [Subscriber.dispatcherAt] using this
    · intro k hk
      refine ⟨?_, ?_⟩
      · simpa [Subscriber.stopDispatcher, hk] using hjobs k
      · simp [Subscriber.stopDispatcher, hdisp, AList.lookup_erase_ne hk]

/-- C8 amended, at a concrete input: removing a registered job that has a Dispatcher. -/
theorem jobsChangeEvent_remove_witness :
    "job1" ≠ "" ∧
    ((exampleSubscriberWithDispatchers [exampleJob "job1" []]).Dispatchers.lookup "job1").isSome =
      true ∧
    ((exampleSubscriberWithDispatchers [exampleJob "job1" []]).jobsChangeEvent exampleEnv
      { JobRemoved := "job1", JobUpdated := none }).1.Dispatchers.lookup "job1" = none :=
  ⟨by decide, by decide,
   (jobsChangeEvent_remove exampleEnv (exampleSubscriberWithDispatchers [exampleJob "job1" []])
      "job1" (by decide)).2.2.1⟩

/-- The subscriber after an update notification for a job that has a Dispatcher and stays
active: the definition is replaced, the old Dispatcher is stopped, and a Dispatcher
allocated at the end of the heap is registered in its place. -/
theorem jobsChangeEvent_update_registered_active (E : Env) (s : Subscriber) (d : Job)
    (old : Nat) (hreg : s.Dispatchers.lookup d.ID = some old) (hact : d.Inactive = false) :
    (s.jobsChangeEvent E { JobRemoved := "", JobUpdated := some d }).1 =
      { JobsDefinitions := s.JobsDefinitions.insert d.ID d
        Dispatchers := (s.Dispatchers.erase d.ID).insert d.ID s.heap.length
        heap := s.heap.modify Dispatcher.Stop old ++
          [(NewDispatcher
              (if d.MaxConcurrency > 0 then d.MaxConcurrency else E.DefaultMaximumWorkers)
              (((∅ : StrMap String).insert "service"
                (E.ServiceGrpcNamespace_ ++ E.ServiceTasks)).insert "jobID" d.ID)).Run]
        RootContext := s.RootContext } := by
  unfold Subscriber.jobsChangeEvent
  simp only [ne_eq, not_true_eq_false, if_false, hreg, hact, Bool.not_false, if_true]
  unfold Subscriber.GetDispatcherForJob
  simp [Subscriber.stopDispatcher, AList.lookup_erase]

/-- The subscriber after an update notification for a job that has a Dispatcher and
becomes inactive: the definition is replaced, the old Dispatcher is stopped and
unregistered. -/
theorem jobsChangeEvent_update_registered_inactive (E : Env) (s : Subscriber) (d : Job)
    (old : Nat) (hreg : s.Dispatchers.lookup d.ID = some old) (hin : d.Inactive = true) :
    (s.jobsChangeEvent E { JobRemoved := "", JobUpdated := some d }).1 =
      { JobsDefinitions := s.JobsDefinitions.insert d.ID d
        Dispatchers := s.Dispatchers.erase d.ID
        heap := s.heap.modify Dispatcher.Stop old
        RootContext := s.RootContext } := by
  unfold Subscriber.jobsChangeEvent
  simp [hreg, hin, Subscriber.stopDispatcher]

/-- The subscriber after an update notification for a job that has no Dispatcher: only
the definition is replaced. -/
theorem jobsChangeEvent_update_unregistered (E : Env) (s : Subscriber) (d : Job)
    (hreg : s.Dispatchers.lookup d.ID = none) :
    (s.jobsChangeEvent E { JobRemoved := "", JobUpdated := some d }).1 =
      { s with JobsDefinitions := s.JobsDefinitions.insert d.ID d } := by
  unfold Subscriber.jobsChangeEvent
  simp [hreg]

/-- C9, as stated, fails when no Dispatcher was registered before the call: after an
update notification for an active job on the empty subscriber, `Dispatchers` has no entry
for the job. -/
theorem jobsChangeEvent_update_creates_no_dispatcher :
    ¬ ∀ (s : Subscriber) (d : Job), d.Inactive = false →
      ((s.jobsChangeEvent exampleEnv
        { JobRemoved := "", JobUpdated := some d }).1.Dispatchers.lookup d.ID).isSome = true := by
  intro h
  have h1 := h (exampleSubscriber []) (exampleJob "job1" ["NODE_CHANGE:0"]) rfl
  revert h1
  decide

/-- C9, amended. For every registry state and every active job definition d, after
`jobsChangeEvent` with `JobUpdated` = d (and no `JobRemoved`), `JobsDefinitions` maps d.ID
to d; when a Dispatcher was registered for d.ID before the call, `Dispatchers` maps d.ID to
a freshly created Dispatcher (an address that was not allocated before, holding a started,
not stopped Dispatcher with the worker count of d); when none was registered, none is
registered after the call. -/
theorem jobsChangeEvent_update (E : Env) (s : Subscriber) (d : Job)
    (hact : d.Inactive = false) :
    (s.jobsChangeEvent E { JobRemoved := "", JobUpdated := some d }).1.JobsDefinitions.lookup
      d.ID = some d ∧
    (∀ old, s.Dispatchers.lookup d.ID = some old →
      (s.jobsChangeEvent E { JobRemoved := "", JobUpdated := some d }).1.Dispatchers.lookup
        d.ID = some s.heap.length ∧
      s.dispatcherAt s.heap.length = none ∧
      ∃ nd, (s.jobsChangeEvent E
          { JobRemoved := "", JobUpdated := some d }).1.dispatcherAt s.heap.length = some nd ∧
        nd.running = true ∧ nd.stopped = false ∧
        nd.maxWorkers =
          if d.MaxConcurrency > 0 then d.MaxConcurrency else E.DefaultMaximumWorkers) ∧
    (s.Dispatchers.lookup d.ID = none →
      (s.jobsChangeEvent E { JobRemoved := "", JobUpdated := some d }).1.Dispatchers.lookup
        d.ID = none) := by
  refine ⟨?_, ?_, ?_⟩
  · cases hreg : s.Dispatchers.lookup d.ID with
    | none =>
      rw [jobsChangeEvent_update_unregistered E s d hreg]
      exact AList.lookup_insert _
    | some old =>
      rw [jobsChangeEvent_update_registered_active E s d old hreg hact]
      exact AList.lookup_insert _
  · intro old hreg
    rw [jobsChangeEvent_update_registered_active E s d old hreg hact]
    refine ⟨AList.lookup_insert _, ?_, ?_⟩
    · simp [Subscriber.dispatcherAt]
    · refine ⟨(NewDispatcher
          (if d.MaxConcurrency > 0 then d.MaxConcurrency else E.DefaultMaximumWorkers)
          (((∅ : StrMap String).insert "service"
            (E.ServiceGrpcNamespace_ ++ E.ServiceTasks)).insert "jobID" d.ID)).Run,
        ?_, rfl, rfl, rfl⟩
      simp [Subscriber.dispatcherAt, List.getElem?_append_right]
  · intro hreg
    rw [jobsChangeEvent_update_unregistered E s d hreg]
    exact hreg

/-- C9 amended, at a concrete input: updating an active job that has a Dispatcher. -/
theorem jobsChangeEvent_update_witness :
    (exampleJob "job1" []).Inactive = false ∧
    ((exampleSubscriberWithDispatchers [exampleJob "job1" []]).jobsChangeEvent exampleEnv
      { JobRemoved := "", JobUpdated := some (exampleJob "job1" ["NODE_CHANGE:0"]) }).1.Dispatchers.lookup
        "job1" = some 1 :=
  ⟨rfl,
   ((jobsChangeEvent_update exampleEnv (exampleSubscriberWithDispatchers [exampleJob "job1" []])
      (exampleJob "job1" ["NODE_CHANGE:0"]) rfl).2.1 0 (by decide)).1⟩

/-- C10. Hot reconfiguration of concurrency: in every registry state in which a
Dispatcher is registered for job id, after `jobsChangeEvent` with `JobUpdated` = d
(d.ID = id, no `JobRemoved`) the old Dispatcher has been stopped; if d is active with
`MaxConcurrency` = N > 0, the Dispatcher now registered for id is a different, newly
allocated one, started with exactly N workers; if d is inactive, no Dispatcher is
registered for id afterwards. -/
theorem jobsChangeEvent_hot_reconfiguration (E : Env) (s : Subscriber) (d : Job)
    (old : Nat) (oldDisp : Dispatcher) (hreg : s.Dispatchers.lookup d.ID = some old)
    (hold : s.dispatcherAt old = some oldDisp) :
    (s.jobsChangeEvent E { JobRemoved := "", JobUpdated := some d }).1.dispatcherAt old =
      some oldDisp.Stop ∧
    (d.Inactive = false → ∀ N : Int, d.MaxConcurrency = N → 0 < N →
      ∃ new nd,
        (s.jobsChangeEvent E { JobRemoved := "", JobUpdated := some d }).1.Dispatchers.lookup
          d.ID = some new ∧
        new ≠ old ∧ s.dispatcherAt new = none ∧
        (s.jobsChangeEvent E { JobRemoved := "", JobUpdated := some d }).1.dispatcherAt new =
          some nd ∧
        nd.maxWorkers = N ∧ nd.running = true ∧ nd.stopped = false) ∧
    (d.Inactive = true →
      (s.jobsChangeEvent E { JobRemoved := "", JobUpdated := some d }).1.Dispatchers.lookup
        d.ID = none) := by
  have hlt : old < s.heap.length := by
    unfold Subscriber.dispatcherAt at hold
    by_contra hge
    rw [List.getElem?_eq_none (Nat.le_of_not_lt hge)] at hold
    cases hold
  have hget : s.heap[old]? = some oldDisp := hold
  refine ⟨?_, ?_, ?_⟩
  · cases hact : d.Inactive
    · rw [jobsChangeEvent_update_registered_active E s d old hreg hact]
      simp only [Subscriber.dispatcherAt]
      rw [List.getElem?_append_left (by simpa using hlt)]
      simp [List.getElem?_modify, hget]
    · rw [jobsChangeEvent_update_registered_inactive E s d old hreg hact]
      simp [Subscriber.dispatcherAt, List.getElem?_modify, hget]
  · intro hact N hN hpos
    rw [jobsChangeEvent_update_registered_active E s d old hreg hact]
    refine ⟨s.heap.length,
      (NewDispatcher
        (if d.MaxConcurrency > 0 then d.MaxConcurrency else E.DefaultMaximumWorkers)
        (((∅ : StrMap String).insert "service"
          (E.ServiceGrpcNamespace_ ++ E.ServiceTasks)).insert "jobID" d.ID)).Run,
      AList.lookup_insert _, Nat.ne_of_gt hlt, ?_, ?_, ?_, rfl, rfl⟩
    · simp [Subscriber.dispatcherAt]
    · simp [Subscriber.dispatcherAt, List.getElem?_append_right]
    · have hp : d.MaxConcurrency > 0 := by rw [hN]; exact hpos
      show (if d.MaxConcurrency > 0 then d.MaxConcurrency else E.DefaultMaximumWorkers) = N
      rw [if_pos hp]
      exact hN
  · intro hin
    rw [jobsChangeEvent_update_registered_inactive E s d old hreg hin]
    exact AList.lookup_erase _ _

/-- C10, at a concrete input: a job running with the default worker count is updated to
`MaxConcurrency` 1; the Dispatcher at address 0 is stopped and the job is served by a new
Dispatcher with one worker. -/
theorem jobsChangeEvent_hot_reconfiguration_witness :
    (exampleSubscriberWithDispatchers [exampleJob "job1" []]).Dispatchers.lookup "job1" =
      some 0 ∧
    ((exampleSubscriberWithDispatchers [exampleJob "job1" []]).dispatcherAt 0).map
      (fun disp => (disp.maxWorkers, disp.stopped)) = some (20, false) ∧
    (((exampleSubscriberWithDispatchers [exampleJob "job1" []]).jobsChangeEvent exampleEnv
      { JobRemoved := "",
        JobUpdated := some { exampleJob "job1" [] with MaxConcurrency := 1 } }).1.dispatcherAt
      0).map (fun disp => (disp.maxWorkers, disp.stopped)) = some (20, true) ∧
    ∃ new nd,
      ((exampleSubscriberWithDispatchers [exampleJob "job1" []]).jobsChangeEvent exampleEnv
        { JobRemoved := "",
          JobUpdated :=
            some { exampleJob "job1" [] with MaxConcurrency := 1 } }).1.Dispatchers.lookup
        "job1" = some new ∧
      new ≠ 0 ∧
      ((exampleSubscriberWithDispatchers [exampleJob "job1" []]).jobsChangeEvent exampleEnv
        { JobRemoved := "",
          JobUpdated := some { exampleJob "job1" [] with MaxConcurrency := 1 } }).1.dispatcherAt
        new = some nd ∧
      nd.maxWorkers = 1 :=
  ⟨by decide, by decide, by decide,
   by
    obtain ⟨new, nd, h1, h2, _, h4, h5, _⟩ :=
      (jobsChangeEvent_hot_reconfiguration exampleEnv
        (exampleSubscriberWithDispatchers [exampleJob "job1" []])
        { exampleJob "job1" [] with MaxConcurrency := 1 } 0 (exampleDispatcher "job1")
        (by decide) (by rfl)).2.1 rfl 1 rfl (by decide)
    exact ⟨new, nd, h1, h2, h4, h5⟩⟩

/-! ### `GetDispatcherForJob` -/

/-- C11. `GetDispatcherForJob` returns the Dispatcher already registered under job.ID
when there is one and leaves the subscriber, hence the `Dispatchers` map, unchanged;
otherwise it returns a newly allocated Dispatcher, registered under job.ID and started,
whose worker count is job.MaxConcurrency when that is greater than 0 and
`DefaultMaximumWorkers` otherwise (zero and negative values included), and it changes no
other entry of the map, no Dispatcher allocated before and no job definition. -/
theorem GetDispatcherForJob_registered_or_new (E : Env) (s : Subscriber) (job : Job) :
    (∀ d, s.Dispatchers.lookup job.ID = some d → s.GetDispatcherForJob E job = (s, d)) ∧
    (s.Dispatchers.lookup job.ID = none →
      (s.GetDispatcherForJob E job).2 = s.heap.length ∧
      s.dispatcherAt s.heap.length = none ∧
      (s.GetDispatcherForJob E job).1.Dispatchers.lookup job.ID = some s.heap.length ∧
      (∃ nd, (s.GetDispatcherForJob E job).1.dispatcherAt s.heap.length = some nd ∧
        nd.running = true ∧ nd.stopped = false ∧
        (0 < job.MaxConcurrency → nd.maxWorkers = job.MaxConcurrency) ∧
        (job.MaxConcurrency ≤ 0 → nd.maxWorkers = E.DefaultMaximumWorkers)) ∧
      (∀ k, k ≠ job.ID →
        (s.GetDispatcherForJob E job).1.Dispatchers.lookup k = s.Dispatchers.lookup k) ∧
      (∀ a, a < s.heap.length →
        (s.GetDispatcherForJob E job).1.dispatcherAt a = s.dispatcherAt a) ∧
      (s.GetDispatcherForJob E job).1.JobsDefinitions = s.JobsDefinitions) := by
  constructor
  · intro d hd
    simp [Subscriber.GetDispatcherForJob, hd]
  · intro hnone
    simp only [Subscriber.GetDispatcherForJob, hnone]
    refine ⟨trivial, ?_, AList.lookup_insert _, ?_, ?_, ?_, trivial⟩
    · simp [Subscriber.dispatcherAt]
    · refine ⟨(NewDispatcher
          (if job.MaxConcurrency > 0 then job.MaxConcurrency else E.DefaultMaximumWorkers)
          (((∅ : StrMap String).insert "service"
            (E.ServiceGrpcNamespace_ ++ E.ServiceTasks)).insert "jobID" job.ID)).Run,
        ?_, rfl, rfl, ?_, ?_⟩
      · simp [Subscriber.dispatcherAt, List.getElem?_append_right]
      · intro h
        show (if job.MaxConcurrency > 0 then job.MaxConcurrency
          else E.DefaultMaximumWorkers) = _
        rw [if_pos h]
      · intro h
        show (if job.MaxConcurrency > 0 then job.MaxConcurrency
          else E.DefaultMaximumWorkers) = _
        rw [if_neg (not_lt.mpr h)]
    · intro k hk
      exact AList.lookup_insert_ne hk
    · intro a ha
      simp [Subscriber.dispatcherAt, List.getElem?_append_left ha]

/-- C11, at concrete inputs: a job without Dispatcher and with `MaxConcurrency` -3 gets a
new Dispatcher with the default worker count, and a second call returns that
Dispatcher. -/
theorem GetDispatcherForJob_registered_or_new_witness :
    (exampleSubscriber []).Dispatchers.lookup "job1" = none ∧
    (((exampleSubscriber []).GetDispatcherForJob exampleEnv
        { exampleJob "job1" [] with MaxConcurrency := -3 }).1.dispatcherAt 0).map
      (fun disp => (disp.maxWorkers, disp.running)) = some (20, true) ∧
    (((exampleSubscriber []).GetDispatcherForJob exampleEnv
        { exampleJob "job1" [] with MaxConcurrency := -3 }).1.GetDispatcherForJob exampleEnv
        { exampleJob "job1" [] with MaxConcurrency := -3 }).2 = 0 ∧
    (exampleSubscriber []).dispatcherAt 0 = none :=
  ⟨rfl, by decide, by decide,
   ((GetDispatcherForJob_registered_or_new exampleEnv (exampleSubscriber [])
      { exampleJob "job1" [] with MaxConcurrency := -3 }).2 rfl).2.1⟩

/-! ### Faults of `nodeEvent` -/

/-- C18. `nodeEvent` faults exactly on the events that are not optimistic, whose Target is
absent or not filtered, and that are a DELETE without Source: there
`event.Source.HasMetaKey` dereferences the nil receiver instead of returning nil. -/
theorem nodeEvent_faults_iff (E : Env) (ctx : Context) (event : NodeChangeEvent) :
    Subscriber.nodeEvent E ctx event = .error .nilPointerDereference ↔
      (event.Optimistic = false ∧ nodeEventDropped E event = false ∧
        event.Type_ = .DELETE ∧ event.Source = none) := by
  by_cases hsrc : event.Type_ = .DELETE ∧ event.Source = none
  · obtain ⟨hty, hs⟩ := hsrc
    obtain ⟨ty, src, tgt, sil, opt⟩ := event
    simp only at hty hs
    subst hty
    subst hs
    cases opt
    · cases tgt with
      | none => simp [Subscriber.nodeEvent, nodeEventDropped, Node.HasMetaKey]
      | some t =>
        by_cases he : t.Etag = E.NodeFlagEtagTemporary
        · simp [Subscriber.nodeEvent, nodeEventDropped, he]
        · cases hm : t.MetaStore with
          | none => simp [Subscriber.nodeEvent, nodeEventDropped, Node.HasMetaKey, he, hm]
          | some m =>
            cases hl : (m.lookup E.MetaNamespaceDatasourceInternal).isSome <;>
              simp [Subscriber.nodeEvent, nodeEventDropped, Node.HasMetaKey, he, hm, hl]
    · simp [Subscriber.nodeEvent]
  · rw [nodeEvent_of_source_present E ctx event hsrc]
    constructor
    · intro h
      cases h
    · rintro ⟨_, _, h3, h4⟩
      exact absurd ⟨h3, h4⟩ hsrc

/-- A DELETE event without Source whose Target is an ordinary node makes `nodeEvent`
panic. -/
theorem nodeEvent_faults_with_target :
    Subscriber.nodeEvent exampleEnv exampleCtx
        (exampleNodeEvent .DELETE none (some exampleNode)) =
      .error .nilPointerDereference := by
  rfl

/-! ### `Node.GetModTime` -/

/-- An `int64` computation whose mathematical result is in range does not wrap. -/
theorem wrapInt64_of_inRange (x : Int) (hlo : -9223372036854775808 ≤ x)
    (hhi : x ≤ 9223372036854775807) : wrapInt64 x = x := by
  unfold wrapInt64
  omega

/-- Whenever `MTime` seconds fit in an `int64` number of nanoseconds, `GetModTime` is the
instant `MTime` seconds after the Unix epoch. -/
theorem GetModTime_of_small (node : Node) (hlo : -9223372036 ≤ node.MTime)
    (hhi : node.MTime ≤ 9223372036) :
    node.GetModTime = time_Unix node.MTime 0 := by
  unfold Node.GetModTime time_Unix
  rw [wrapInt64_of_inRange _ (by omega) (by omega)]
  omega

/-- C19. For the `int64` value 9223372037 of `MTime` (April 11, 2262) the product
`node.MTime*int64(time.Second)` wraps: `GetModTime` returns an instant before the Unix
epoch (in 1677) and not the instant 9223372037 seconds after it. -/
theorem GetModTime_wraps :
    ({ exampleNode with MTime := 9223372037 } : Node).GetModTime = -9223372036709551616 ∧
    ({ exampleNode with MTime := 9223372037 } : Node).GetModTime ≠
      time_Unix 9223372037 0 := by
  constructor <;> decide

/-! ### The data-source filter -/

/-- The body of the loop of `processNodeEvent` creates no task for a job whose data-source
filter does not pass. -/
theorem processNodeEvent_body_of_dataSourceFilter_false (E : Env) (s : Subscriber)
    (ctx : Context) (event : NodeChangeEvent) (jobId : String) (jobData : Job)
    (filter : DataSourceSelector) (hf : jobData.DataSourceFilter = some filter)
    (hpass : Subscriber.jobLevelDataSourceFilterPass E ctx event filter = .ok false) :
    Subscriber.processNodeEvent.body E s ctx event jobId jobData = .ok none := by
  unfold Subscriber.processNodeEvent.body
  simp only [hf, hpass]
  repeat' split
  all_goals rfl

/-- C14. For every node-change event whose reference node (Target, else Source) carries a
non-empty data-source name, if looking that data source up by name fails, then
`jobLevelDataSourceFilterPass` returns false whatever the selector is, and
`processNodeEvent` creates no Task at the registry entry of a job having that
data-source filter. -/
theorem jobLevelDataSourceFilterPass_lookup_fails (E : Env) (ctx : Context)
    (event : NodeChangeEvent) (n : Node) (hn : refNode event = some n)
    (hname : Node.GetStringMeta E n E.MetaNamespaceDatasourceName ≠ "")
    (hfail : E.GetSourceInfoByName (Node.GetStringMeta E n E.MetaNamespaceDatasourceName) =
      none) :
    (∀ filter : DataSourceSelector,
      Subscriber.jobLevelDataSourceFilterPass E ctx event filter = .ok false) ∧
    (∀ (s : Subscriber) (jobId : String) (jobData : Job),
      s.JobsDefinitions.lookup jobId = some jobData → jobData.DataSourceFilter.isSome = true →
      ∀ t, (jobId, t) ∉ (s.processNodeEvent E ctx event).created) := by
  have hpass : ∀ filter : DataSourceSelector,
      Subscriber.jobLevelDataSourceFilterPass E ctx event filter = .ok false := by
    intro filter
    unfold Subscriber.jobLevelDataSourceFilterPass
    simp [hn, hname, hfail]
  refine ⟨hpass, ?_⟩
  intro s jobId jobData hreg hsome t hmem
  obtain ⟨jd, hjd, hbody⟩ := processNodeEvent_loop_created E s ctx event _ jobId t hmem
  have hl := AList.mem_lookup_iff.mpr hjd
  rw [hreg] at hl
  cases hl
  obtain ⟨filter, hfilter⟩ := Option.isSome_iff_exists.mp hsome
  rw [processNodeEvent_body_of_dataSourceFilter_false E s ctx event jobId jobData filter
    hfilter (hpass filter)] at hbody
  cases hbody

/-- C14, at a concrete input: a CREATE event on a node of an unknown data source creates
no Task for a job whose data-source filter has no query, and one for a job without
filter. -/
theorem jobLevelDataSourceFilterPass_lookup_fails_witness :
    refNode (exampleNodeEvent .CREATE none (some exampleNodeOfUnknownDataSource)) =
      some exampleNodeOfUnknownDataSource ∧
    Node.GetStringMeta exampleEnv exampleNodeOfUnknownDataSource
      exampleEnv.MetaNamespaceDatasourceName = "unknownds" ∧
    Subscriber.jobLevelDataSourceFilterPass exampleEnv exampleCtx
      (exampleNodeEvent .CREATE none (some exampleNodeOfUnknownDataSource))
      exampleSelectorWithoutQuery = .ok false ∧
    ((exampleSubscriber [exampleJobWithEmptyDataSourceFilter "jobA",
        exampleJob "jobB" ["NODE_CHANGE:0"]]).processNodeEvent exampleEnv exampleCtx
      (exampleNodeEvent .CREATE none (some exampleNodeOfUnknownDataSource))).created.map
      Prod.fst = ["jobB"] :=
  ⟨rfl, by decide,
   (jobLevelDataSourceFilterPass_lookup_fails exampleEnv exampleCtx
      (exampleNodeEvent .CREATE none (some exampleNodeOfUnknownDataSource))
      exampleNodeOfUnknownDataSource rfl (by decide) (by decide)).1 exampleSelectorWithoutQuery,
   by decide⟩

/-- C15, as stated, fails: on a CREATE event whose Target has no metadata, hence no
readable data-source name, `jobLevelDataSourceFilterPass` returns true. -/
theorem jobLevelDataSourceFilterPass_fails_open :
    ¬ ∀ (event : NodeChangeEvent) (n : Node) (filter : DataSourceSelector),
      refNode event = some n →
      Node.GetStringMeta exampleEnv n exampleEnv.MetaNamespaceDatasourceName = "" →
      Subscriber.jobLevelDataSourceFilterPass exampleEnv exampleCtx event filter =
        .ok false := by
  intro h
  have h1 := h (exampleNodeEvent .CREATE none (some exampleNode)) exampleNode
    (exampleSelectorByName "pydiods1") rfl (by decide)
  have h2 : Subscriber.jobLevelDataSourceFilterPass exampleEnv exampleCtx
      (exampleNodeEvent .CREATE none (some exampleNode)) (exampleSelectorByName "pydiods1") =
      .ok true := rfl
  rw [h2] at h1
  cases h1

/-- C15, amended. For every node-change event whose reference node (Target, else Source)
carries no readable data-source name in its metadata, `jobLevelDataSourceFilterPass`
returns true whatever the selector is, so the body of the loop of `processNodeEvent`
creates a Task for a job with a data-source filter exactly when it creates one for the
same job without that filter. -/
theorem jobLevelDataSourceFilterPass_without_name (E : Env) (ctx : Context)
    (event : NodeChangeEvent) (n : Node) (hn : refNode event = some n)
    (hname : Node.GetStringMeta E n E.MetaNamespaceDatasourceName = "") :
    (∀ filter : DataSourceSelector,
      Subscriber.jobLevelDataSourceFilterPass E ctx event filter = .ok true) ∧
    (∀ (s : Subscriber) (jobId : String) (jobData : Job),
      (∃ t, Subscriber.processNodeEvent.body E s ctx event jobId jobData = .ok (some t)) ↔
      (∃ t, Subscriber.processNodeEvent.body E s ctx event jobId
        { jobData with DataSourceFilter := none } = .ok (some t))) := by
  have hpass : ∀ filter : DataSourceSelector,
      Subscriber.jobLevelDataSourceFilterPass E ctx event filter = .ok true := by
    intro filter
    unfold Subscriber.jobLevelDataSourceFilterPass
    simp [hn, hname]
  refine ⟨hpass, ?_⟩
  intro s jobId jobData
  have hctx : s.prepareTaskContext E ctx { jobData with DataSourceFilter := none } false [] =
      s.prepareTaskContext E ctx jobData false [] := rfl
  unfold Subscriber.processNodeEvent.body
  simp only [hctx]
  cases hd : jobData.DataSourceFilter with
  | none =>
    repeat' split
    all_goals simp_all
  | some filter =>
    simp only [hpass filter]
    repeat' split
    all_goals simp_all

/-- C15 amended, at a concrete input: a CREATE event on a node without metadata passes
the data-source filter of a job, which gets its Task. -/
theorem jobLevelDataSourceFilterPass_without_name_witness :
    refNode (exampleNodeEvent .CREATE none (some exampleNode)) = some exampleNode ∧
    Node.GetStringMeta exampleEnv exampleNode exampleEnv.MetaNamespaceDatasourceName = "" ∧
    Subscriber.jobLevelDataSourceFilterPass exampleEnv exampleCtx
      (exampleNodeEvent .CREATE none (some exampleNode)) (exampleSelectorByName "other") =
      .ok true ∧
    ((exampleSubscriber [{ exampleJob "job1" ["NODE_CHANGE:0"] with
        DataSourceFilter := some (exampleSelectorByName "other") }]).processNodeEvent
      exampleEnv exampleCtx
      (exampleNodeEvent .CREATE none (some exampleNode))).created.map Prod.fst = ["job1"] :=
  ⟨rfl, by decide,
   (jobLevelDataSourceFilterPass_without_name exampleEnv exampleCtx
      (exampleNodeEvent .CREATE none (some exampleNode)) exampleNode rfl
      (by decide)).1 (exampleSelectorByName "other"),
   by decide⟩

/-! ### `DataSourceSelector.Filter` -/

/-- What the test `m.All || m.evaluate(...)` of `DataSourceSelector.Filter` gives when it
does not panic: whether the data source is selected. -/
theorem DataSourceSelector.evaluate_of_query (E : Env) (m : DataSourceSelector)
    (ctx : Context) (input : ActionMessage) (ds : DataSource) (q : ServiceQuery)
    (hq : m.Query = some q) :
    DataSourceSelector.evaluate E ctx m.Query input ds =
      .ok (ReduceQueryBooleans
        (DataSourceSelector.evaluateSubQueries E ctx input ds q.SubQueries) q.Operation) := by
  rw [hq]
  rfl

/-- The loop of `DataSourceSelector.Filter` of a selector that has the `All` flag or a
query ends without panic; it appends to `passed` the selected data sources of the list,
in order, and `excluded` is empty at the end exactly when it was empty before and every
data source of the list is selected. -/
theorem DataSourceSelector.filterLoop_of_query (E : Env) (m : DataSourceSelector)
    (ctx : Context) (input : ActionMessage) (hq : m.All = true ∨ m.Query.isSome = true)
    (l : List DataSource) (st : FilterSlices)
    (hinv : st.excludedShared = true → st.excluded ≠ []) :
    ∃ st1, DataSourceSelector.filterLoop E m ctx input l st = .ok st1 ∧
      st1.passed = st.passed ++ l.filter (DataSourceSelector.selected E m ctx input) ∧
      (st1.excluded = [] ↔
        st.excluded = [] ∧ ∀ ds ∈ l, DataSourceSelector.selected E m ctx input ds = true) := by
  induction l generalizing st with
  | nil => exact ⟨st, rfl, by simp, by simp⟩
  | cons ds rest ih =>
    have hpassedNil : (st.appendPassed E ds).excluded = [] ↔ st.excluded = [] := by
      unfold FilterSlices.appendPassed
      split_ifs with h1 h2
      · simpa using hinv h2
      · rfl
      · rfl
    have hinvPassed : (st.appendPassed E ds).excludedShared = true →
        (st.appendPassed E ds).excluded ≠ [] := by
      unfold FilterSlices.appendPassed
      split_ifs <;> simp
    have hinvExcluded : (st.appendExcluded ds).excludedShared = true →
        (st.appendExcluded ds).excluded ≠ [] := by
      intro _
      simp [FilterSlices.appendExcluded]
    have hpassed : ∀ st0 : FilterSlices, (st0.appendPassed E ds).passed = st0.passed ++ [ds] := by
      intro st0
      unfold FilterSlices.appendPassed
      split_ifs <;> rfl
    unfold DataSourceSelector.filterLoop
    by_cases hall : m.All = true
    · have hsel : DataSourceSelector.selected E m ctx input ds = true := by
        simp [DataSourceSelector.selected, hall]
      obtain ⟨st1, h1, h2, h3⟩ := ih (st.appendPassed E ds) hinvPassed
      refine ⟨st1, by simpa [hall] using h1, ?_, ?_⟩
      · rw [h2, hpassed]
        simp [List.filter, hsel]
      · rw [h3, hpassedNil]
        simp [hsel]
    · have hq1 : m.Query.isSome = true := by
        rcases hq with h | h
        · exact absurd h hall
        · exact h
      obtain ⟨q, hq2⟩ := Option.isSome_iff_exists.mp hq1
      have hall2 : m.All = false := by simpa using hall
      have hsel : DataSourceSelector.selected E m ctx input ds =
          ReduceQueryBooleans
            (DataSourceSelector.evaluateSubQueries E ctx input ds q.SubQueries) q.Operation := by
        simp [DataSourceSelector.selected, hall2, hq2]
      simp only [hall2, Bool.false_eq_true, if_false,
        DataSourceSelector.evaluate_of_query E m ctx input ds q hq2]
      cases hr : ReduceQueryBooleans
          (DataSourceSelector.evaluateSubQueries E ctx input ds q.SubQueries) q.Operation
      · obtain ⟨st1, h1, h2, h3⟩ := ih (st.appendExcluded ds) hinvExcluded
        refine ⟨st1, h1, ?_, ?_⟩
        · rw [h2]
          simp [FilterSlices.appendExcluded, List.filter, hsel, hr]
        · rw [h3]
          simp [FilterSlices.appendExcluded, hsel, hr]
      · obtain ⟨st1, h1, h2, h3⟩ := ih (st.appendPassed E ds) hinvPassed
        refine ⟨st1, h1, ?_, ?_⟩
        · rw [h2, hpassed]
          simp [List.filter, hsel, hr]
        · rw [h3, hpassedNil]
          simp [hsel, hr]

/-- For every selector that has the `All` flag or a query, and every input message,
`DataSourceSelector.Filter` returns as primary message the input with its `DataSources`
replaced by the selected ones, in input order and with every other field unchanged;
the pass flag is true if and only if at least one data source is selected; and the
excluded message is absent exactly when every input data source is selected. -/
theorem DataSourceSelector.Filter_of_query (E : Env) (m : DataSourceSelector) (ctx : Context)
    (input : ActionMessage) (hq : m.All = true ∨ m.Query.isSome = true) :
    ∃ x, DataSourceSelector.Filter E m ctx input =
        .ok ({ input with
                DataSources :=
                  input.DataSources.filter (DataSourceSelector.selected E m ctx input) },
             x,
             decide (∃ ds ∈ input.DataSources,
               DataSourceSelector.selected E m ctx input ds = true)) ∧
      (x = none ↔
        ∀ ds ∈ input.DataSources, DataSourceSelector.selected E m ctx input ds = true) := by
  obtain ⟨st1, h1, h2, h3⟩ := DataSourceSelector.filterLoop_of_query E m ctx input hq
    input.DataSources
    { passed := [], capPassed := 0, excluded := [], excludedShared := false } (by simp)
  simp only [List.nil_append, true_and] at h2 h3
  have hdec : decide ((input.DataSources.filter
        (DataSourceSelector.selected E m ctx input)).length > 0) =
      decide (∃ ds ∈ input.DataSources,
        DataSourceSelector.selected E m ctx input ds = true) := by
    rw [decide_eq_decide]
    simp [List.length_pos, List.filter_eq_nil_iff]
  refine ⟨if st1.excluded.length > 0 then
      some { input with DataSources := st1.excluded } else none, ?_, ?_⟩
  · unfold DataSourceSelector.Filter
    simp only [h1, h2, hdec]
  · rw [← h3]
    cases hx : st1.excluded with
    | nil => simp
    | cons a l => simp

/-- C16. `DataSourceSelector.Filter` applied to a selector that has neither the `All` flag
nor a query, and to an input that holds one data source, does not return: `evaluate`
reads `query.SubQueries` of the nil `m.Query`. -/
theorem DataSourceSelector.Filter_without_query_faults (E : Env) (ctx : Context) :
    DataSourceSelector.Filter E exampleSelectorWithoutQuery ctx
        (exampleInputOfDataSources ["pydiods1"]) = .error .nilPointerDereference := by
  rfl

/-- C17. With a selector that selects the data source `a` only, the excluded message that
`DataSourceSelector.Filter` returns for the input `a`, `b` holds `a` and `b`, not `b`
alone, and for the input `b`, `c` it holds `c` alone, not `b` and `c`: the loop assigns
`append(passed, ds)` to `excluded`. -/
theorem DataSourceSelector.Filter_excluded_wrong :
    (match DataSourceSelector.Filter exampleEnv (exampleSelectorByName "a") exampleCtx
        (exampleInputOfDataSources ["a", "b"]) with
      | .ok (primary, some x, _) =>
        (primary.DataSources.map (·.Name), x.DataSources.map (·.Name))
      | _ => ([], [])) = (["a"], ["a", "b"]) ∧
    (match DataSourceSelector.Filter exampleEnv (exampleSelectorByName "a") exampleCtx
        (exampleInputOfDataSources ["b", "c"]) with
      | .ok (primary, some x, _) =>
        (primary.DataSources.map (·.Name), x.DataSources.map (·.Name))
      | _ => (["?"], [])) = ([], ["c"]) := by
  constructor <;> decide

/-- `DataSourceSelector.Filter` panics exactly when the selector has neither the `All`
flag nor a query and the input holds a data source. -/
theorem DataSourceSelector.Filter_faults_iff (E : Env) (m : DataSourceSelector)
    (ctx : Context) (input : ActionMessage) :
    DataSourceSelector.Filter E m ctx input = .error .nilPointerDereference ↔
      (m.All = false ∧ m.Query = none ∧ input.DataSources ≠ []) := by
  by_cases hq : m.All = true ∨ m.Query.isSome = true
  · obtain ⟨x, hx, _⟩ := DataSourceSelector.Filter_of_query E m ctx input hq
    rw [hx]
    constructor
    · intro h
      cases h
    · rintro ⟨h1, h2, _⟩
      rcases hq with h | h
      · rw [h1] at h
        cases h
      · rw [h2] at h
        cases h
  · have hall : m.All = false := by
      cases h : m.All
      · rfl
      · exact absurd (Or.inl h) hq
    have hnone : m.Query = none := by
      cases h : m.Query with
      | none => rfl
      | some q => exact absurd (Or.inr (by simp [h])) hq
    cases hds : input.DataSources with
    | nil =>
      simp [DataSourceSelector.Filter, DataSourceSelector.filterLoop, hds, hall, hnone]
    | cons ds rest =>
      simp [DataSourceSelector.Filter, DataSourceSelector.filterLoop,
        DataSourceSelector.evaluate, hds, hall, hnone]

/-! ### Initial load -/

/-- `GetDispatcherForJob` does not touch the job definitions. -/
theorem GetDispatcherForJob_jobsDefinitions (E : Env) (s : Subscriber) (job : Job) :
    (s.GetDispatcherForJob E job).1.JobsDefinitions = s.JobsDefinitions := by
  unfold Subscriber.GetDispatcherForJob
  cases s.Dispatchers.lookup job.ID <;> rfl

/-- After `GetDispatcherForJob` a Dispatcher is registered for the job. -/
theorem GetDispatcherForJob_registered (E : Env) (s : Subscriber) (job : Job) :
    ((s.GetDispatcherForJob E job).1.Dispatchers.lookup job.ID).isSome = true := by
  unfold Subscriber.GetDispatcherForJob
  cases h : s.Dispatchers.lookup job.ID with
  | none => simp [AList.lookup_insert]
  | some d => simp [h]

/-- `GetDispatcherForJob` unregisters no Dispatcher. -/
theorem GetDispatcherForJob_keeps_registered (E : Env) (s : Subscriber) (job : Job)
    (k : String) (h : (s.Dispatchers.lookup k).isSome = true) :
    ((s.GetDispatcherForJob E job).1.Dispatchers.lookup k).isSome = true := by
  by_cases hk : k = job.ID
  · rw [hk]
    exact GetDispatcherForJob_registered E s job
  · unfold Subscriber.GetDispatcherForJob
    cases hl : s.Dispatchers.lookup job.ID with
    | none => simpa [AList.lookup_insert_ne hk] using h
    | some d => simpa using h

/-- The load loop of `Init` unregisters no Dispatcher. -/
theorem Init_loop_keeps_registered (E : Env) (responses : List (Option ListJobsResponse))
    (s : Subscriber) (k : String) (h : (s.Dispatchers.lookup k).isSome = true) :
    (((Subscriber.Init.loop E s responses).subscriber).Dispatchers.lookup k).isSome = true := by
  induction responses generalizing s with
  | nil => exact h
  | cons resp rest ih =>
    cases resp with
    | none => exact ih s h
    | some r =>
      unfold Subscriber.Init.loop
      cases hj : r.Job with
      | none => exact h
      | some job =>
        by_cases hin : job.Inactive = true
        · simpa [hin] using ih s h
        · simp only [hin, Bool.false_eq_true, if_false]
          exact ih _ (GetDispatcherForJob_keeps_registered E _ job k h)

/-- On every sequence of responses that all carry a job, the load loop of `Init` ends
without panic; afterwards `JobsDefinitions` maps an identifier to the last received job
that has this identifier and is not inactive, or to what it mapped it to before when no
such job was received; and a Dispatcher is registered for every received job that is not
inactive. -/
theorem Init_loop_of_jobs_present (E : Env) (responses : List (Option ListJobsResponse))
    (s : Subscriber)
    (hjobs : ∀ r, some r ∈ responses → r.Job.isSome = true) :
    (Subscriber.Init.loop E s responses).fault = none ∧
    (∀ k, (Subscriber.Init.loop E s responses).subscriber.JobsDefinitions.lookup k =
      (receivedActiveJobs responses).foldl (fun acc j => if j.ID = k then some j else acc)
        (s.JobsDefinitions.lookup k)) ∧
    (∀ j ∈ receivedActiveJobs responses,
      ((Subscriber.Init.loop E s responses).subscriber.Dispatchers.lookup j.ID).isSome =
        true) := by
  induction responses generalizing s with
  | nil => exact ⟨rfl, fun k => rfl, fun j hj => by simp [receivedActiveJobs] at hj⟩
  | cons resp rest ih =>
    have hrest : ∀ r, some r ∈ rest → r.Job.isSome = true :=
      fun r hr => hjobs r (List.mem_cons_of_mem _ hr)
    cases resp with
    | none =>
      have hact : receivedActiveJobs (none :: rest) = receivedActiveJobs rest := by
        simp [receivedActiveJobs]
      rw [hact]
      exact ih s hrest
    | some r =>
      obtain ⟨job, hjob⟩ := Option.isSome_iff_exists.mp (hjobs r (List.mem_cons_self _ _))
      by_cases hin : job.Inactive = true
      · have hact : receivedActiveJobs (some r :: rest) = receivedActiveJobs rest := by
          simp [receivedActiveJobs, hjob, hin]
        have hloop : Subscriber.Init.loop E s (some r :: rest) =
            Subscriber.Init.loop E s rest := by
          rw [Subscriber.Init.loop]
          simp [hjob, hin]
        rw [hact, hloop]
        exact ih s hrest
      · have hact : receivedActiveJobs (some r :: rest) = job :: receivedActiveJobs rest := by
          simp [receivedActiveJobs, hjob, hin]
        have hloop : Subscriber.Init.loop E s (some r :: rest) =
            Subscriber.Init.loop E
              (({ s with JobsDefinitions := s.JobsDefinitions.insert job.ID job } :
                Subscriber).GetDispatcherForJob E job).1 rest := by
          rw [Subscriber.Init.loop]
          simp [hjob, hin]
        rw [hact, hloop]
        obtain ⟨h1, h2, h3⟩ := ih
          (({ s with JobsDefinitions := s.JobsDefinitions.insert job.ID job } :
            Subscriber).GetDispatcherForJob E job).1 hrest
        refine ⟨h1, ?_, ?_⟩
        · intro k
          rw [h2 k, GetDispatcherForJob_jobsDefinitions, List.foldl_cons]
          by_cases hk : job.ID = k
          · subst hk
            simp [AList.lookup_insert]
          · have hk2 : k ≠ job.ID := fun h => hk h.symm
            simp [hk, AList.lookup_insert_ne hk2]
        · intro j hj
          rcases List.mem_cons.mp hj with heq | hmem
          · subst heq
            exact Init_loop_keeps_registered E rest _ _
              (GetDispatcherForJob_registered E _ j)
          · exact h3 j hmem

/-- C13. The load loop of `Init` receives a response without job, then a response with
the active job `job1`: reading `resp.Job.Inactive` of the first response panics, the loop
ends there, and `job1` is added neither to `JobsDefinitions` nor to `Dispatchers`. -/
theorem Init_loop_faults_on_response_without_job :
    (Subscriber.Init.loop exampleEnv (exampleSubscriber [])
      [some { Job := none }, some { Job := some (exampleJob "job1" []) }]).fault =
      some .nilPointerDereference ∧
    ((Subscriber.Init.loop exampleEnv (exampleSubscriber [])
      [some { Job := none },
       some { Job := some (exampleJob "job1" []) }]).subscriber.JobsDefinitions.lookup
      "job1").isSome = false ∧
    (receivedActiveJobs
      [some { Job := none }, some { Job := some (exampleJob "job1" []) }]).map (·.ID) =
      ["job1"] := by
  refine ⟨by decide, by decide, by decide⟩

/-! ### Idempotence of registry changes -/

/-- `jobsChangeEvent` runs its two blocks one after the other. -/
theorem jobsChangeEvent_eq_blocks (E : Env) (s : Subscriber) (msg : JobChangeEvent) :
    (s.jobsChangeEvent E msg).1 =
      Subscriber.jobsChangeEvent.update E (Subscriber.jobsChangeEvent.remove s msg.JobRemoved)
        msg.JobUpdated := rfl

/-- Stopping a Dispatcher changes the worker count of no Dispatcher. -/
theorem workers_stopDispatcher (s : Subscriber) (addr a : Nat) :
    ((s.stopDispatcher addr).dispatcherAt a).map (·.maxWorkers) =
      (s.dispatcherAt a).map (·.maxWorkers) := by
  unfold Subscriber.stopDispatcher Subscriber.dispatcherAt
  simp only [List.getElem?_modify]
  cases s.heap[a]? with
  | none => rfl
  | some d =>
    by_cases h : addr = a
    · simp [h, Dispatcher.Stop]
    · simp [h]

/-- In a well-formed subscriber the identifiers that have a worker count are those that
have a Dispatcher. -/
theorem workersOf_isSome (s : Subscriber) (hwf : s.WellFormed) (k : String) :
    (s.workersOf k).isSome = (s.Dispatchers.lookup k).isSome := by
  unfold Subscriber.workersOf
  cases h : s.Dispatchers.lookup k with
  | none => rfl
  | some a =>
    have hlt := hwf k a h
    simp [Subscriber.dispatcherAt, List.getElem?_eq_getElem hlt]

/-- The job definitions after the first block of `jobsChangeEvent`. -/
theorem remove_jobsDefinitions (s : Subscriber) (r k : String) :
    (Subscriber.jobsChangeEvent.remove s r).JobsDefinitions.lookup k =
      if r ≠ "" ∧ k = r then none else s.JobsDefinitions.lookup k := by
  unfold Subscriber.jobsChangeEvent.remove
  by_cases hr : r = ""
  · simp [hr]
  · simp only [ne_eq, hr, not_false_eq_true, if_true, true_and]
    have hjobs : (if (s.JobsDefinitions.lookup r).isSome then
          { s with JobsDefinitions := s.JobsDefinitions.erase r }
        else s).JobsDefinitions.lookup k =
        if k = r then none else s.JobsDefinitions.lookup k := by
      by_cases hk : k = r
      · subst hk
        cases hl : s.JobsDefinitions.lookup k with
        | none => simp [hl]
        | some j => simp [hl, AList.lookup_erase]
      · cases hl : s.JobsDefinitions.lookup r with
        | none => simp [hl, hk]
        | some j => simp [hl, hk, AList.lookup_erase_ne hk]
    split
    · simpa [Subscriber.stopDispatcher] using hjobs
    · exact hjobs

/-- The first block of `jobsChangeEvent` keeps the subscriber well-formed and unregisters
the removed identifier only. -/
theorem remove_dispatchers (s : Subscriber) (hwf : s.WellFormed) (r k : String) :
    (Subscriber.jobsChangeEvent.remove s r).WellFormed ∧
    (Subscriber.jobsChangeEvent.remove s r).workersOf k =
      if r ≠ "" ∧ k = r then none else s.workersOf k := by
  unfold Subscriber.jobsChangeEvent.remove
  by_cases hr : r = ""
  · simp [hr, hwf]
  · simp only [ne_eq, hr, not_false_eq_true, if_true, true_and]
    have hsa : (if (s.JobsDefinitions.lookup r).isSome then
          { s with JobsDefinitions := s.JobsDefinitions.erase r }
        else s) = { s with JobsDefinitions :=
          (if (s.JobsDefinitions.lookup r).isSome then s.JobsDefinitions.erase r
            else s.JobsDefinitions) } := by
      split_ifs <;> rfl
    rw [hsa]
    cases hd : s.Dispatchers.lookup r with
    | none =>
      simp only [hd]
      refine ⟨hwf, ?_⟩
      by_cases hk : k = r
      · subst hk
        simp [Subscriber.workersOf, hd]
      · simp [Subscriber.workersOf, Subscriber.dispatcherAt, hk]
    | some a =>
      simp only [hd]
      constructor
      · intro j addr hj
        by_cases hjr : j = r
        · subst hjr
          simp [Subscriber.stopDispatcher, AList.lookup_erase] at hj
        · have hj2 : s.Dispatchers.lookup j = some addr := by
            simpa [Subscriber.stopDispatcher, AList.lookup_erase_ne hjr] using hj
          simpa [Subscriber.stopDispatcher] using hwf j addr hj2
      · by_cases hk : k = r
        · subst hk
          simp [Subscriber.workersOf, Subscriber.stopDispatcher, AList.lookup_erase]
        · simp only [hk, and_false, if_false]
          unfold Subscriber.workersOf
          simp only [Subscriber.stopDispatcher, AList.lookup_erase_ne hk]
          cases hl : s.Dispatchers.lookup k with
          | none => rfl
          | some b =>
            have := workers_stopDispatcher
              { s with JobsDefinitions :=
                (if (s.JobsDefinitions.lookup r).isSome then s.JobsDefinitions.erase r
                  else s.JobsDefinitions) } a b
            simpa [Subscriber.stopDispatcher, Subscriber.dispatcherAt] using this

/-- The second block of `jobsChangeEvent` for a job that has a Dispatcher and stays
active. -/
theorem update_registered_active (E : Env) (s : Subscriber) (d : Job) (old : Nat)
    (hreg : s.Dispatchers.lookup d.ID = some old) (hact : d.Inactive = false) :
    Subscriber.jobsChangeEvent.update E s (some d) =
      { JobsDefinitions := s.JobsDefinitions.insert d.ID d
        Dispatchers := (s.Dispatchers.erase d.ID).insert d.ID s.heap.length
        heap := s.heap.modify Dispatcher.Stop old ++
          [(NewDispatcher
              (if d.MaxConcurrency > 0 then d.MaxConcurrency else E.DefaultMaximumWorkers)
              (((∅ : StrMap String).insert "service"
                (E.ServiceGrpcNamespace_ ++ E.ServiceTasks)).insert "jobID" d.ID)).Run]
        RootContext := s.RootContext } := by
  unfold Subscriber.jobsChangeEvent.update
  simp only [hreg, hact, Bool.not_false, if_true]
  unfold Subscriber.GetDispatcherForJob
  simp [Subscriber.stopDispatcher, AList.lookup_erase]

/-- The second block of `jobsChangeEvent` for a job that has a Dispatcher and becomes
inactive. -/
theorem update_registered_inactive (E : Env) (s : Subscriber) (d : Job) (old : Nat)
    (hreg : s.Dispatchers.lookup d.ID = some old) (hin : d.Inactive = true) :
    Subscriber.jobsChangeEvent.update E s (some d) =
      { JobsDefinitions := s.JobsDefinitions.insert d.ID d
        Dispatchers := s.Dispatchers.erase d.ID
        heap := s.heap.modify Dispatcher.Stop old
        RootContext := s.RootContext } := by
  unfold Subscriber.jobsChangeEvent.update
  simp [hreg, hin, Subscriber.stopDispatcher]

/-- The second block of `jobsChangeEvent` for a job that has no Dispatcher. -/
theorem update_unregistered (E : Env) (s : Subscriber) (d : Job)
    (hreg : s.Dispatchers.lookup d.ID = none) :
    Subscriber.jobsChangeEvent.update E s (some d) =
      { s with JobsDefinitions := s.JobsDefinitions.insert d.ID d } := by
  unfold Subscriber.jobsChangeEvent.update
  simp [hreg]

/-- The job definitions after the second block of `jobsChangeEvent`. -/
theorem update_jobsDefinitions (E : Env) (s : Subscriber) (d : Job) (k : String) :
    (Subscriber.jobsChangeEvent.update E s (some d)).JobsDefinitions.lookup k =
      if k = d.ID then some d else s.JobsDefinitions.lookup k := by
  have hins : (s.JobsDefinitions.insert d.ID d).lookup k =
      if k = d.ID then some d else s.JobsDefinitions.lookup k := by
    by_cases hk : k = d.ID
    · subst hk
      simp [AList.lookup_insert]
    · simp [hk, AList.lookup_insert_ne hk]
  cases hreg : s.Dispatchers.lookup d.ID with
  | none =>
    rw [update_unregistered E s d hreg]
    exact hins
  | some old =>
    cases hact : d.Inactive
    · rw [update_registered_active E s d old hreg hact]
      exact hins
    · rw [update_registered_inactive E s d old hreg hact]
      exact hins

/-- The second block of `jobsChangeEvent` keeps the subscriber well-formed; afterwards
the updated job has a Dispatcher, with the worker count of its definition, exactly when
it had one before and is not inactive, and the worker counts of the other identifiers are
unchanged. -/
theorem update_dispatchers (E : Env) (s : Subscriber) (hwf : s.WellFormed) (d : Job)
    (k : String) :
    (Subscriber.jobsChangeEvent.update E s (some d)).WellFormed ∧
    (Subscriber.jobsChangeEvent.update E s (some d)).workersOf k =
      if k = d.ID then
        (if (s.Dispatchers.lookup d.ID).isSome = true ∧ d.Inactive = false then
          some (if d.MaxConcurrency > 0 then d.MaxConcurrency else E.DefaultMaximumWorkers)
        else none)
      else s.workersOf k := by
  have hmw : ∀ (old b : Nat),
      ((s.heap.modify Dispatcher.Stop old)[b]?).map (·.maxWorkers) =
        (s.heap[b]?).map (·.maxWorkers) := by
    intro old b
    have := workers_stopDispatcher s old b
    simpa [Subscriber.stopDispatcher, Subscriber.dispatcherAt] using this
  cases hreg : s.Dispatchers.lookup d.ID with
  | none =>
    rw [update_unregistered E s d hreg]
    refine ⟨hwf, ?_⟩
    by_cases hk : k = d.ID
    · subst hk
      simp [Subscriber.workersOf, hreg]
    · simp [Subscriber.workersOf, Subscriber.dispatcherAt, hk]
  | some old =>
    cases hact : d.Inactive
    · rw [update_registered_active E s d old hreg hact]
      constructor
      · intro j addr hj
        simp only [List.length_append, List.length_modify, List.length_singleton]
        by_cases hjd : j = d.ID
        · subst hjd
          simp only [AList.lookup_insert, Option.some.injEq] at hj
          omega
        · simp only [AList.lookup_insert_ne hjd, AList.lookup_erase_ne hjd] at hj
          have := hwf j addr hj
          omega
      · by_cases hk : k = d.ID
        · subst hk
          simp [Subscriber.workersOf, Subscriber.dispatcherAt, AList.lookup_insert,
            List.getElem?_append_right, Dispatcher.Run, NewDispatcher]
        · simp only [hk, if_false]
          unfold Subscriber.workersOf
          simp only [AList.lookup_insert_ne hk, AList.lookup_erase_ne hk]
          cases hl : s.Dispatchers.lookup k with
          | none => rfl
          | some b =>
            have hb := hwf k b hl
            simp only [Option.bind, Subscriber.dispatcherAt]
            rw [List.getElem?_append_left (by simpa using hb)]
            exact hmw old b
    · rw [update_registered_inactive E s d old hreg hact]
      constructor
      · intro j addr hj
        simp only [List.length_modify]
        by_cases hjd : j = d.ID
        · subst hjd
          simp [AList.lookup_erase] at hj
        · simp only [AList.lookup_erase_ne hjd] at hj
          exact hwf j addr hj
      · by_cases hk : k = d.ID
        · subst hk
          simp [Subscriber.workersOf, AList.lookup_erase]
        · simp only [hk, if_false]
          unfold Subscriber.workersOf
          simp only [AList.lookup_erase_ne hk]
          cases hl : s.Dispatchers.lookup k with
          | none => rfl
          | some b =>
            simp only [Option.bind, Subscriber.dispatcherAt]
            exact hmw old b

/-- The state after `jobsChangeEvent` on a well-formed subscriber: it is well-formed, and
its job definitions and the worker counts of its Dispatchers are given, identifier by
identifier, by those before the call and the event. -/
theorem jobsChangeEvent_effect (E : Env) (s : Subscriber) (hwf : s.WellFormed)
    (msg : JobChangeEvent) :
    (s.jobsChangeEvent E msg).1.WellFormed ∧
    (∀ k, (s.jobsChangeEvent E msg).1.JobsDefinitions.lookup k =
      match msg.JobUpdated with
      | some d =>
        if k = d.ID then some d
        else if msg.JobRemoved ≠ "" ∧ k = msg.JobRemoved then none
        else s.JobsDefinitions.lookup k
      | none =>
        if msg.JobRemoved ≠ "" ∧ k = msg.JobRemoved then none
        else s.JobsDefinitions.lookup k) ∧
    (∀ k, (s.jobsChangeEvent E msg).1.workersOf k =
      match msg.JobUpdated with
      | some d =>
        if k = d.ID then
          (if (if msg.JobRemoved ≠ "" ∧ d.ID = msg.JobRemoved then none
                else s.workersOf d.ID).isSome = true ∧ d.Inactive = false then
            some (if d.MaxConcurrency > 0 then d.MaxConcurrency
              else E.DefaultMaximumWorkers)
          else none)
        else if msg.JobRemoved ≠ "" ∧ k = msg.JobRemoved then none
        else s.workersOf k
      | none =>
        if msg.JobRemoved ≠ "" ∧ k = msg.JobRemoved then none else s.workersOf k) := by
  rw [jobsChangeEvent_eq_blocks]
  have hwf1 := (remove_dispatchers s hwf msg.JobRemoved "").1
  cases hu : msg.JobUpdated with
  | none =>
    refine ⟨hwf1, ?_, ?_⟩
    · intro k
      exact remove_jobsDefinitions s msg.JobRemoved k
    · intro k
      exact (remove_dispatchers s hwf msg.JobRemoved k).2
  | some d =>
    refine ⟨(update_dispatchers E _ hwf1 d "").1, ?_, ?_⟩
    · intro k
      rw [update_jobsDefinitions, remove_jobsDefinitions]
    · intro k
      rw [(update_dispatchers E _ hwf1 d k).2, ← workersOf_isSome _ hwf1,
        (remove_dispatchers s hwf msg.JobRemoved k).2,
        (remove_dispatchers s hwf msg.JobRemoved d.ID).2]

/-- C12. Registry mutation is idempotent: for every registry state and every
`JobChangeEvent`, applying `jobsChangeEvent` twice with the same event leaves, for every
identifier, the same job definition, a Dispatcher exactly when one application leaves
one, and the same worker count of that Dispatcher, as applying it once. -/
theorem jobsChangeEvent_idempotent (E : Env) (s : Subscriber) (hwf : s.WellFormed)
    (msg : JobChangeEvent) (k : String) :
    ((s.jobsChangeEvent E msg).1.jobsChangeEvent E msg).1.JobsDefinitions.lookup k =
      (s.jobsChangeEvent E msg).1.JobsDefinitions.lookup k ∧
    (((s.jobsChangeEvent E msg).1.jobsChangeEvent E msg).1.Dispatchers.lookup k).isSome =
      ((s.jobsChangeEvent E msg).1.Dispatchers.lookup k).isSome ∧
    ((s.jobsChangeEvent E msg).1.jobsChangeEvent E msg).1.workersOf k =
      (s.jobsChangeEvent E msg).1.workersOf k := by
  obtain ⟨hwf1, hj1, hw1⟩ := jobsChangeEvent_effect E s hwf msg
  obtain ⟨hwf2, hj2, hw2⟩ := jobsChangeEvent_effect E _ hwf1 msg
  have hworkers : ((s.jobsChangeEvent E msg).1.jobsChangeEvent E msg).1.workersOf k =
      (s.jobsChangeEvent E msg).1.workersOf k := by
    rw [hw2 k]
    cases hu : msg.JobUpdated with
    | none =>
      simp only []
      rw [hw1 k]
      simp only [hu]
      split_ifs <;> rfl
    | some d =>
      simp only []
      rw [hw1 k, hw1 d.ID]
      simp only [hu]
      split_ifs <;> simp_all
  refine ⟨?_, ?_, hworkers⟩
  · rw [hj2 k]
    cases hu : msg.JobUpdated with
    | none =>
      simp only []
      rw [hj1 k]
      simp only [hu]
      split_ifs <;> rfl
    | some d =>
      simp only []
      rw [hj1 k]
      simp only [hu]
      split_ifs <;> rfl
  · rw [← workersOf_isSome _ hwf2, ← workersOf_isSome _ hwf1, hworkers]

/-- A subscriber without Dispatcher is well-formed. -/
theorem wellFormed_of_no_dispatcher (s : Subscriber) (h : s.Dispatchers = ∅) :
    s.WellFormed := by
  intro jobId addr hl
  rw [h, AList.lookup_empty] at hl
  cases hl

/-- `GetDispatcherForJob` keeps the subscriber well-formed. -/
theorem GetDispatcherForJob_wellFormed (E : Env) (s : Subscriber) (hwf : s.WellFormed)
    (job : Job) : (s.GetDispatcherForJob E job).1.WellFormed := by
  unfold Subscriber.GetDispatcherForJob
  cases hl : s.Dispatchers.lookup job.ID with
  | some d => exact hwf
  | none =>
    intro j addr hj
    simp only [List.length_append, List.length_singleton]
    by_cases hjd : j = job.ID
    · subst hjd
      simp only [AList.lookup_insert, Option.some.injEq] at hj
      omega
    · simp only [AList.lookup_insert_ne hjd] at hj
      have := hwf j addr hj
      omega

/-- C12, at a concrete input: a job served by a Dispatcher with the default worker count
is updated twice to `MaxConcurrency` 1; after one update and after two its Dispatcher has
one worker. -/
theorem jobsChangeEvent_idempotent_witness :
    (exampleSubscriberWithDispatchers [exampleJob "job1" []]).WellFormed ∧
    ((((exampleSubscriberWithDispatchers [exampleJob "job1" []]).jobsChangeEvent exampleEnv
        { JobRemoved := "",
          JobUpdated := some { exampleJob "job1" [] with MaxConcurrency := 1 } }).1.jobsChangeEvent
        exampleEnv
        { JobRemoved := "",
          JobUpdated := some { exampleJob "job1" [] with MaxConcurrency := 1 } }).1.workersOf
        "job1" =
      ((exampleSubscriberWithDispatchers [exampleJob "job1" []]).jobsChangeEvent exampleEnv
        { JobRemoved := "",
          JobUpdated := some { exampleJob "job1" [] with MaxConcurrency := 1 } }).1.workersOf
        "job1") ∧
    ((exampleSubscriberWithDispatchers [exampleJob "job1" []]).jobsChangeEvent exampleEnv
        { JobRemoved := "",
          JobUpdated := some { exampleJob "job1" [] with MaxConcurrency := 1 } }).1.workersOf
        "job1" = some 1 :=
  ⟨GetDispatcherForJob_wellFormed exampleEnv (exampleSubscriber [exampleJob "job1" []])
      (wellFormed_of_no_dispatcher _ rfl) (exampleJob "job1" []),
   (jobsChangeEvent_idempotent exampleEnv
      (exampleSubscriberWithDispatchers [exampleJob "job1" []])
      (GetDispatcherForJob_wellFormed exampleEnv (exampleSubscriber [exampleJob "job1" []])
        (wellFormed_of_no_dispatcher _ rfl) (exampleJob "job1" []))
      { JobRemoved := "",
        JobUpdated := some { exampleJob "job1" [] with MaxConcurrency := 1 } } "job1").2.2,
   by decide⟩

/-! ### `Query.ParseDurationDate` -/

/-- C21, as stated, fails for the minimal duration: for d = -2^63 ns the `int64`
negation `-d` wraps to d itself, so that `<` followed by this duration sets `MinDate` to
the Unix seconds of ref + d, not of ref - d. -/
theorem ParseDurationDate_minimal_duration_wraps :
    ¬ ∀ (A : ActionsEnv) (m : TreeQuery) (ref d : Int),
      m.DurationDate.take 1 = "<" →
      A.ParseCellsDuration (A.TrimSpace (m.DurationDate.drop 1)) = .ok d →
      -9223372036854775808 ≤ d → d ≤ 9223372036854775807 →
      (m.ParseDurationDate A [ref] 0).1.MinDate = Time.Unix (ref - d) := by
  intro h
  have h1 := h exampleActionsEnv (exampleQuery "<-2562047h47m16.854775808s") 0
    (-9223372036854775808) (by decide) (by rfl) (by decide) (by decide)
  revert h1
  decide

/-- C21, amended. For every tree query and reference time: `ParseDurationDate` returns
nil and changes nothing when `DurationDate` is empty; it returns an error and leaves the
query, hence `MinDate` and `MaxDate`, unchanged when `DurationDate` does not start with
`<` or `>` or its trimmed remainder is not a valid duration; otherwise, for the duration
d parsed, when d is not the minimal `int64` duration it returns nil and sets `MinDate` to
the Unix seconds of ref - d when the first character is `<`, and `MaxDate` when it is
`>`, leaving every other field unchanged; when d is the minimal duration, -2^63 ns, it
sets that field to the Unix seconds of ref - 2^63 ns. -/
theorem ParseDurationDate_spec (A : ActionsEnv) (m : TreeQuery) (ref : Int) (rest : List Int)
    (now : Int) :
    (m.DurationDate = "" → m.ParseDurationDate A (ref :: rest) now = (m, none)) ∧
    (m.DurationDate ≠ "" → m.DurationDate.take 1 ≠ "<" → m.DurationDate.take 1 ≠ ">" →
      ∃ e, m.ParseDurationDate A (ref :: rest) now = (m, some e)) ∧
    (∀ e, m.DurationDate ≠ "" → (m.DurationDate.take 1 = "<" ∨ m.DurationDate.take 1 = ">") →
      A.ParseCellsDuration (A.TrimSpace (m.DurationDate.drop 1)) = .error e →
      m.ParseDurationDate A (ref :: rest) now = (m, some e)) ∧
    (∀ d, m.DurationDate ≠ "" →
      A.ParseCellsDuration (A.TrimSpace (m.DurationDate.drop 1)) = .ok d →
      -9223372036854775808 < d → d ≤ 9223372036854775807 →
      (m.DurationDate.take 1 = "<" →
        m.ParseDurationDate A (ref :: rest) now =
          ({ m with MinDate := Time.Unix (ref - d) }, none)) ∧
      (m.DurationDate.take 1 = ">" →
        m.ParseDurationDate A (ref :: rest) now =
          ({ m with MaxDate := Time.Unix (ref - d) }, none))) ∧
    (m.DurationDate ≠ "" →
      A.ParseCellsDuration (A.TrimSpace (m.DurationDate.drop 1)) =
        .ok (-9223372036854775808) →
      (m.DurationDate.take 1 = "<" →
        m.ParseDurationDate A (ref :: rest) now =
          ({ m with MinDate := Time.Unix (ref - 9223372036854775808) }, none)) ∧
      (m.DurationDate.take 1 = ">" →
        m.ParseDurationDate A (ref :: rest) now =
          ({ m with MaxDate := Time.Unix (ref - 9223372036854775808) }, none))) := by
  refine ⟨?_, ?_, ?_, ?_, ?_⟩
  · intro h
    simp [TreeQuery.ParseDurationDate, h]
  · intro h h1 h2
    exact ⟨"DurationDate must start with < or > character",
      by simp [TreeQuery.ParseDurationDate, h, h1, h2]⟩
  · intro e h hc hp
    unfold TreeQuery.ParseDurationDate
    rcases hc with hc | hc <;> simp [h, hc, hp]
  · intro d h hp hlo hhi
    have hneg : wrapInt64 (-d) = -d := wrapInt64_of_inRange _ (by omega) (by omega)
    have hsub : Time.Add ref (-d) = ref - d := by
      unfold Time.Add
      omega
    constructor
    · intro hc
      unfold TreeQuery.ParseDurationDate
      simp [h, hc, hp, hneg, hsub]
    · intro hc
      have hne : ¬ (m.DurationDate.take 1 = "<") := by
        rw [hc]
        decide
      unfold TreeQuery.ParseDurationDate
      simp [h, hc, hp, hneg, hsub]
  · intro h hp
    have hneg : wrapInt64 (- -9223372036854775808) = -9223372036854775808 := by decide
    have hsub : Time.Add ref (-9223372036854775808) = ref - 9223372036854775808 := by
      unfold Time.Add
      omega
    constructor
    · intro hc
      unfold TreeQuery.ParseDurationDate
      simp only [h, hc, hp, hneg, hsub]
      simp
    · intro hc
      have hne : ¬ (m.DurationDate.take 1 = "<") := by
        rw [hc]
        decide
      unfold TreeQuery.ParseDurationDate
      simp only [h, hc, hp, hneg, hsub]
      simp

/-- C21, amended, at concrete inputs: at the instant 100000 s after the epoch, `<24h` sets
`MinDate` to 13600 and `>10s` sets `MaxDate` to 99990, `24h` and `<1 day` are errors, and
the empty `DurationDate` changes nothing; at the epoch, `<` followed by the minimal
duration sets `MinDate` to -9223372037. -/
theorem ParseDurationDate_spec_witness :
    ((exampleQuery "<24h").ParseDurationDate exampleActionsEnv [100000000000000] 0 =
      ({ exampleQuery "<24h" with MinDate := 13600 }, none)) ∧
    ((exampleQuery ">10s").ParseDurationDate exampleActionsEnv [100000000000000] 0 =
      ({ exampleQuery ">10s" with MaxDate := 99990 }, none)) ∧
    ((exampleQuery "24h").ParseDurationDate exampleActionsEnv [100000000000000] 0 =
      (exampleQuery "24h", some "DurationDate must start with < or > character")) ∧
    ((exampleQuery "<1 day").ParseDurationDate exampleActionsEnv [100000000000000] 0 =
      (exampleQuery "<1 day", some "time: invalid duration")) ∧
    ((exampleQuery "").ParseDurationDate exampleActionsEnv [100000000000000] 0 =
      (exampleQuery "", none)) ∧
    ((exampleQuery "<-2562047h47m16.854775808s").ParseDurationDate exampleActionsEnv [0] 0 =
      ({ exampleQuery "<-2562047h47m16.854775808s" with MinDate := -9223372037 }, none)) :=
  ⟨((ParseDurationDate_spec exampleActionsEnv (exampleQuery "<24h") 100000000000000 [] 0).2.2.2.1
      86400000000000 (by decide) rfl (by decide) (by decide)).1 (by decide),
   by decide, by decide, by decide,
   (ParseDurationDate_spec exampleActionsEnv (exampleQuery "") 100000000000000 [] 0).1 rfl,
   by decide⟩

/-! ### `CompressAction.Run` -/

/-- What `path.Ext` returns for a name that ends in `.tar.gz`. -/
theorem path_Ext_tar_gz (stem : String) : path_Ext (stem ++ ".tar.gz") = ".gz" := by
  simp [path_Ext, path_Ext.scan]

/-- C22. `CompressAction.Run` on an input with nodes, once the handler is there and with
`dir` and `base` the directory and the file name of the target: when the format parameter
evaluates to `detect`, a lower-cased extension `.zip` of `base` makes Run go on with the
format zip and `.tar` with the format tar, the extension being removed from `base`, and
an extension other than `.zip`, `.tar` and `.tar.gz` makes it return the error `could not
detect archive format from file name` followed by `base`; a format parameter that is
neither `detect` nor one of zip, tar, tar.gz makes it return the error `unsupported
archive format`. A `base` ending in `.tar.gz` has the extension `.gz`, so that with
`detect` Run returns the detection error for it instead of taking the format tar.gz. -/
theorem CompressAction_Run_detect (E : Env) (A : ActionsEnv) (c : CompressAction)
    (ctx ctx1 : Context) (input : ActionMessage) (first : Node) (others : List Node)
    (dir base : String)
    (hnodes : input.Nodes = first :: others) (hhandler : A.GetHandler ctx = .ok ctx1)
    (htarget : CompressAction.Run.target E A c ctx1 input first others = (dir, base)) :
    (E.EvaluateFieldStr ctx1 input c.Format = "detect" →
      (E.ToLower (path_Ext base) = ".zip" →
        c.Run E A ctx input = .archive dir (strings_TrimSuffix base ".zip") "zip") ∧
      (E.ToLower (path_Ext base) = ".tar" →
        c.Run E A ctx input = .archive dir (strings_TrimSuffix base ".tar") "tar") ∧
      (E.ToLower (path_Ext base) ≠ ".zip" → E.ToLower (path_Ext base) ≠ ".tar" →
        E.ToLower (path_Ext base) ≠ ".tar.gz" →
        c.Run E A ctx input =
          .returned
            (A.WithError input ("could not detect archive format from file name " ++ base))
            (some ("could not detect archive format from file name " ++ base))) ∧
      (∀ stem, base = stem ++ ".tar.gz" → E.ToLower ".gz" = ".gz" →
        c.Run E A ctx input =
          .returned
            (A.WithError input ("could not detect archive format from file name " ++ base))
            (some ("could not detect archive format from file name " ++ base)))) ∧
    (E.EvaluateFieldStr ctx1 input c.Format ≠ "detect" →
      E.EvaluateFieldStr ctx1 input c.Format ≠ "zip" →
      E.EvaluateFieldStr ctx1 input c.Format ≠ "tar" →
      E.EvaluateFieldStr ctx1 input c.Format ≠ "tar.gz" →
      c.Run E A ctx input =
        .returned (A.WithError input "unsupported archive format")
          (some "unsupported archive format")) := by
  refine ⟨fun hd => ⟨?_, ?_, ?_, ?_⟩, ?_⟩
  · intro hz
    simp [CompressAction.Run, hnodes, hhandler, htarget, hd, hz]
  · intro ht
    simp [CompressAction.Run, hnodes, hhandler, htarget, hd, ht]
  · intro h1 h2 h3
    simp [CompressAction.Run, hnodes, hhandler, htarget, hd, h1, h2, h3]
  · intro stem hb hl
    have hext : E.ToLower (path_Ext base) = ".gz" := by
      rw [hb, path_Ext_tar_gz, hl]
    simp [CompressAction.Run, hnodes, hhandler, htarget, hd, hext]
  · intro h0 h1 h2 h3
    simp [CompressAction.Run, hnodes, hhandler, htarget, h0, h1, h2, h3]

/-- C22, at concrete inputs: with the format `detect`, the target `/backups/site.tar.gz`
makes Run return the detection error, and the target `/backups/site.zip` makes it go on
with the format zip and the base `site`. -/
theorem CompressAction_Run_detect_witness :
    ((exampleCompress "detect" "/backups/site.tar.gz").Run exampleEnv exampleActionsEnv
        exampleCtx (exampleInputOfNodes [exampleNode]) =
      .returned (exampleInputOfNodes [exampleNode])
        (some "could not detect archive format from file name site.tar.gz")) ∧
    ((exampleCompress "detect" "/backups/site.zip").Run exampleEnv exampleActionsEnv
        exampleCtx (exampleInputOfNodes [exampleNode]) =
      .archive "/backups/" "site" "zip") :=
  ⟨((CompressAction_Run_detect exampleEnv exampleActionsEnv
      (exampleCompress "detect" "/backups/site.tar.gz") exampleCtx exampleCtx
      (exampleInputOfNodes [exampleNode]) exampleNode [] "/backups/" "site.tar.gz"
      rfl rfl (by decide)).1 rfl).2.2.2 "site" (by decide) (by decide),
   ((CompressAction_Run_detect exampleEnv exampleActionsEnv
      (exampleCompress "detect" "/backups/site.zip") exampleCtx exampleCtx
      (exampleInputOfNodes [exampleNode]) exampleNode [] "/backups/" "site.zip"
      rfl rfl (by decide)).1 rfl).1 (by decide)⟩

/-! ### `ThumbnailExtractor.Run` -/

/-- C23. `ThumbnailExtractor.Run` returns the input marked as ignored, with a nil error
and without any resize, for every input without nodes and for every input whose first
node has the Size -1 or the temporary Etag. A first node of Size 0 whose Etag is not the
temporary one is not ignored: Run calls `resize` on it. -/
theorem ThumbnailExtractor_Run_ignored (E : Env) (A : ActionsEnv) (t : ThumbnailExtractor)
    (ctx : Context) (input : ActionMessage) :
    (input.Nodes = [] →
      t.Run E A ctx input = { output := A.WithIgnore input, err := none, resized := [] }) ∧
    (∀ node rest, input.Nodes = node :: rest →
      (node.Size = -1 ∨ node.Etag = E.NodeFlagEtagTemporary) →
      t.Run E A ctx input = { output := A.WithIgnore input, err := none, resized := [] }) ∧
    (∀ node rest, input.Nodes = node :: rest →
      node.Size = 0 → node.Etag ≠ E.NodeFlagEtagTemporary →
      (t.Run E A ctx input).resized = [node]) := by
  refine ⟨?_, ?_, ?_⟩
  · intro h
    simp [ThumbnailExtractor.Run, h]
  · intro node rest h hc
    simp [ThumbnailExtractor.Run, h, hc]
  · intro node rest h hs he
    simp only [ThumbnailExtractor.Run, h, hs, he]
    cases A.resize ctx node t.thumbSizes <;> simp

/-- C23, at concrete inputs: an empty file with an ordinary Etag is resized, the same
file with the Size -1 or with the temporary Etag is ignored, and so is an input without
nodes. -/
theorem ThumbnailExtractor_Run_ignored_witness :
    (ThumbnailExtractor.Run exampleEnv exampleActionsEnv { thumbSizes := ∅ } exampleCtx
        (exampleInputOfNodes [{ exampleNode with Size := 0 }])).resized =
      [{ exampleNode with Size := 0 }] ∧
    (ThumbnailExtractor.Run exampleEnv exampleActionsEnv { thumbSizes := ∅ } exampleCtx
        (exampleInputOfNodes [{ exampleNode with Size := -1 }])).resized = [] ∧
    (ThumbnailExtractor.Run exampleEnv exampleActionsEnv { thumbSizes := ∅ } exampleCtx
        (exampleInputOfNodes [{ exampleNode with Etag := "temporary" }])).resized = [] ∧
    (ThumbnailExtractor.Run exampleEnv exampleActionsEnv { thumbSizes := ∅ } exampleCtx
        (exampleInputOfNodes [])).resized = [] :=
  ⟨(ThumbnailExtractor_Run_ignored exampleEnv exampleActionsEnv { thumbSizes := ∅ }
      exampleCtx (exampleInputOfNodes [{ exampleNode with Size := 0 }])).2.2
      { exampleNode with Size := 0 } [] rfl rfl (by decide),
   by decide, by decide, by decide⟩

/-! ### `TreeServer.checkACLs` -/

/-- The keys of `founds` when every response carries an ACL. -/
theorem checkACLs_founds_of_acls (acls : List IdmACL) :
    TreeServer.checkACLs.founds (acls.map (fun a => { ACL := some a })) =
      .ok (acls.map (fun a => a.NodeID)) := by
  induction acls with
  | nil => rfl
  | cons a rest ih => simp [TreeServer.checkACLs.founds, ih]

/-- The slice `removable` holds UUIDs of the entry that are not in `founds`. -/
theorem checkACLs_removable_mem (founds : List String) (l : LostAndFound) (id : String)
    (h : id ∈ TreeServer.checkACLs.removable founds l) : id ∈ l.UUIDs ∧ id ∉ founds := by
  simp only [TreeServer.checkACLs.removable] at h
  have hf : id ∈ l.UUIDs.filter (fun id => decide (id ∉ founds)) := by
    split_ifs at h
    · exact List.mem_of_mem_tail h
    · exact h
  simpa using hf

/-- The slice `removable` is empty exactly when every UUID of the entry is in `founds`. -/
theorem checkACLs_removable_length (founds : List String) (l : LostAndFound) :
    (TreeServer.checkACLs.removable founds l).length > 0 ↔ ∃ id ∈ l.UUIDs, id ∉ founds := by
  simp only [TreeServer.checkACLs.removable]
  have hpos : (l.UUIDs.filter (fun id => decide (id ∉ founds))).length > 0 ↔
      ∃ id ∈ l.UUIDs, id ∉ founds := by
    rw [gt_iff_lt, List.length_pos_iff_exists_mem]
    simp
  split_ifs with hc
  · rw [← hpos, List.length_tail]
    omega
  · exact hpos

/-- The entries the loop of `checkACLs` marks, with their lists, and the entries it
reports as conflicts. -/
theorem checkACLs_loop_eq (founds : List String) (ll : List LostAndFound) :
    (TreeServer.checkACLs.loop founds ll).1 =
      (ll.filter (fun l => decide ((TreeServer.checkACLs.removable founds l).length > 0))).map
        (fun l => (l, TreeServer.checkACLs.removable founds l)) ∧
    (TreeServer.checkACLs.loop founds ll).2 =
      ll.filter (fun l => !decide ((TreeServer.checkACLs.removable founds l).length > 0)) := by
  induction ll with
  | nil => exact ⟨rfl, rfl⟩
  | cons l rest ih =>
    unfold TreeServer.checkACLs.loop
    by_cases h : (TreeServer.checkACLs.removable founds l).length > 0
    · simp [h, ih.1, ih.2]
    · simp [h, ih.1, ih.2]

/-- What `checkACLs` returns when the search reports the given ACLs. -/
theorem checkACLs_of_acls (A : ActionsEnv) (ll : List LostAndFound) (acls : List IdmACL)
    (hsearch : A.SearchACL (ll.flatMap (fun l => l.UUIDs)) =
      .ok (acls.map (fun a => { ACL := some a }))) :
    TreeServer.checkACLs A ll =
      { marked := (TreeServer.checkACLs.loop (acls.map (fun a => a.NodeID)) ll).1
        conflicts := (TreeServer.checkACLs.loop (acls.map (fun a => a.NodeID)) ll).2
        e := none, fault := none } := by
  simp [TreeServer.checkACLs, hsearch, checkACLs_founds_of_acls]

/-- An entry has a removable UUID exactly when not all of its UUIDs have an ACL. -/
theorem checkACLs_removable_iff (acls : List IdmACL) (l : LostAndFound) :
    (TreeServer.checkACLs.removable (acls.map (fun a => a.NodeID)) l).length > 0 ↔
      l.allHaveACL acls = false := by
  rw [checkACLs_removable_length]
  simp [LostAndFound.allHaveACL]

/-- C24. For every list of lost-and-found entries and every list of ACLs reported by the
search: `checkACLs` returns no error; each entry placed in `marked` is an input entry
marked with a non-empty list of its own UUIDs, none of which is the node of an ACL; an
input entry all of whose UUIDs have an ACL is in `conflicts`; `marked` holds, in order,
the input entries that have a UUID without ACL, and `conflicts` the other input entries,
so that each input entry is in exactly one of the two. -/
theorem checkACLs_spec (A : ActionsEnv) (ll : List LostAndFound) (acls : List IdmACL)
    (hsearch : A.SearchACL (ll.flatMap (fun l => l.UUIDs)) =
      .ok (acls.map (fun a => { ACL := some a }))) :
    (TreeServer.checkACLs A ll).e = none ∧ (TreeServer.checkACLs A ll).fault = none ∧
    (∀ l ids, (l, ids) ∈ (TreeServer.checkACLs A ll).marked →
      l ∈ ll ∧ ids ≠ [] ∧ ∀ id ∈ ids, id ∈ l.UUIDs ∧ ∀ a ∈ acls, a.NodeID ≠ id) ∧
    (∀ l ∈ ll, (∀ id ∈ l.UUIDs, ∃ a ∈ acls, a.NodeID = id) →
      l ∈ (TreeServer.checkACLs A ll).conflicts) ∧
    (TreeServer.checkACLs A ll).marked.map Prod.fst =
      ll.filter (fun l => !l.allHaveACL acls) ∧
    (TreeServer.checkACLs A ll).conflicts = ll.filter (fun l => l.allHaveACL acls) := by
  rw [checkACLs_of_acls A ll acls hsearch]
  obtain ⟨hm, hc⟩ := checkACLs_loop_eq (acls.map (fun a => a.NodeID)) ll
  have hfilter : ∀ l : LostAndFound,
      decide ((TreeServer.checkACLs.removable (acls.map (fun a => a.NodeID)) l).length > 0) =
        !l.allHaveACL acls := by
    intro l
    have := checkACLs_removable_iff acls l
    cases hall : l.allHaveACL acls <;> simp_all
  simp only [hfilter, Bool.not_not] at hm hc
  refine ⟨rfl, rfl, ?_, ?_, ?_, ?_⟩
  · intro l ids hmem
    simp only [hm, List.mem_map, List.mem_filter] at hmem
    obtain ⟨l1, ⟨hl1, hall⟩, heq⟩ := hmem
    simp only [Prod.mk.injEq] at heq
    obtain ⟨rfl, rfl⟩ := heq
    refine ⟨hl1, ?_, ?_⟩
    · have hpos := (checkACLs_removable_iff acls l1).2 (by simpa using hall)
      intro hnil
      rw [hnil] at hpos
      simp at hpos
    · intro id hid
      have := checkACLs_removable_mem _ _ _ hid
      refine ⟨this.1, fun a ha hne => this.2 ?_⟩
      exact List.mem_map.2 ⟨a, ha, hne⟩
  · intro l hl hall
    simp only [hc, List.mem_filter]
    refine ⟨hl, ?_⟩
    simp only [LostAndFound.allHaveACL, List.all_eq_true, List.any_eq_true, beq_iff_eq]
    exact hall
  · simp only [hm, List.map_map]
    exact List.map_id _
  · exact hc

/-- C24, at concrete inputs: of the entries with the UUIDs `acl-1`, `n2` and with the
UUID `acl-3`, where `acl-1` and `acl-3` have an ACL, the first is marked with `n2` only and
the second is a conflict. -/
theorem checkACLs_spec_witness :
    (TreeServer.checkACLs exampleActionsEnv
        [exampleLostAndFound ["acl-1", "n2"] false, exampleLostAndFound ["acl-3"] false]).marked =
      [(exampleLostAndFound ["acl-1", "n2"] false, ["n2"])] ∧
    (TreeServer.checkACLs exampleActionsEnv
        [exampleLostAndFound ["acl-1", "n2"] false, exampleLostAndFound ["acl-3"] false]).conflicts =
      [exampleLostAndFound ["acl-1", "n2"] false, exampleLostAndFound ["acl-3"] false].filter
        (fun l => l.allHaveACL
          [{ ID := "1", NodeID := "acl-1", RoleID := "", WorkspaceID := "" },
           { ID := "1", NodeID := "acl-3", RoleID := "", WorkspaceID := "" }]) ∧
    (TreeServer.checkACLs exampleActionsEnv
        [exampleLostAndFound ["acl-1", "n2"] false, exampleLostAndFound ["acl-3"] false]).conflicts =
      [exampleLostAndFound ["acl-3"] false] :=
  ⟨by decide,
   (checkACLs_spec exampleActionsEnv
      [exampleLostAndFound ["acl-1", "n2"] false, exampleLostAndFound ["acl-3"] false]
      [{ ID := "1", NodeID := "acl-1", RoleID := "", WorkspaceID := "" },
       { ID := "1", NodeID := "acl-3", RoleID := "", WorkspaceID := "" }] rfl).2.2.2.2.2,
   by decide⟩

/-- A list without repetition that has two elements or more has an element outside any
list of one element or less. -/
theorem exists_not_mem_of_nodup {α : Type} (us ids : List α) (hnodup : us.Nodup)
    (hlen : 2 ≤ us.length) (hids : ids.length ≤ 1) : ∃ id ∈ us, id ∉ ids := by
  match us, hnodup, hlen with
  | a :: b :: rest, hnodup, _ =>
    have hab : a ≠ b := by
      intro h
      rw [h] at hnodup
      simp at hnodup
    match ids, hids with
    | [], _ => exact ⟨a, by simp, by simp⟩
    | [c], _ =>
      by_cases hac : a = c
      · exact ⟨b, by simp, by
          simp only [List.mem_singleton]
          intro hbc
          exact hab (hac.trans hbc.symm)⟩
      · exact ⟨a, by simp, by simpa using hac⟩

/-- The slice `removable` of a duplicate entry that lists two UUIDs or more, all
distinct, leaves out one of them. -/
theorem checkACLs_removable_keeps_one (founds : List String) (l : LostAndFound)
    (hdup : l.IsDuplicate = true) (hlen : 2 ≤ l.UUIDs.length) (hnodup : l.UUIDs.Nodup) :
    ∃ id ∈ l.UUIDs, id ∉ TreeServer.checkACLs.removable founds l := by
  simp only [TreeServer.checkACLs.removable]
  have hfn : (l.UUIDs.filter (fun id => decide (id ∉ founds))).Nodup := hnodup.filter _
  split_ifs with hc
  · match hf : l.UUIDs.filter (fun id => decide (id ∉ founds)), hfn with
    | [], _ =>
      rw [hf] at hc
      simp at hc
    | h :: t, hfn =>
      refine ⟨h, ?_, ?_⟩
      · have : h ∈ l.UUIDs.filter (fun id => decide (id ∉ founds)) := by
          rw [hf]
          simp
        exact (List.mem_filter.1 this).1
      · simpa using (List.nodup_cons.1 hfn).1
  · have hle : (l.UUIDs.filter (fun id => decide (id ∉ founds))).length ≤ 1 := by
      by_contra hgt
      exact hc ⟨hdup, by omega⟩
    exact exists_not_mem_of_nodup _ _ hnodup hlen hle

/-- The list an entry is marked with is its slice `removable`. -/
theorem checkACLs_marked_eq (A : ActionsEnv) (ll : List LostAndFound) (l : LostAndFound)
    (ids : List String) (hmarked : (l, ids) ∈ (TreeServer.checkACLs A ll).marked) :
    ∃ founds, ids = TreeServer.checkACLs.removable founds l := by
  unfold TreeServer.checkACLs at hmarked
  cases hs : A.SearchACL (ll.flatMap (fun l => l.UUIDs)) with
  | error er => simp [hs] at hmarked
  | ok responses =>
    cases hf : TreeServer.checkACLs.founds responses with
    | error f => simp [hs, hf] at hmarked
    | ok founds =>
      simp only [hs, hf, (checkACLs_loop_eq founds ll).1, List.mem_map, List.mem_filter,
        Prod.mk.injEq] at hmarked
      obtain ⟨l1, _, rfl, rfl⟩ := hmarked
      exact ⟨founds, rfl⟩

/-- For every entry that `checkACLs` marks, if the entry is a duplicate that lists two
UUIDs or more, all distinct, then at least one of its UUIDs is not in the list passed to
`MarkForDeletion`, whether or not some of its UUIDs have ACLs. -/
theorem checkACLs_keeps_one (A : ActionsEnv) (ll : List LostAndFound) (l : LostAndFound)
    (ids : List String) (hmarked : (l, ids) ∈ (TreeServer.checkACLs A ll).marked)
    (hdup : l.IsDuplicate = true) (hlen : 2 ≤ l.UUIDs.length) (hnodup : l.UUIDs.Nodup) :
    ∃ id ∈ l.UUIDs, id ∉ ids := by
  obtain ⟨founds, rfl⟩ := checkACLs_marked_eq A ll l ids hmarked
  exact checkACLs_removable_keeps_one founds l hdup hlen hnodup

/-- At concrete inputs: the duplicate entry with the UUIDs `n1`, `n2`,
`n3`, none of which has an ACL, is marked with `n2` and `n3`, and the duplicate entry
with the UUIDs `acl-1`, `n2` with `n2`. -/
theorem checkACLs_keeps_one_example :
    ((exampleLostAndFound ["n1", "n2", "n3"] true, ["n2", "n3"]) ∈
      (TreeServer.checkACLs exampleActionsEnv
        [exampleLostAndFound ["n1", "n2", "n3"] true,
         exampleLostAndFound ["acl-1", "n2"] true]).marked) ∧
    ((exampleLostAndFound ["acl-1", "n2"] true, ["n2"]) ∈
      (TreeServer.checkACLs exampleActionsEnv
        [exampleLostAndFound ["n1", "n2", "n3"] true,
         exampleLostAndFound ["acl-1", "n2"] true]).marked) ∧
    (∃ id ∈ (exampleLostAndFound ["n1", "n2", "n3"] true).UUIDs, id ∉ ["n2", "n3"]) :=
  ⟨by decide, by decide,
   checkACLs_keeps_one exampleActionsEnv
     [exampleLostAndFound ["n1", "n2", "n3"] true, exampleLostAndFound ["acl-1", "n2"] true]
     (exampleLostAndFound ["n1", "n2", "n3"] true) ["n2", "n3"] (by decide) rfl (by decide)
     (by decide)⟩

/-- C25. For the duplicate entry whose only UUID, `n1`, has no ACL, `removable` is the
list of `n1` alone, which is not longer than one, so `checkACLs` keeps nothing of it: it
marks the entry with `n1`, and no UUID of the entry is outside the list passed to
`MarkForDeletion`. -/
theorem checkACLs_marks_every_uuid :
    (exampleLostAndFound ["n1"] true).IsDuplicate = true ∧
    (TreeServer.checkACLs exampleActionsEnv [exampleLostAndFound ["n1"] true]).marked =
      [(exampleLostAndFound ["n1"] true, ["n1"])] ∧
    (TreeServer.checkACLs exampleActionsEnv [exampleLostAndFound ["n1"] true]).conflicts = [] ∧
    ¬ ∃ id ∈ (exampleLostAndFound ["n1"] true).UUIDs, id ∉ ["n1"] := by
  refine ⟨rfl, by decide, by decide, ?_⟩
  simp [exampleLostAndFound]

/-! ### The reference node of a node-change event -/

/-- C26. For every node-change event, with n its Target when the Target is present and
otherwise its Source: `jobLevelFilterPass` is the result of the filter on the message
that holds the single node n; `jobLevelDataSourceFilterPass` is what it is for any other
event whose Target is n, whatever its Source; and `createMessageFromEvent` is the initial
message, carrying the event, to which `WithNode` has added n. For an event with neither
Target nor Source both return true, for every filter, also one whose evaluation would
fail, and `createMessageFromEvent` yields the initial message, which has no node. -/
theorem referenceNode_spec (E : Env) (ctx : Context) (event : NodeChangeEvent)
    (nodesFilter : NodesSelector) (dsFilter : DataSourceSelector) :
    (∀ n, (event.Target = some n ∨ (event.Target = none ∧ event.Source = some n)) →
      Subscriber.jobLevelFilterPass E ctx event nodesFilter =
        E.NodesSelector_Filter nodesFilter ctx { ActionMessage.empty with Nodes := [n] } ∧
      (∀ other : NodeChangeEvent, other.Target = some n →
        Subscriber.jobLevelDataSourceFilterPass E ctx event dsFilter =
          Subscriber.jobLevelDataSourceFilterPass E ctx other dsFilter) ∧
      createMessageFromEvent E (.nodeChange event) =
        E.WithNode { ActionMessage.empty with Event := some (.nodeChange event) } n) ∧
    (event.Target = none → event.Source = none →
      Subscriber.jobLevelFilterPass E ctx event nodesFilter = true ∧
      Subscriber.jobLevelDataSourceFilterPass E ctx event dsFilter = .ok true ∧
      createMessageFromEvent E (.nodeChange event) =
        { ActionMessage.empty with Event := some (.nodeChange event) } ∧
      (createMessageFromEvent E (.nodeChange event)).Nodes = []) := by
  constructor
  · intro n hn
    rcases hn with ht | ⟨ht, hs⟩
    · refine ⟨?_, ?_, ?_⟩
      · simp [Subscriber.jobLevelFilterPass, refNode, ht]
      · intro other ho
        simp [Subscriber.jobLevelDataSourceFilterPass, refNode, ht, ho]
      · simp [createMessageFromEvent, ht]
    · refine ⟨?_, ?_, ?_⟩
      · simp [Subscriber.jobLevelFilterPass, refNode, ht, hs]
      · intro other ho
        simp [Subscriber.jobLevelDataSourceFilterPass, refNode, ht, hs, ho]
      · simp [createMessageFromEvent, ht, hs]
  · intro ht hs
    refine ⟨?_, ?_, ?_, ?_⟩
    · simp [Subscriber.jobLevelFilterPass, refNode, ht, hs]
    · simp [Subscriber.jobLevelDataSourceFilterPass, refNode, ht, hs]
    · simp [createMessageFromEvent, ht, hs]
    · simp [createMessageFromEvent, ht, hs, ActionMessage.empty]

/-- C26, at concrete inputs: for a CREATE event that has a Source without data-source
name and a Target of the data source `pydiods1`, the initial message holds the Target
only, the data-source filter on the name `pydiods1` passes and the one on the name
`other` does not; for the same event without Target the initial message holds the
Source. -/
theorem referenceNode_spec_witness :
    (createMessageFromEvent exampleEnv
        (.nodeChange (exampleNodeEvent .CREATE (some exampleNode) (some exampleNodeOfDataSource))) =
      exampleEnv.WithNode
        { ActionMessage.empty with
          Event := some (.nodeChange
            (exampleNodeEvent .CREATE (some exampleNode) (some exampleNodeOfDataSource))) }
        exampleNodeOfDataSource) ∧
    ((createMessageFromEvent exampleEnv
        (.nodeChange
          (exampleNodeEvent .CREATE (some exampleNode) (some exampleNodeOfDataSource)))).Nodes =
      [exampleNodeOfDataSource]) ∧
    (Subscriber.jobLevelDataSourceFilterPass exampleEnv exampleCtx
        (exampleNodeEvent .CREATE (some exampleNode) (some exampleNodeOfDataSource))
        (exampleSelectorByName "pydiods1") = .ok true) ∧
    (Subscriber.jobLevelDataSourceFilterPass exampleEnv exampleCtx
        (exampleNodeEvent .CREATE (some exampleNode) (some exampleNodeOfDataSource))
        (exampleSelectorByName "other") = .ok false) ∧
    ((createMessageFromEvent exampleEnv
        (.nodeChange (exampleNodeEvent .CREATE (some exampleNode) none))).Nodes =
      [exampleNode]) ∧
    ((createMessageFromEvent exampleEnv
        (.nodeChange (exampleNodeEvent .CREATE none none))).Nodes = []) :=
  ⟨((referenceNode_spec exampleEnv exampleCtx
      (exampleNodeEvent .CREATE (some exampleNode) (some exampleNodeOfDataSource))
      { Label := "", All := true, Pathes := [], Collect := false }
      exampleSelectorWithoutQuery).1 exampleNodeOfDataSource (Or.inl rfl)).2.2,
   rfl, rfl, rfl, rfl,
   ((referenceNode_spec exampleEnv exampleCtx (exampleNodeEvent .CREATE none none)
      { Label := "", All := true, Pathes := [], Collect := false }
      exampleSelectorWithoutQuery).2 rfl rfl).2.2.2⟩

/-! ### Job parameters -/

/-- The map built from the declared parameters: a name has the evaluated value of its
last declaration. -/
theorem foldl_declared_lookup (f : String → String) (ps : List JobParameter)
    (m0 : StrMap String) (k : String) :
    (ps.foldl (fun m p => m.insert p.Name (f p.Value)) m0).lookup k =
      match ps.reverse.find? (fun p => p.Name == k) with
      | some p => some (f p.Value)
      | none => m0.lookup k := by
  induction ps using List.reverseRecOn with
  | nil => simp
  | append_singleton init p ih =>
    rw [List.foldl_append, List.reverse_append]
    simp only [List.foldl_cons, List.foldl_nil, List.reverse_cons, List.reverse_nil,
      List.nil_append, List.singleton_append, List.find?_cons]
    by_cases hk : p.Name = k
    · simp [hk]
    · have hk2 : k ≠ p.Name := fun h => hk h.symm
      have hb : (p.Name == k) = false := by simpa using hk
      simp only [hb, AList.lookup_insert_ne hk2]
      exact ih

/-- The overriding loop of `prepareTaskContext` over the entries of the event parameters:
a name of the map takes the evaluated event value when the event has one, and no name is
added. -/
theorem foldl_override_lookup (g : String → String) (es : List (Σ _ : String, String))
    (hn : es.NodupKeys) (m0 : StrMap String) (k : String) :
    (es.foldl
        (fun (m : StrMap String) kv =>
          if (m.lookup kv.1).isSome then m.insert kv.1 (g kv.2) else m) m0).lookup k =
      if (m0.lookup k).isSome then
        match List.dlookup k es with
        | some v => some (g v)
        | none => m0.lookup k
      else none := by
  induction es generalizing m0 with
  | nil =>
    cases h : m0.lookup k <;> simp [h]
  | cons kv rest ih =>
    obtain ⟨hnot, hrest⟩ := List.nodupKeys_cons.1 hn
    rw [List.foldl_cons, ih hrest]
    by_cases hk : k = kv.1
    · have hnone : List.dlookup k rest = none := by
        rw [hk]
        exact List.dlookup_eq_none.2 hnot
      rw [hnone, hk, List.dlookup_cons_eq]
      cases h : m0.lookup kv.1 <;> simp [h]
    · have hk2 : ¬ kv.1 = k := fun h => hk h.symm
      rw [List.dlookup_cons_ne _ _ hk]
      by_cases hm : (m0.lookup kv.1).isSome = true
      · simp only [hm, if_true, AList.lookup_insert_ne hk]
      · simp [hm]

/-- The names the map of the declared parameters has, and the value of each. -/
theorem foldl_declared_spec (f : String → String) (ps : List JobParameter) (k : String) :
    ((ps.foldl (fun (m : StrMap String) p => m.insert p.Name (f p.Value)) ∅).lookup k =
      (ps.reverse.find? (fun p => p.Name == k)).map (fun p => f p.Value)) ∧
    (((ps.foldl (fun (m : StrMap String) p => m.insert p.Name (f p.Value)) ∅).lookup k).isSome =
      true ↔ k ∈ ps.map (fun p => p.Name)) := by
  have h1 : (ps.foldl (fun (m : StrMap String) p => m.insert p.Name (f p.Value)) ∅).lookup k =
      (ps.reverse.find? (fun p => p.Name == k)).map (fun p => f p.Value) := by
    rw [foldl_declared_lookup]
    cases ps.reverse.find? (fun p => p.Name == k) <;> simp
  refine ⟨h1, ?_⟩
  rw [h1]
  cases hfind : ps.reverse.find? (fun p => p.Name == k) with
  | none =>
    have := List.find?_eq_none.1 hfind
    simp only [Option.map_none', Option.isSome_none, Bool.false_eq_true, false_iff,
      List.mem_map, not_exists, not_and]
    intro p hp hpk
    exact this p (List.mem_reverse.2 hp) (by simpa using hpk)
  | some p =>
    have hp := List.mem_of_find?_eq_some hfind
    have hpk := List.find?_some hfind
    simp only [Option.map_some', Option.isSome_some, true_iff, List.mem_map]
    exact ⟨p, List.mem_reverse.1 hp, by simpa using hpk⟩

/-- C27. For every job with at least one declared parameter, `prepareTaskContext`
returns the context with the system user and the service name added, to which it
attaches a parameter map: the keys of the map are exactly the declared parameter names; a
declared name that occurs in the first map of event parameters has the event value,
evaluated; every other declared name has the value of its (last) declaration, evaluated;
no other name of the event parameters enters the map. For a job without declared
parameters the returned context is the one with the system user and the service name
added, and the parameter map of the given context is not touched, whatever the event
parameters are. -/
theorem prepareTaskContext_parameters (E : Env) (s : Subscriber) (ctx : Context) (job : Job)
    (addSystemUser : Bool) (eventParameters : List (StrMap String)) :
    (job.Parameters ≠ [] →
      ∃ params : StrMap String,
        s.prepareTaskContext E ctx job addSystemUser eventParameters =
          { Subscriber.prepareTaskContext.base E s ctx addSystemUser with
            jobParameters := some params } ∧
        (∀ k, (params.lookup k).isSome = true ↔ k ∈ job.Parameters.map (fun p => p.Name)) ∧
        (∀ k v, k ∈ job.Parameters.map (fun p => p.Name) →
          eventParameters.head?.bind (fun first => first.lookup k) = some v →
          params.lookup k =
            some (E.EvaluateFieldStr (Subscriber.prepareTaskContext.base E s ctx addSystemUser)
              ActionMessage.empty v)) ∧
        (∀ k, k ∈ job.Parameters.map (fun p => p.Name) →
          eventParameters.head?.bind (fun first => first.lookup k) = none →
          params.lookup k =
            (job.Parameters.reverse.find? (fun p => p.Name == k)).map
              (fun p =>
                E.EvaluateFieldStr (Subscriber.prepareTaskContext.base E s ctx addSystemUser)
                  ActionMessage.empty p.Value))) ∧
    (job.Parameters = [] →
      s.prepareTaskContext E ctx job addSystemUser eventParameters =
        Subscriber.prepareTaskContext.base E s ctx addSystemUser ∧
      (s.prepareTaskContext E ctx job addSystemUser eventParameters).jobParameters =
        ctx.jobParameters) := by
  constructor
  · intro hne
    have hlen : job.Parameters.length > 0 := List.length_pos.2 hne
    have hspec := foldl_declared_spec
      (fun v => E.EvaluateFieldStr (Subscriber.prepareTaskContext.base E s ctx addSystemUser)
        ActionMessage.empty v) job.Parameters
    cases eventParameters with
    | nil =>
      refine ⟨_, ?_, fun k => (hspec k).2, ?_, fun k _ _ => (hspec k).1⟩
      · simp only [Subscriber.prepareTaskContext, hlen, if_true]
        rfl
      · intro k v _ hv
        simp at hv
    | cons first others =>
      have hover := foldl_override_lookup
        (fun v => E.EvaluateFieldStr (Subscriber.prepareTaskContext.base E s ctx addSystemUser)
          ActionMessage.empty v) first.entries first.nodupKeys
        (job.Parameters.foldl
          (fun (m : StrMap String) p => m.insert p.Name
            (E.EvaluateFieldStr (Subscriber.prepareTaskContext.base E s ctx addSystemUser)
              ActionMessage.empty p.Value)) ∅)
      refine ⟨first.entries.foldl
          (fun (m : StrMap String) kv =>
            if (m.lookup kv.1).isSome then
              m.insert kv.1
                (E.EvaluateFieldStr (Subscriber.prepareTaskContext.base E s ctx addSystemUser)
                  ActionMessage.empty kv.2)
            else m)
          (job.Parameters.foldl
            (fun (m : StrMap String) p => m.insert p.Name
              (E.EvaluateFieldStr (Subscriber.prepareTaskContext.base E s ctx addSystemUser)
                ActionMessage.empty p.Value)) ∅), ?_, ?_, ?_, ?_⟩
      · simp only [Subscriber.prepareTaskContext, hlen, if_true]
        rfl
      · intro k
        rw [hover k, ← (hspec k).2]
        by_cases hk : ((job.Parameters.foldl
            (fun (m : StrMap String) p => m.insert p.Name
              (E.EvaluateFieldStr (Subscriber.prepareTaskContext.base E s ctx addSystemUser)
                ActionMessage.empty p.Value)) ∅).lookup k).isSome = true
        · simp only [hk, if_true, iff_true]
          cases List.dlookup k first.entries with
          | none => exact hk
          | some v => rfl
        · simp [hk]
      · intro k v hmem hv
        have hk := (hspec k).2.2 hmem
        have hv1 : List.dlookup k first.entries = some v := by simpa [AList.lookup] using hv
        rw [hover k]
        simp only [hk, if_true, hv1]
      · intro k hmem hv
        have hk := (hspec k).2.2 hmem
        have hv1 : List.dlookup k first.entries = none := by simpa [AList.lookup] using hv
        rw [hover k]
        simp only [hk, if_true, hv1]
        exact (hspec k).1
  · intro hnil
    have h : s.prepareTaskContext E ctx job addSystemUser eventParameters =
        Subscriber.prepareTaskContext.base E s ctx addSystemUser := by
      simp only [Subscriber.prepareTaskContext, hnil, List.length_nil, gt_iff_lt, lt_self_iff_false,
        if_false]
      rfl
    refine ⟨h, ?_⟩
    rw [h]
    unfold Subscriber.prepareTaskContext.base
    cases addSystemUser <;> simp
    split_ifs <;> rfl

/-- C27, at concrete inputs: for the job that declares `path`, of value `/tmp`, and
`depth`, of value `1`, and the event parameters `path`, of value `/data`, and `other`,
the attached map gives `/data` for `path` and `1` for `depth`, and has no `other`; for a
job without parameters the same event parameters attach no map. -/
theorem prepareTaskContext_parameters_witness :
    ((exampleJobWithParameters "job1").Parameters ≠ []) ∧
    (((exampleSubscriber []).prepareTaskContext exampleEnv exampleCtx
        (exampleJobWithParameters "job1") true
        [(AList.singleton "path" "/data").insert "other" "x"]).jobParameters.bind
        (fun m => m.lookup "path") = some "/data") ∧
    (((exampleSubscriber []).prepareTaskContext exampleEnv exampleCtx
        (exampleJobWithParameters "job1") true
        [(AList.singleton "path" "/data").insert "other" "x"]).jobParameters.bind
        (fun m => m.lookup "depth") = some "1") ∧
    (((exampleSubscriber []).prepareTaskContext exampleEnv exampleCtx
        (exampleJobWithParameters "job1") true
        [(AList.singleton "path" "/data").insert "other" "x"]).jobParameters.bind
        (fun m => m.lookup "other") = none) ∧
    (((exampleSubscriber []).prepareTaskContext exampleEnv exampleCtx
        (exampleJob "job1" []) true
        [(AList.singleton "path" "/data").insert "other" "x"]).jobParameters = none) := by
  refine ⟨by decide, ?_, by decide, by decide, by decide⟩
  obtain ⟨params, heq, _, hevent, _⟩ :=
    (prepareTaskContext_parameters exampleEnv (exampleSubscriber []) exampleCtx
      (exampleJobWithParameters "job1") true
      [(AList.singleton "path" "/data").insert "other" "x"]).1 (by decide)
  rw [heq]
  exact hevent "path" "/data" (by decide) (by decide)

/-! ### The registry invariant -/

/-- `GetDispatcherForJob` for a job that has a definition keeps the registry invariant. -/
theorem GetDispatcherForJob_dispatchersHaveDefinitions (E : Env) (s : Subscriber) (job : Job)
    (hinv : s.DispatchersHaveDefinitions)
    (hdef : (s.JobsDefinitions.lookup job.ID).isSome = true) :
    (s.GetDispatcherForJob E job).1.DispatchersHaveDefinitions := by
  intro k hk
  rw [GetDispatcherForJob_jobsDefinitions]
  by_cases hkj : k = job.ID
  · rw [hkj]
    exact hdef
  · apply hinv k
    unfold Subscriber.GetDispatcherForJob at hk
    cases hl : s.Dispatchers.lookup job.ID with
    | none => simpa [hl, AList.lookup_insert_ne hkj] using hk
    | some d => simpa [hl] using hk

/-- The load loop of `Init` keeps the subscriber well-formed and keeps the registry
invariant. -/
theorem Init_loop_dispatchersHaveDefinitions (E : Env)
    (responses : List (Option ListJobsResponse)) (s : Subscriber)
    (hwf : s.WellFormed) (hinv : s.DispatchersHaveDefinitions) :
    (Subscriber.Init.loop E s responses).subscriber.WellFormed ∧
    (Subscriber.Init.loop E s responses).subscriber.DispatchersHaveDefinitions := by
  induction responses generalizing s with
  | nil => exact ⟨hwf, hinv⟩
  | cons resp rest ih =>
    cases resp with
    | none => exact ih s hwf hinv
    | some r =>
      unfold Subscriber.Init.loop
      cases hj : r.Job with
      | none => exact ⟨hwf, hinv⟩
      | some job =>
        by_cases hin : job.Inactive = true
        · simpa [hin] using ih s hwf hinv
        · simp only [hin, Bool.false_eq_true, if_false]
          have hwf1 : Subscriber.WellFormed
              { s with JobsDefinitions := s.JobsDefinitions.insert job.ID job } := hwf
          have hinv1 : Subscriber.DispatchersHaveDefinitions
              { s with JobsDefinitions := s.JobsDefinitions.insert job.ID job } := by
            intro k hk
            by_cases hkj : k = job.ID
            · rw [hkj]
              simp [AList.lookup_insert]
            · simpa [AList.lookup_insert_ne hkj] using hinv k hk
          exact ih _ (GetDispatcherForJob_wellFormed E _ hwf1 job)
            (GetDispatcherForJob_dispatchersHaveDefinitions E _ job hinv1
              (by simp [AList.lookup_insert]))

/-- `jobsChangeEvent` keeps the subscriber well-formed and keeps the registry invariant. -/
theorem jobsChangeEvent_dispatchersHaveDefinitions (E : Env) (s : Subscriber)
    (msg : JobChangeEvent) (hwf : s.WellFormed) (hinv : s.DispatchersHaveDefinitions) :
    (s.jobsChangeEvent E msg).1.WellFormed ∧
    (s.jobsChangeEvent E msg).1.DispatchersHaveDefinitions := by
  obtain ⟨hwf1, hdefs, hworkers⟩ := jobsChangeEvent_effect E s hwf msg
  refine ⟨hwf1, ?_⟩
  intro k hk
  rw [← workersOf_isSome _ hwf1, hworkers k] at hk
  rw [hdefs k]
  have hold : (s.workersOf k).isSome = true → (s.JobsDefinitions.lookup k).isSome = true := by
    intro h
    rw [workersOf_isSome _ hwf] at h
    exact hinv k h
  cases hu : msg.JobUpdated with
  | none =>
    simp only [hu] at hk ⊢
    split_ifs at hk ⊢ with hr
    · simp at hk
    · exact hold hk
  | some d =>
    simp only [hu] at hk ⊢
    by_cases hkd : k = d.ID
    · simp [hkd]
    · simp only [hkd, if_false] at hk ⊢
      split_ifs at hk ⊢ with hr
      · simp at hk
      · exact hold hk

/-- Every step of the engine whose deliveries are those of jobs that have a definition
keeps the subscriber well-formed and keeps the registry invariant. -/
theorem step_dispatchersHaveDefinitions (E : Env) (σ τ : Engine)
    (hstep : Engine.Step E Subscriber.deliversDefinedJob σ τ)
    (hwf : σ.subscriber.WellFormed) (hinv : σ.subscriber.DispatchersHaveDefinitions) :
    τ.subscriber.WellFormed ∧ τ.subscriber.DispatchersHaveDefinitions := by
  cases hstep with
  | load responses => exact Init_loop_dispatchersHaveDefinitions E responses _ hwf hinv
  | jobsChange msg => exact jobsChangeEvent_dispatchersHaveDefinitions E _ msg hwf hinv
  | timer ctx event => exact ⟨hwf, hinv⟩
  | node ctx event => exact ⟨hwf, hinv⟩
  | idm ctx event => exact ⟨hwf, hinv⟩
  | deliver task hmem hallowed =>
    exact ⟨GetDispatcherForJob_wellFormed E _ hwf task.Job,
      GetDispatcherForJob_dispatchersHaveDefinitions E _ task.Job hinv hallowed⟩

/-- Every reachable state of the engine whose deliveries are those of jobs that have a
definition is well-formed and has the registry invariant. -/
theorem reachable_dispatchersHaveDefinitions (E : Env) (rootContext : Context) (σ : Engine)
    (h : Engine.Reachable E Subscriber.deliversDefinedJob rootContext σ) :
    σ.subscriber.WellFormed ∧ σ.subscriber.DispatchersHaveDefinitions := by
  induction h with
  | initial =>
    refine ⟨wellFormed_of_no_dispatcher _ rfl, ?_⟩
    intro k hk
    simp [Engine.initial] at hk
  | step σ τ _ hstep ih => exact step_dispatchersHaveDefinitions E σ τ hstep ih.1 ih.2

/-- The task of `job1` is among the tasks created in the example, before and after the
removal of the job. -/
theorem exampleTask_created :
    exampleEngineAfterEvent.tasks = [exampleTask] ∧
    exampleEngineAfterRemoval.tasks = [exampleTask] :=
  ⟨rfl, rfl⟩

/-- C28, as stated, fails: `job1` is registered, the creation of a node makes
`processNodeEvent` create a task of `job1`, `job1` is removed, and then a runnable of the
task reaches the main queue: `GetDispatcherForJob` registers a Dispatcher for `job1`,
which has no definition any more. -/
theorem removed_job_gets_dispatcher :
    ¬ ∀ σ : Engine, Engine.Reachable exampleEnv (fun _ _ => True) exampleCtx σ →
      σ.subscriber.DispatchersHaveDefinitions := by
  intro h
  have h0 : Engine.Reachable exampleEnv (fun _ _ => True) exampleCtx
      (Engine.initial exampleCtx) := Engine.Reachable.initial
  have h1 : Engine.Reachable exampleEnv (fun _ _ => True) exampleCtx exampleEngineAfterUpdate :=
    Engine.Reachable.step _ _ h0 (Engine.Step.jobsChange _ _)
  have h2 : Engine.Reachable exampleEnv (fun _ _ => True) exampleCtx exampleEngineAfterEvent :=
    Engine.Reachable.step _ _ h1 (Engine.Step.node _ exampleCtx _)
  have h3 : Engine.Reachable exampleEnv (fun _ _ => True) exampleCtx exampleEngineAfterRemoval :=
    Engine.Reachable.step _ _ h2 (Engine.Step.jobsChange _ _)
  have hmem : exampleTask ∈ exampleEngineAfterRemoval.tasks := by
    rw [exampleTask_created.2]
    exact List.mem_singleton_self _
  have h4 : Engine.Reachable exampleEnv (fun _ _ => True) exampleCtx
      (exampleEngineAfterDelivery exampleEngineAfterRemoval) :=
    Engine.Reachable.step _ _ h3 (Engine.Step.deliver _ exampleTask hmem trivial)
  have h5 := h _ h4 "job1" (by decide)
  revert h5
  decide

/-- C28, amended. In every state reachable from the empty subscriber through loads by
`Init`, calls of `jobsChangeEvent`, `timerEvent`, `processNodeEvent` and `idmEvent`, and
deliveries to the main queue of runnables whose job has a definition in `JobsDefinitions`
at the time of the delivery, every job identifier that has a Dispatcher in `Dispatchers`
has a definition in `JobsDefinitions`, and an identifier without definition has no
Dispatcher. -/
theorem registry_invariant (E : Env) (rootContext : Context) (σ : Engine)
    (h : Engine.Reachable E Subscriber.deliversDefinedJob rootContext σ) :
    σ.subscriber.DispatchersHaveDefinitions ∧
    (∀ jobId, σ.subscriber.JobsDefinitions.lookup jobId = none →
      σ.subscriber.Dispatchers.lookup jobId = none) := by
  have hinv := (reachable_dispatchersHaveDefinitions E rootContext σ h).2
  refine ⟨hinv, ?_⟩
  intro jobId hnone
  cases hd : σ.subscriber.Dispatchers.lookup jobId with
  | none => rfl
  | some addr =>
    have := hinv jobId (by simp [hd])
    rw [hnone] at this
    cases this

/-- C28, amended, at a concrete input: `job1` is registered, the creation of a node
makes `processNodeEvent` create a task of `job1`, and a runnable of the task reaches the
main queue while `job1` has its definition: afterwards `job1` has a Dispatcher and a
definition. -/
theorem registry_invariant_witness :
    (exampleEngineAfterDelivery exampleEngineAfterEvent).subscriber.DispatchersHaveDefinitions ∧
    ((exampleEngineAfterDelivery exampleEngineAfterEvent).subscriber.Dispatchers.lookup
      "job1").isSome = true ∧
    ((exampleEngineAfterDelivery exampleEngineAfterEvent).subscriber.JobsDefinitions.lookup
      "job1").isSome = true :=
  ⟨(registry_invariant exampleEnv exampleCtx (exampleEngineAfterDelivery exampleEngineAfterEvent)
      (Engine.Reachable.step _ _
        (Engine.Reachable.step _ _
          (Engine.Reachable.step _ _ Engine.Reachable.initial (Engine.Step.jobsChange _ _))
          (Engine.Step.node _ exampleCtx _))
        (Engine.Step.deliver exampleEngineAfterEvent exampleTask
          (List.mem_singleton_self exampleTask)
          (by unfold Subscriber.deliversDefinedJob; decide)))).1,
   by decide, by decide⟩

/-! ### `Node.WithoutReservedMetas` -/

/-- The map left by the deletions of `WithoutReservedMetas` over a list of keys: the
entries of the map whose key is not a reserved key of the list. -/
theorem lookup_foldl_erase_reserved (l : List String) (acc : StrMap String) (k : String) :
    (l.foldl (fun (acc : StrMap String) e =>
        if strings_HasPrefix e "pydio:" then acc.erase e else acc) acc).lookup k =
      if strings_HasPrefix k "pydio:" = true ∧ k ∈ l then none else acc.lookup k := by
  induction l generalizing acc with
  | nil => simp
  | cons e rest ih =>
    rw [List.foldl_cons, ih]
    by_cases hk : k = e
    · rw [hk]
      by_cases hr : strings_HasPrefix e "pydio:" = true
      · simp [hr, AList.lookup_erase]
      · simp [hr]
    · by_cases hr : strings_HasPrefix e "pydio:" = true
      · simp only [hr, if_true, AList.lookup_erase_ne hk]
        split_ifs with h1 h2 h2 <;> simp_all [List.mem_cons]
      · simp only [hr]
        split_ifs with h1 h2 h2 <;> simp_all [List.mem_cons]

/-- The deletions of `WithoutReservedMetas` over keys that are not reserved leave the map
as it is. -/
theorem foldl_erase_reserved_of_none (l : List String) (acc : StrMap String)
    (h : ∀ e ∈ l, strings_HasPrefix e "pydio:" = false) :
    l.foldl (fun (acc : StrMap String) e =>
      if strings_HasPrefix e "pydio:" then acc.erase e else acc) acc = acc := by
  induction l generalizing acc with
  | nil => rfl
  | cons e rest ih =>
    rw [List.foldl_cons]
    have he := h e (List.mem_cons_self _ _)
    simp only [he, Bool.false_eq_true, if_false]
    exact ih acc (fun e1 h1 => h e1 (List.mem_cons_of_mem _ h1))

/-- A deletion in the map object allocated last changes that object only. -/
theorem builtin_delete_last (heap : List (StrMap String)) (m : StrMap String) (k : String) :
    builtin_delete (heap ++ [m]) (some heap.length) k = heap ++ [m.erase k] := by
  unfold builtin_delete
  induction heap with
  | nil => rfl
  | cons x xs ih => simpa [List.modify] using ih

/-- The deletion loop of `WithoutReservedMetas` on the map object allocated last changes
that object only. -/
theorem foldl_delete_last (keys : List String) (heap : List (StrMap String))
    (m : StrMap String) :
    keys.foldl
        (fun h k =>
          if strings_HasPrefix k "pydio:" then builtin_delete h (some heap.length) k else h)
        (heap ++ [m]) =
      heap ++ [keys.foldl (fun (acc : StrMap String) e =>
        if strings_HasPrefix e "pydio:" then acc.erase e else acc) m] := by
  induction keys generalizing m with
  | nil => rfl
  | cons k rest ih =>
    rw [List.foldl_cons, List.foldl_cons]
    by_cases hr : strings_HasPrefix k "pydio:" = true
    · simp only [hr, if_true, builtin_delete_last]
      exact ih _
    · simp only [hr]
      exact ih _

/-- What `WithoutReservedMetas` returns: for a receiver whose `MetaStore` has no entry,
the heap as it is and a struct with the nil map; otherwise the heap with one more map
object, which holds the entries left by the deletions, and a struct that refers to it. -/
theorem WithoutReservedMetas_eq (heap : List (StrMap String)) (n : NodeStruct) :
    Node.WithoutReservedMetas heap (some n) =
      .ok (match n.MetaStore.bind (fun a => heap[a]?) with
        | none => (heap, { n with MetaStore := none })
        | some m =>
          if m.entries.isEmpty then (heap, { n with MetaStore := none })
          else
            (heap ++ [m.keys.foldl (fun (acc : StrMap String) e =>
                if strings_HasPrefix e "pydio:" then acc.erase e else acc) m],
              { n with MetaStore := some heap.length })) := by
  cases hm : n.MetaStore.bind (fun a => heap[a]?) with
  | none =>
    have hc : proto_Clone heap n = (heap, { n with MetaStore := none }) := by
      simp [proto_Clone, hm]
    simp [Node.WithoutReservedMetas, hc]
  | some m =>
    by_cases he : m.entries.isEmpty = true
    · have hc : proto_Clone heap n = (heap, { n with MetaStore := none }) := by
        simp only [proto_Clone, hm, he, if_true]
      simp [Node.WithoutReservedMetas, hc, he]
    · have hc : proto_Clone heap n =
          (heap ++ [m], { n with MetaStore := some heap.length }) := by
        simp only [proto_Clone, hm, he, Bool.false_eq_true, if_false]
      simp only [Node.WithoutReservedMetas, hc, he, Bool.false_eq_true, if_false,
        Option.bind_some, List.getElem?_concat_length]
      rw [foldl_delete_last]
      simp

/-- The node read from a struct after the call, besides its `MetaStore`. -/
theorem toNode_eq_with (heap heap1 : List (StrMap String)) (n : NodeStruct) (a : Option Nat) :
    ({ n with MetaStore := a } : NodeStruct).toNode heap1 =
      { n.toNode heap with
        MetaStore := (({ n with MetaStore := a } : NodeStruct).toNode heap1).MetaStore } := rfl

/-- The entries of the map left by the deletions over the keys of the map. -/
theorem lookup_withoutReserved (m : StrMap String) (k : String) :
    (m.keys.foldl (fun (acc : StrMap String) e =>
        if strings_HasPrefix e "pydio:" then acc.erase e else acc) m).lookup k =
      if strings_HasPrefix k "pydio:" then none else m.lookup k := by
  rw [lookup_foldl_erase_reserved]
  by_cases hr : strings_HasPrefix k "pydio:" = true
  · by_cases hmem : k ∈ m.keys
    · simp [hr, hmem]
    · have hnone : m.lookup k = none := AList.lookup_eq_none.mpr hmem
      simp [hr, hnone]
  · simp [hr]

/-- The map left by the deletions has no reserved key. -/
theorem keys_withoutReserved (m : StrMap String) :
    ∀ e ∈ (m.keys.foldl (fun (acc : StrMap String) e =>
        if strings_HasPrefix e "pydio:" then acc.erase e else acc) m).keys,
      strings_HasPrefix e "pydio:" = false := by
  intro e he
  by_contra hr
  have hr2 : strings_HasPrefix e "pydio:" = true := by simpa using hr
  have hl := lookup_withoutReserved m e
  rw [if_pos hr2] at hl
  exact (AList.lookup_eq_none.mp hl) he

/-- A map without entries is the empty map. -/
theorem eq_empty_of_entries_isEmpty (m : StrMap String) (h : m.entries.isEmpty = true) :
    m = ∅ := by
  apply AList.ext
  simpa using h

/-- One call of `WithoutReservedMetas`: the entries and the other fields of the node
returned, the map objects it leaves untouched, and what it returns besides. -/
theorem WithoutReservedMetas_result (heap : List (StrMap String)) (node : NodeStruct) :
    ∃ heap1 newNode, Node.WithoutReservedMetas heap (some node) = .ok (heap1, newNode) ∧
      (∀ k, (newNode.toNode heap1).metaLookup k =
        if strings_HasPrefix k "pydio:" then none else (node.toNode heap).metaLookup k) ∧
      newNode.toNode heap1 =
        { node.toNode heap with MetaStore := (newNode.toNode heap1).MetaStore } ∧
      (∀ a, a < heap.length → heap1[a]? = heap[a]?) ∧
      (∀ m, (newNode.toNode heap1).MetaStore = some m →
        ∀ e ∈ m.keys, strings_HasPrefix e "pydio:" = false) ∧
      (∀ a, newNode.MetaStore = some a → a < heap1.length) ∧
      ((∀ e ∈ ((node.toNode heap).MetaStore.getD ∅).keys,
          strings_HasPrefix e "pydio:" = false) →
        (newNode.toNode heap1).MetaStore =
          if (node.toNode heap).MetaStore = some ∅ then none
          else (node.toNode heap).MetaStore) := by
  rw [WithoutReservedMetas_eq]
  cases hm : node.MetaStore.bind (fun a => heap[a]?) with
  | none =>
    refine ⟨_, _, rfl, ?_, toNode_eq_with heap heap node none, fun a _ => rfl, ?_, ?_, ?_⟩
    · intro k
      simp [NodeStruct.toNode, Node.metaLookup, hm]
    · intro m h
      simp [NodeStruct.toNode] at h
    · intro a h
      simp at h
    · intro _
      simp [NodeStruct.toNode, hm]
  | some m =>
    by_cases he : m.entries.isEmpty = true
    · simp only [he, if_true]
      refine ⟨_, _, rfl, ?_, toNode_eq_with heap heap node none, fun a _ => rfl, ?_, ?_, ?_⟩
      · intro k
        have hm0 := eq_empty_of_entries_isEmpty m he
        simp [NodeStruct.toNode, Node.metaLookup, hm, hm0]
      · intro m1 h
        simp [NodeStruct.toNode] at h
      · intro a h
        simp at h
      · intro _
        have hm0 := eq_empty_of_entries_isEmpty m he
        simp [NodeStruct.toNode, hm, hm0]
    · simp only [he, Bool.false_eq_true, if_false]
      have hread : (({ node with MetaStore := some heap.length } : NodeStruct).toNode
          (heap ++ [m.keys.foldl (fun (acc : StrMap String) e =>
            if strings_HasPrefix e "pydio:" then acc.erase e else acc) m])).MetaStore =
          some (m.keys.foldl (fun (acc : StrMap String) e =>
            if strings_HasPrefix e "pydio:" then acc.erase e else acc) m) := by
        simp [NodeStruct.toNode]
      refine ⟨_, _, rfl, ?_, toNode_eq_with heap _ node (some heap.length), ?_, ?_, ?_, ?_⟩
      · intro k
        simp only [Node.metaLookup, hread, lookup_withoutReserved]
        simp [NodeStruct.toNode, hm]
      · intro a ha
        exact List.getElem?_append_left ha
      · intro m1 h
        rw [hread] at h
        cases h
        exact keys_withoutReserved m
      · intro a h
        simp only [Option.some.injEq] at h
        simp [← h]
      · intro hclean
        have hclean1 : ∀ e ∈ m.keys, strings_HasPrefix e "pydio:" = false := by
          simpa [NodeStruct.toNode, hm] using hclean
        rw [hread, foldl_erase_reserved_of_none _ _ hclean1]
        have hne : m ≠ ∅ := by
          intro h0
          rw [h0] at he
          exact he rfl
        simp [NodeStruct.toNode, hm, hne]

/-- C20, as stated, fails in its last part: for a node whose `MetaStore` holds reserved
entries only, the `MetaStore` of the node returned is an empty map, and the call on that
node returns a node whose `MetaStore` is the nil map, since `proto.Clone` clones a map
without entries as nil. -/
theorem WithoutReservedMetas_twice_differs :
    ¬ ∀ (heap heap1 heap2 : List (StrMap String)) (node newNode newNode2 : NodeStruct),
      (∀ a, node.MetaStore = some a → a < heap.length) →
      Node.WithoutReservedMetas heap (some node) = .ok (heap1, newNode) →
      Node.WithoutReservedMetas heap1 (some newNode) = .ok (heap2, newNode2) →
      newNode2.toNode heap2 = newNode.toNode heap1 := by
  intro h
  have h1 := h exampleMetaHeap (exampleMetaHeap ++ [∅]) (exampleMetaHeap ++ [∅])
    (exampleNodeStruct (some 1)) (exampleNodeStruct (some 2)) (exampleNodeStruct none)
    (by intro a ha; cases ha; decide) (by rfl) (by rfl)
  have h2 := congrArg (fun n => n.MetaStore.isSome) h1
  revert h2
  decide

/-- C20, amended. For every node struct whose `MetaStore` is nil or an allocated map,
`WithoutReservedMetas` returns a node whose `MetaStore` holds exactly the entries of the
original `MetaStore` whose key does not start with `pydio:`, with the same values, and
whose other fields equal the original ones; every map object allocated before the call,
the one of the receiver included, is as it was, and so is the node read from the
receiver; and the call on the returned node returns a node with the same entries and the
same other fields: the same `MetaStore`, but that an emptied `MetaStore`, which is an
empty map after one call, is the nil map after two. -/
theorem WithoutReservedMetas_spec (heap : List (StrMap String)) (node : NodeStruct)
    (hwf : ∀ a, node.MetaStore = some a → a < heap.length) :
    ∃ heap1 newNode, Node.WithoutReservedMetas heap (some node) = .ok (heap1, newNode) ∧
      (∀ k, (newNode.toNode heap1).metaLookup k =
        if strings_HasPrefix k "pydio:" then none else (node.toNode heap).metaLookup k) ∧
      newNode.toNode heap1 =
        { node.toNode heap with MetaStore := (newNode.toNode heap1).MetaStore } ∧
      (∀ a, a < heap.length → heap1[a]? = heap[a]?) ∧
      node.toNode heap1 = node.toNode heap ∧
      ∃ heap2 newNode2,
        Node.WithoutReservedMetas heap1 (some newNode) = .ok (heap2, newNode2) ∧
        (∀ k, (newNode2.toNode heap2).metaLookup k = (newNode.toNode heap1).metaLookup k) ∧
        newNode2.toNode heap2 =
          { newNode.toNode heap1 with MetaStore := (newNode2.toNode heap2).MetaStore } ∧
        (newNode2.toNode heap2).MetaStore =
          (if (newNode.toNode heap1).MetaStore = some ∅ then none
            else (newNode.toNode heap1).MetaStore) := by
  obtain ⟨heap1, newNode, hrun, hentries, hfields, hframe, hclean, _, _⟩ :=
    WithoutReservedMetas_result heap node
  obtain ⟨heap2, newNode2, hrun2, hentries2, hfields2, _, _, _, hsame⟩ :=
    WithoutReservedMetas_result heap1 newNode
  refine ⟨heap1, newNode, hrun, hentries, hfields, hframe, ?_, heap2, newNode2, hrun2, ?_,
    hfields2, ?_⟩
  · unfold NodeStruct.toNode
    cases ha : node.MetaStore with
    | none => rfl
    | some a => simp [hframe a (hwf a ha)]
  · intro k
    rw [hentries2 k]
    by_cases hr : strings_HasPrefix k "pydio:" = true
    · rw [hentries k]
      simp [hr]
    · simp [hr]
  · apply hsame
    intro e he
    cases hm : (newNode.toNode heap1).MetaStore with
    | none =>
      rw [hm] at he
      simp at he
    | some m =>
      rw [hm] at he
      exact hclean m hm e he

/-- C20, amended, at concrete inputs: for the node whose `MetaStore` has the entries
`name` and `pydio:x`, the returned node has `name` and not `pydio:x`, and the node read
from the receiver still has `pydio:x`; for the node whose `MetaStore` has the entry
`pydio:x` only, the `MetaStore` returned is an empty map, and the call on the returned
node returns the nil map. -/
theorem WithoutReservedMetas_spec_witness :
    (∃ heap1 newNode,
      Node.WithoutReservedMetas exampleMetaHeap (some (exampleNodeStruct (some 0))) =
        .ok (heap1, newNode) ∧
      (newNode.toNode heap1).metaLookup "name" = some "a" ∧
      (newNode.toNode heap1).metaLookup "pydio:x" = none ∧
      ((exampleNodeStruct (some 0)).toNode heap1).metaLookup "pydio:x" = some "1") ∧
    (Node.WithoutReservedMetas exampleMetaHeap (some (exampleNodeStruct (some 1))) =
      .ok (exampleMetaHeap ++ [∅], exampleNodeStruct (some 2))) ∧
    (Node.WithoutReservedMetas (exampleMetaHeap ++ [∅]) (some (exampleNodeStruct (some 2))) =
      .ok (exampleMetaHeap ++ [∅], exampleNodeStruct none)) := by
  refine ⟨?_, rfl, rfl⟩
  obtain ⟨heap1, newNode, hrun, hentries, _, _, hreceiver, _⟩ :=
    WithoutReservedMetas_spec exampleMetaHeap (exampleNodeStruct (some 0))
      (by intro a ha; cases ha; decide)
  refine ⟨heap1, newNode, hrun, ?_, ?_, ?_⟩
  · rw [hentries "name"]
    rfl
  · rw [hentries "pydio:x"]
    rfl
  · rw [hreceiver]
    rfl

end Cells
